import Mathlib

/-!
A shallow embedding of `src/main.c`, a single-table B+tree database with a pager.

Pages are byte buffers (`Nat → Nat`, offset to byte, read modulo 256).  A C
pointer into a page is modelled by the page number together with a byte
offset, so that two pointers to the same page alias as they do in C: every
function threads the `Pager` and reads a node through `Pager.node` at the
moment the C code dereferences it.

Integers of type `uint32_t` are naturals, reduced modulo `2 ^ 32` where the C
arithmetic can wrap.  Multi-byte integers are little-endian.

Faults: `exit(EXIT_FAILURE)`, C undefined behaviour (end of a non-void function
reached without `return`, access outside a buffer), and exhausted fuel of a
loop or recursion of the model.

`malloc` gives a buffer with indeterminate contents: the pager carries
`fresh n`, the bytes of the buffer that `malloc` hands out for page `n`
(a page is allocated at most once between `db_open` and `db_close`).
`free` is not modelled, and a `memcpy` whose source and destination are the
same bytes leaves them as they are.

The file behind the descriptor is a byte sequence with a read/write position;
`open`, `lseek`, `read`, `write` and `close` are taken to succeed.

Loops are structural recursions: on the loop counter where the C loop counts
down, on a fuel argument otherwise.
-/

namespace MyDb

/-! ## Constants -/

def COLUMN_USERNAME_SIZE : Nat := 32
def COLUMN_EMAIL_SIZE : Nat := 255
def TABLE_MAX_PAGES : Nat := 100
def U32 : Nat := 4294967296

def ID_SIZE : Nat := 4
def USERNAME_SIZE : Nat := COLUMN_USERNAME_SIZE
def EMAIL_SIZE : Nat := COLUMN_EMAIL_SIZE
def ID_OFFSET : Nat := 0
def USERNAME_OFFSET : Nat := ID_OFFSET + ID_SIZE
def EMAIL_OFFSET : Nat := USERNAME_OFFSET + USERNAME_SIZE
def ROW_SIZE : Nat := ID_SIZE + USERNAME_SIZE + EMAIL_SIZE
def PAGE_SIZE : Nat := 4096

def NODE_TYPE_SIZE : Nat := 1
def NODE_TYPE_OFFSET : Nat := 0
def IS_ROOT_SIZE : Nat := 1
def IS_ROOT_OFFSET : Nat := NODE_TYPE_SIZE
def PARENT_POINTER_SIZE : Nat := 4
def PARENT_POINTER_OFFSET : Nat := IS_ROOT_OFFSET + IS_ROOT_SIZE
def COMMON_NODE_HEADER_SIZE : Nat := NODE_TYPE_SIZE + IS_ROOT_SIZE + PARENT_POINTER_SIZE

def LEAF_NODE_NUM_CELLS_SIZE : Nat := 4
def LEAF_NODE_NUM_CELLS_OFFSET : Nat := COMMON_NODE_HEADER_SIZE
def LEAF_NODE_NEXT_LEAF_SIZE : Nat := 4
def LEAF_NODE_NEXT_LEAF_OFFSET : Nat := LEAF_NODE_NUM_CELLS_OFFSET + LEAF_NODE_NUM_CELLS_SIZE
def LEAF_NODE_HEADER_SIZE : Nat :=
  COMMON_NODE_HEADER_SIZE + LEAF_NODE_NUM_CELLS_SIZE + LEAF_NODE_NEXT_LEAF_SIZE

def LEAF_NODE_KEY_SIZE : Nat := 4
def LEAF_NODE_KEY_OFFSET : Nat := 0
def LEAF_NODE_VALUE_SIZE : Nat := ROW_SIZE
def LEAF_NODE_VALUE_OFFSET : Nat := LEAF_NODE_KEY_OFFSET + LEAF_NODE_KEY_SIZE
def LEAF_NODE_CELL_SIZE : Nat := LEAF_NODE_KEY_SIZE + LEAF_NODE_VALUE_SIZE
def LEAF_NODE_SPACE_FOR_CELLS : Nat := PAGE_SIZE - LEAF_NODE_HEADER_SIZE
def LEAF_NODE_MAX_CELLS : Nat := LEAF_NODE_SPACE_FOR_CELLS / LEAF_NODE_CELL_SIZE
def LEAF_NODE_RIGHT_SPLIT_COUNT : Nat := (LEAF_NODE_MAX_CELLS + 1) / 2
def LEAF_NODE_LEFT_SPLIT_COUNT : Nat := (LEAF_NODE_MAX_CELLS + 1) - LEAF_NODE_RIGHT_SPLIT_COUNT

def INTERNAL_NODE_NUM_KEYS_SIZE : Nat := 4
def INTERNAL_NODE_NUM_KEYS_OFFSET : Nat := COMMON_NODE_HEADER_SIZE
def INTERNAL_NODE_RIGHT_CHILD_SIZE : Nat := 4
def INTERNAL_NODE_RIGHT_CHILD_OFFSET : Nat :=
  INTERNAL_NODE_NUM_KEYS_OFFSET + INTERNAL_NODE_NUM_KEYS_SIZE
def INTERNAL_NODE_HEADER_SIZE : Nat :=
  COMMON_NODE_HEADER_SIZE + INTERNAL_NODE_NUM_KEYS_SIZE + INTERNAL_NODE_RIGHT_CHILD_SIZE
def INTERNAL_NODE_KEY_SIZE : Nat := 4
def INTERNAL_NODE_CHILD_SIZE : Nat := 4
def INTERNAL_NODE_CELL_SIZE : Nat := INTERNAL_NODE_CHILD_SIZE + INTERNAL_NODE_KEY_SIZE
def INTERNAL_NODE_MAX_CELLS : Nat := 3

/-- The enum `NodeType`: `NODE_INTERNAL` is 0. -/
def NODE_INTERNAL : Nat := 0
/-- The enum `NodeType`: `NODE_LEAF` is 1. -/
def NODE_LEAF : Nat := 1

/-! ## Faults, bytes, pages -/

/-- Ways in which a call does not return normally. -/
inductive Fault where
  | exit_failure
  | undefined
  | out_of_fuel
deriving DecidableEq, Repr

abbrev Exec (α : Type) := Except Fault α

/-- A byte buffer: offset to byte. -/
abbrev Page := Nat → Nat

def read_u8 (p : Page) (off : Nat) : Nat := p off % 256

def read_u32 (p : Page) (off : Nat) : Nat :=
  p off % 256 + 256 * (p (off + 1) % 256) + 65536 * (p (off + 2) % 256)
    + 16777216 * (p (off + 3) % 256)

def write_u8 (p : Page) (off v : Nat) : Page :=
  fun i => if i = off then v % 256 else p i

def write_u32 (p : Page) (off v : Nat) : Page :=
  fun i =>
    if i = off then v % 256
    else if i = off + 1 then v / 256 % 256
    else if i = off + 2 then v / 65536 % 256
    else if i = off + 3 then v / 16777216 % 256
    else p i

/-- The `memcpy(dst + d, src + s, n)` of C: the source bytes are taken from `src` as it is
before the call. -/
def memcpy (dst : Page) (d : Nat) (src : Page) (s n : Nat) : Page :=
  fun i => if d ≤ i ∧ i < d + n then src (s + (i - d)) else dst i

/-- Bytes `[0, n)` of a buffer taken from a list, zero beyond the list. -/
def bytes_of_list (l : List Nat) : Page := fun i => l.getD i 0

/-- The `n` bytes of a buffer from offset `off`. -/
def list_of_bytes (p : Page) (off n : Nat) : List Nat :=
  (List.range n).map (fun i => p (off + i))

/-- An access of `n` bytes at offset `off` stays inside a page buffer. -/
def in_page (off n : Nat) : Bool := decide (off + n ≤ PAGE_SIZE)

/-- Load through a `uint32_t*` that points `off` bytes into a page. -/
def load_u32 (p : Page) (off : Nat) : Exec Nat :=
  if in_page off 4 then .ok (read_u32 p off) else .error .undefined

/-- Store through a `uint32_t*` that points `off` bytes into a page. -/
def store_u32 (p : Page) (off v : Nat) : Exec Page :=
  if in_page off 4 then .ok (write_u32 p off v) else .error .undefined

/-! ## Rows -/

structure Row where
  id : Nat
  username : List Nat
  email : List Nat
deriving DecidableEq, Repr

/-- The `serialize_row` of C, writing at offset `destination` of a page. -/
def serialize_row (source : Row) (p : Page) (destination : Nat) : Page :=
  let p := write_u32 p (destination + ID_OFFSET) source.id
  let p := memcpy p (destination + USERNAME_OFFSET) (bytes_of_list source.username) 0 USERNAME_SIZE
  memcpy p (destination + EMAIL_OFFSET) (bytes_of_list source.email) 0 EMAIL_SIZE

/-- The `deserialize_row` of C, reading at offset `source` of a page. -/
def deserialize_row (p : Page) (source : Nat) : Row :=
  { id := read_u32 p (source + ID_OFFSET)
    username := list_of_bytes p (source + USERNAME_OFFSET) USERNAME_SIZE
    email := list_of_bytes p (source + EMAIL_OFFSET) EMAIL_SIZE }

/-! ## Node accessors (offsets into a page) -/

def leaf_node_num_cells (node : Page) : Nat := read_u32 node LEAF_NODE_NUM_CELLS_OFFSET

def set_leaf_node_num_cells (node : Page) (v : Nat) : Page :=
  write_u32 node LEAF_NODE_NUM_CELLS_OFFSET v

/-- Offset of cell `cell_num`; the product is computed in `uint32_t`. -/
def leaf_node_cell (cell_num : Nat) : Nat :=
  LEAF_NODE_HEADER_SIZE + (cell_num * LEAF_NODE_CELL_SIZE) % U32

def leaf_node_key (cell_num : Nat) : Nat := leaf_node_cell cell_num

def leaf_node_value (cell_num : Nat) : Nat := leaf_node_cell cell_num + LEAF_NODE_KEY_SIZE

def leaf_node_next_leaf (node : Page) : Nat := read_u32 node LEAF_NODE_NEXT_LEAF_OFFSET

def set_leaf_node_next_leaf (node : Page) (v : Nat) : Page :=
  write_u32 node LEAF_NODE_NEXT_LEAF_OFFSET v

def is_node_root (node : Page) : Bool := read_u8 node IS_ROOT_OFFSET != 0

def set_node_root (node : Page) (is_root : Bool) : Page :=
  write_u8 node IS_ROOT_OFFSET (if is_root then 1 else 0)

def get_node_type (node : Page) : Nat := read_u8 node NODE_TYPE_OFFSET

def set_node_type (node : Page) (type : Nat) : Page := write_u8 node NODE_TYPE_OFFSET type

def node_parent (node : Page) : Nat := read_u32 node PARENT_POINTER_OFFSET

def set_node_parent (node : Page) (v : Nat) : Page := write_u32 node PARENT_POINTER_OFFSET v

def initialize_leaf_node (node : Page) : Page :=
  let node := set_node_type node NODE_LEAF
  let node := set_node_root node false
  let node := set_leaf_node_num_cells node 0
  set_leaf_node_next_leaf node 0

def internal_node_num_keys (node : Page) : Nat := read_u32 node INTERNAL_NODE_NUM_KEYS_OFFSET

def set_internal_node_num_keys (node : Page) (v : Nat) : Page :=
  write_u32 node INTERNAL_NODE_NUM_KEYS_OFFSET v

def initialize_internal_node (node : Page) : Page :=
  let node := set_node_type node NODE_INTERNAL
  let node := set_node_root node false
  set_internal_node_num_keys node 0

def internal_node_right_child (node : Page) : Nat := read_u32 node INTERNAL_NODE_RIGHT_CHILD_OFFSET

def set_internal_node_right_child (node : Page) (v : Nat) : Page :=
  write_u32 node INTERNAL_NODE_RIGHT_CHILD_OFFSET v

/-- Offset of internal cell `cell_num`; the product is computed in `uint32_t`. -/
def internal_node_cell (cell_num : Nat) : Nat :=
  INTERNAL_NODE_HEADER_SIZE + (cell_num * INTERNAL_NODE_CELL_SIZE) % U32

/-- Offset of the child pointer `child_num` of an internal node: the right child when
`child_num = num_keys`, `exit(EXIT_FAILURE)` when it is larger. -/
def internal_node_child (node : Page) (child_num : Nat) : Exec Nat :=
  let num_keys := internal_node_num_keys node
  if child_num > num_keys then .error .exit_failure
  else if child_num = num_keys then .ok INTERNAL_NODE_RIGHT_CHILD_OFFSET
  else .ok (internal_node_cell child_num)

def internal_node_key (key_num : Nat) : Nat := internal_node_cell key_num + INTERNAL_NODE_CHILD_SIZE

/-! ## The file behind the descriptor -/

/-- A file with the read/write position of its descriptor. -/
structure File where
  length : Nat
  bytes : Nat → Nat
  offset : Nat

/-- The call `lseek(fd, off, SEEK_SET)`. -/
def File.lseek_set (f : File) (off : Nat) : File := { f with offset := off }

/-- The call `lseek(fd, 0, SEEK_END)`. -/
def File.lseek_end (f : File) : File := { f with offset := f.length }

/-- The call `read(fd, buf, count)`: copies the bytes up to the end of the file. -/
def File.read (f : File) (buf : Page) (count : Nat) : File × Page :=
  let n := min count (f.length - f.offset)
  ({ f with offset := f.offset + n },
   fun i => if i < n then f.bytes (f.offset + i) else buf i)

/-- The call `write(fd, buf, count)` at the current position; a gap is filled with zeros. -/
def File.write (f : File) (buf : Page) (count : Nat) : File :=
  { length := max f.length (f.offset + count)
    bytes := fun i =>
      if f.offset ≤ i ∧ i < f.offset + count then buf (i - f.offset)
      else if i < f.length then f.bytes i else 0
    offset := f.offset + count }

/-- The empty file that `open` with `O_CREAT` makes when the path does not exist. -/
def File.empty : File := { length := 0, bytes := fun _ => 0, offset := 0 }

/-- Page `n` of a file, as a buffer. -/
def File.page (f : File) (n : Nat) : Page := fun i => f.bytes (n * PAGE_SIZE + i)

/-! ## Pager and table -/

/-- The struct `Pager`; `fresh n` is the indeterminate content of the buffer that `malloc`
returns for page `n`. -/
structure Pager where
  file : File
  file_length : Nat
  num_pages : Nat
  pages : Nat → Option Page
  fresh : Nat → Page

/-- The buffer behind `pager->pages[page_num]`. -/
def Pager.node (pager : Pager) (page_num : Nat) : Page :=
  (pager.pages page_num).getD (fun _ => 0)

def Pager.set_node (pager : Pager) (page_num : Nat) (p : Page) : Pager :=
  { pager with pages := fun n => if n = page_num then some p else pager.pages n }

def Pager.modify (pager : Pager) (page_num : Nat) (f : Page → Page) : Pager :=
  pager.set_node page_num (f (pager.node page_num))

structure Table where
  pager : Pager
  root_page_num : Nat

structure Cursor where
  page_num : Nat
  cell_num : Nat
  /-- Is `none` while the field has not been written since `malloc`. -/
  end_of_table : Option Bool
deriving DecidableEq, Repr

inductive ExecuteResult where
  | EXECUTE_SUCCESS
  | EXECUTE_DUPLICATE_KEY
  | EXECUTE_TABLE_FULL
deriving DecidableEq, Repr

def pager_open (f : File) (fresh : Nat → Page) : Exec Pager :=
  let f := f.lseek_end
  let file_length := f.offset
  if file_length % PAGE_SIZE ≠ 0 then .error .exit_failure
  else .ok
    { file := f
      file_length := file_length % U32
      num_pages := (file_length / PAGE_SIZE) % U32
      pages := fun _ => none
      fresh := fresh }

/-- The cache-miss branch of `get_page` up to the store into the slot: the buffer from
`malloc`, overwritten from the file when `page_num <= num_pages` (the local `num_pages`,
computed from `file_length`), and the file with its position moved by the `read`. -/
def Pager.miss (pager : Pager) (page_num : Nat) : File × Page :=
  let page := pager.fresh page_num
  let num_pages :=
    pager.file_length / PAGE_SIZE + (if pager.file_length % PAGE_SIZE ≠ 0 then 1 else 0)
  if page_num ≤ num_pages then
    (pager.file.lseek_set ((page_num * PAGE_SIZE) % U32)).read page PAGE_SIZE
  else (pager.file, page)

/-- The function `get_page`; the result pointer is the buffer of slot `page_num` in the
returned pager.  Slot `TABLE_MAX_PAGES` passes the bound test but lies outside the array. -/
def get_page (pager : Pager) (page_num : Nat) : Exec Pager :=
  if page_num > TABLE_MAX_PAGES then .error .exit_failure
  else if page_num = TABLE_MAX_PAGES then .error .undefined
  else
    match pager.pages page_num with
    | some _ => .ok pager
    | none =>
      let fp := pager.miss page_num
      let pager := { pager with file := fp.1 }
      let pager := pager.set_node page_num fp.2
      if page_num ≥ pager.num_pages then .ok { pager with num_pages := page_num + 1 }
      else .ok pager

def db_open (f : File) (fresh : Nat → Page) : Exec Table := do
  let pager ← pager_open f fresh
  if pager.num_pages = 0 then
    let pager ← get_page pager 0
    let pager := pager.modify 0 initialize_leaf_node
    let pager := pager.modify 0 (fun node => set_node_root node true)
    .ok { pager := pager, root_page_num := 0 }
  else
    .ok { pager := pager, root_page_num := 0 }

/-- The function `pager_flush`: one `write` of `PAGE_SIZE` bytes at the current position. -/
def pager_flush (pager : Pager) (page_num : Nat) : Exec Pager :=
  match pager.pages page_num with
  | none => .error .exit_failure
  | some page => .ok { pager with file := pager.file.write page PAGE_SIZE }

/-- The first loop of `db_close`, pages `i, i + 1, ...` for `count` rounds; slot
`TABLE_MAX_PAGES` and beyond lie outside the array. -/
def db_close_loop (pager : Pager) : Nat → Nat → Exec Pager
  | 0, _ => .ok pager
  | count + 1, i =>
    if i ≥ TABLE_MAX_PAGES then .error .undefined
    else
      match pager.pages i with
      | none => db_close_loop pager count (i + 1)
      | some _ => do
        let pager ← pager_flush pager i
        db_close_loop pager count (i + 1)

/-- The function `db_close`; the result is the file as it is left on disk. -/
def db_close (table : Table) : Exec File := do
  let pager ← db_close_loop table.pager table.pager.num_pages 0
  .ok pager.file

/-! ## Search -/

/-- The loop of `internal_node_find_child`.  Each round at least halves the interval, so 33
rounds are more than a `uint32_t` interval can take. -/
def internal_node_find_child_loop (node : Page) (key : Nat) : Nat → Nat → Nat → Exec Nat
  | 0, min_index, max_index =>
    if min_index ≠ max_index then .error .out_of_fuel else .ok min_index
  | fuel + 1, min_index, max_index =>
    if min_index ≠ max_index then do
      let index := ((min_index + max_index) % U32) / 2
      let key_to_right ← load_u32 node (internal_node_key index)
      if key_to_right ≥ key then internal_node_find_child_loop node key fuel min_index index
      else internal_node_find_child_loop node key fuel (index + 1) max_index
    else .ok min_index

def internal_node_find_child (node : Page) (key : Nat) : Exec Nat :=
  let num_keys := internal_node_num_keys node
  internal_node_find_child_loop node key 33 0 num_keys

/-- The function `leaf_node_find`.  Every path through the body of its `while` returns, so
the body runs at most once; when the loop is not entered the closing brace of the function
is reached without a `return`. -/
def leaf_node_find (table : Table) (page_num key : Nat) : Exec (Table × Cursor) := do
  let pager ← get_page table.pager page_num
  let table := { table with pager := pager }
  let node := pager.node page_num
  let num_cells := leaf_node_num_cells node
  let min_index := 0
  let one_past_max_index := num_cells
  if one_past_max_index ≠ min_index then
    let index := (min_index + one_past_max_index) / 2
    let key_at_index ← load_u32 node (leaf_node_key index)
    if key = key_at_index then
      .ok (table, { page_num := page_num, cell_num := index, end_of_table := none })
    else if key < key_at_index then
      .ok (table, { page_num := page_num, cell_num := min_index, end_of_table := none })
    else
      .ok (table, { page_num := page_num, cell_num := index + 1, end_of_table := none })
  else .error .undefined

/-- The function `internal_node_find`; `fuel` bounds the depth of the recursion. -/
def internal_node_find : Nat → Table → Nat → Nat → Exec (Table × Cursor)
  | 0, _, _, _ => .error .out_of_fuel
  | fuel + 1, table, page_num, key => do
    let pager ← get_page table.pager page_num
    let node := pager.node page_num
    let child_index ← internal_node_find_child node key
    let child_ptr ← internal_node_child node child_index
    let child_num ← load_u32 node child_ptr
    let pager ← get_page pager child_num
    let table := { table with pager := pager }
    let child := pager.node child_num
    if get_node_type child = NODE_LEAF then leaf_node_find table child_num key
    else if get_node_type child = NODE_INTERNAL then internal_node_find fuel table child_num key
    else .error .undefined

/-- The function `table_find`.  No page is written during a search, so a descent through
more than `TABLE_MAX_PAGES + 1` nodes repeats a page and never ends. -/
def table_find (table : Table) (key : Nat) : Exec (Table × Cursor) := do
  let root_page_num := table.root_page_num
  let pager ← get_page table.pager root_page_num
  let table := { table with pager := pager }
  let root_node := pager.node root_page_num
  if get_node_type root_node = NODE_LEAF then leaf_node_find table root_page_num key
  else internal_node_find (TABLE_MAX_PAGES + 1) table root_page_num key

def table_start (table : Table) : Exec (Table × Cursor) := do
  let (table, cursor) ← table_find table 0
  let pager ← get_page table.pager cursor.page_num
  let node := pager.node cursor.page_num
  let num_cells := leaf_node_num_cells node
  .ok ({ table with pager := pager },
       { cursor with end_of_table := some (decide (num_cells = 0)) })

/-- The function `cursor_value`: the offset of the row inside page `cursor.page_num`. -/
def cursor_value (table : Table) (cursor : Cursor) : Exec (Table × Nat) := do
  let page_num := cursor.page_num
  let pager ← get_page table.pager page_num
  .ok ({ table with pager := pager }, leaf_node_value cursor.cell_num)

def cursor_advance (table : Table) (cursor : Cursor) : Exec (Table × Cursor) := do
  let page_num := cursor.page_num
  let pager ← get_page table.pager page_num
  let table := { table with pager := pager }
  let node := pager.node page_num
  let cursor := { cursor with cell_num := (cursor.cell_num + 1) % U32 }
  if cursor.cell_num ≥ leaf_node_num_cells node then
    let next_page_num := leaf_node_next_leaf node
    if next_page_num = 0 then .ok (table, { cursor with end_of_table := some true })
    else .ok (table, { cursor with page_num := next_page_num, cell_num := 0 })
  else .ok (table, cursor)

/-- The `while` loop of `execute_select`; the rows are returned in the order printed. -/
def execute_select_loop : Nat → Table → Cursor → Exec (Table × List Row)
  | fuel, table, cursor =>
    match cursor.end_of_table with
    | none => .error .undefined
    | some true => .ok (table, [])
    | some false =>
      match fuel with
      | 0 => .error .out_of_fuel
      | fuel + 1 => do
        let (table, source) ← cursor_value table cursor
        if in_page source ROW_SIZE then
          let row := deserialize_row (table.pager.node cursor.page_num) source
          let (table, cursor) ← cursor_advance table cursor
          let (table, rows) ← execute_select_loop fuel table cursor
          .ok (table, row :: rows)
        else .error .undefined

def execute_select (fuel : Nat) (table : Table) : Exec (Table × List Row) := do
  let (table, cursor) ← table_start table
  execute_select_loop fuel table cursor

/-! ## Insertion -/

/-- A `memcpy` of `n` bytes between two places of page buffers, both inside their buffer. -/
def memcpy_cell (pager : Pager) (dst_page dst : Nat) (src_page src : Nat) (n : Nat) :
    Exec Pager :=
  if in_page dst n && in_page src n then
    .ok (pager.modify dst_page (fun node => memcpy node dst (pager.node src_page) src n))
  else .error .undefined

/-- A store through a `uint32_t*` into page `page_num`. -/
def Pager.store_u32 (pager : Pager) (page_num off v : Nat) : Exec Pager := do
  let node ← MyDb.store_u32 (pager.node page_num) off v
  .ok (pager.set_node page_num node)

/-- The call `serialize_row(value, node + off)` on page `page_num`. -/
def Pager.serialize_row (pager : Pager) (page_num off : Nat) (value : Row) : Exec Pager :=
  if in_page off ROW_SIZE then
    .ok (pager.modify page_num (fun node => MyDb.serialize_row value node off))
  else .error .undefined

def get_unused_page_num (pager : Pager) : Nat := pager.num_pages

/-- The function `get_node_max_key`; the `switch` has no case for other type bytes, and the
index `n - 1` is computed in `uint32_t`. -/
def get_node_max_key (node : Page) : Exec Nat :=
  if get_node_type node = NODE_INTERNAL then
    load_u32 node (internal_node_key ((internal_node_num_keys node + U32 - 1) % U32))
  else if get_node_type node = NODE_LEAF then
    load_u32 node (leaf_node_key ((leaf_node_num_cells node + U32 - 1) % U32))
  else .error .undefined

def update_internal_node_key (pager : Pager) (page_num old_key new_key : Nat) : Exec Pager := do
  let old_child_index ← internal_node_find_child (pager.node page_num) old_key
  pager.store_u32 page_num (internal_node_key old_child_index) new_key

/-- The loop `for (i = original_num_keys; i > index; i--)` of `internal_node_insert`. -/
def internal_node_insert_loop (parent_page_num index : Nat) : Nat → Pager → Exec Pager
  | 0, pager => .ok pager
  | i + 1, pager =>
    if i + 1 > index then do
      let pager ← memcpy_cell pager parent_page_num (internal_node_cell (i + 1))
        parent_page_num (internal_node_cell i) INTERNAL_NODE_CELL_SIZE
      internal_node_insert_loop parent_page_num index i pager
    else .ok pager

def internal_node_insert (table : Table) (parent_page_num child_page_num : Nat) : Exec Table := do
  let pager ← get_page table.pager parent_page_num
  let pager ← get_page pager child_page_num
  let child_max_key ← get_node_max_key (pager.node child_page_num)
  let index ← internal_node_find_child (pager.node parent_page_num) child_max_key
  let original_num_keys := internal_node_num_keys (pager.node parent_page_num)
  let pager := pager.modify parent_page_num
    (fun node => set_internal_node_num_keys node ((original_num_keys + 1) % U32))
  if original_num_keys ≥ INTERNAL_NODE_MAX_CELLS then .error .exit_failure
  else
    let right_child_page_num := internal_node_right_child (pager.node parent_page_num)
    let pager ← get_page pager right_child_page_num
    let right_max ← get_node_max_key (pager.node right_child_page_num)
    if child_max_key > right_max then
      let child_ptr ← internal_node_child (pager.node parent_page_num) original_num_keys
      let pager ← pager.store_u32 parent_page_num child_ptr right_child_page_num
      let right_max ← get_node_max_key (pager.node right_child_page_num)
      let pager ← pager.store_u32 parent_page_num (internal_node_key original_num_keys) right_max
      let pager := pager.modify parent_page_num
        (fun node => set_internal_node_right_child node child_page_num)
      .ok { table with pager := pager }
    else
      let pager ← internal_node_insert_loop parent_page_num index original_num_keys pager
      let child_ptr ← internal_node_child (pager.node parent_page_num) index
      let pager ← pager.store_u32 parent_page_num child_ptr child_page_num
      let pager ← pager.store_u32 parent_page_num (internal_node_key index) child_max_key
      .ok { table with pager := pager }

def create_new_root (table : Table) (right_child_page_num : Nat) : Exec Table := do
  let root := table.root_page_num
  let pager ← get_page table.pager root
  let pager ← get_page pager right_child_page_num
  let left_child_page_num := get_unused_page_num pager
  let pager ← get_page pager left_child_page_num
  let pager := pager.modify left_child_page_num
    (fun node => memcpy node 0 (pager.node root) 0 PAGE_SIZE)
  let pager := pager.modify left_child_page_num (fun node => set_node_root node false)
  let pager := pager.modify root initialize_internal_node
  let pager := pager.modify root (fun node => set_node_root node true)
  let pager := pager.modify root (fun node => set_internal_node_num_keys node 1)
  let child_ptr ← internal_node_child (pager.node root) 0
  let pager ← pager.store_u32 root child_ptr left_child_page_num
  let left_child_max_key ← get_node_max_key (pager.node left_child_page_num)
  let pager ← pager.store_u32 root (internal_node_key 0) left_child_max_key
  let pager := pager.modify root (fun node => set_internal_node_right_child node right_child_page_num)
  let pager := pager.modify left_child_page_num (fun node => set_node_parent node root)
  let pager := pager.modify right_child_page_num (fun node => set_node_parent node root)
  .ok { table with pager := pager }

/-- The loop `for (int32_t i = LEAF_NODE_MAX_CELLS; i >= 0; i--)` of
`leaf_node_split_and_insert`: the first argument is `i + 1`. -/
def leaf_node_split_loop (cursor : Cursor) (key : Nat) (value : Row) (new_page_num : Nat) :
    Nat → Pager → Exec Pager
  | 0, pager => .ok pager
  | i + 1, pager => do
    let old_page_num := cursor.page_num
    let destination_node :=
      if i ≥ LEAF_NODE_LEFT_SPLIT_COUNT then new_page_num else old_page_num
    let index_within_node := i % LEAF_NODE_LEFT_SPLIT_COUNT
    let destination := leaf_node_cell index_within_node
    let pager ←
      if i = cursor.cell_num then do
        let pager ← pager.serialize_row destination_node (leaf_node_value index_within_node) value
        pager.store_u32 destination_node (leaf_node_key index_within_node) key
      else if i > cursor.cell_num then
        memcpy_cell pager destination_node destination old_page_num (leaf_node_cell (i - 1))
          LEAF_NODE_CELL_SIZE
      else
        memcpy_cell pager destination_node destination old_page_num (leaf_node_cell i)
          LEAF_NODE_CELL_SIZE
    leaf_node_split_loop cursor key value new_page_num i pager

def leaf_node_split_and_insert (table : Table) (cursor : Cursor) (key : Nat) (value : Row) :
    Exec Table := do
  let old_page_num := cursor.page_num
  let pager ← get_page table.pager old_page_num
  let old_max ← get_node_max_key (pager.node old_page_num)
  let new_page_num := get_unused_page_num pager
  let pager ← get_page pager new_page_num
  let pager := pager.modify new_page_num initialize_leaf_node
  let pager := pager.modify new_page_num
    (fun node => set_leaf_node_next_leaf node (leaf_node_next_leaf (pager.node old_page_num)))
  let pager := pager.modify old_page_num (fun node => set_leaf_node_next_leaf node new_page_num)
  let pager ← leaf_node_split_loop cursor key value new_page_num (LEAF_NODE_MAX_CELLS + 1) pager
  let pager := pager.modify old_page_num
    (fun node => set_leaf_node_num_cells node LEAF_NODE_LEFT_SPLIT_COUNT)
  let pager := pager.modify new_page_num
    (fun node => set_leaf_node_num_cells node LEAF_NODE_RIGHT_SPLIT_COUNT)
  let table := { table with pager := pager }
  if is_node_root (pager.node old_page_num) then
    create_new_root table new_page_num
  else
    let parent_page_num := node_parent (pager.node old_page_num)
    let new_max ← get_node_max_key (pager.node old_page_num)
    let pager ← get_page pager parent_page_num
    let pager ← update_internal_node_key pager parent_page_num old_max new_max
    internal_node_insert { table with pager := pager } parent_page_num new_page_num

/-- The loop `for (i = num_cells; i > cursor->cell_num; i--)` of `leaf_node_insert`. -/
def leaf_node_insert_loop (page_num cell_num : Nat) : Nat → Pager → Exec Pager
  | 0, pager => .ok pager
  | i + 1, pager =>
    if i + 1 > cell_num then do
      let pager ← memcpy_cell pager page_num (leaf_node_cell (i + 1)) page_num (leaf_node_cell i)
        LEAF_NODE_CELL_SIZE
      leaf_node_insert_loop page_num cell_num i pager
    else .ok pager

def leaf_node_insert (table : Table) (cursor : Cursor) (key : Nat) (value : Row) :
    Exec Table := do
  let pager ← get_page table.pager cursor.page_num
  let table := { table with pager := pager }
  let num_cells := leaf_node_num_cells (pager.node cursor.page_num)
  if num_cells ≥ LEAF_NODE_MAX_CELLS then
    leaf_node_split_and_insert table cursor key value
  else
    let pager ←
      if cursor.cell_num < num_cells then
        leaf_node_insert_loop cursor.page_num cursor.cell_num num_cells pager
      else .ok pager
    let pager := pager.modify cursor.page_num
      (fun node => set_leaf_node_num_cells node ((leaf_node_num_cells node + 1) % U32))
    let pager ← pager.store_u32 cursor.page_num (leaf_node_key cursor.cell_num) key
    let pager ← pager.serialize_row cursor.page_num (leaf_node_value cursor.cell_num) value
    .ok { table with pager := pager }

/-- The function `execute_insert`.  The variable `node` is the root page throughout: both
`num_cells` and the key compared with the new id are read from it. -/
def execute_insert (row_to_insert : Row) (table : Table) : Exec (Table × ExecuteResult) := do
  let pager ← get_page table.pager table.root_page_num
  let table := { table with pager := pager }
  let num_cells := leaf_node_num_cells (pager.node table.root_page_num)
  let key_to_insert := row_to_insert.id
  let (table, cursor) ← table_find table key_to_insert
  let duplicate ←
    if cursor.cell_num < num_cells then do
      let key_at_index ← load_u32 (table.pager.node table.root_page_num)
        (leaf_node_key cursor.cell_num)
      pure (decide (key_at_index = key_to_insert))
    else pure false
  if duplicate then .ok (table, .EXECUTE_DUPLICATE_KEY)
  else
    let table ← leaf_node_insert table cursor row_to_insert.id row_to_insert
    .ok (table, .EXECUTE_SUCCESS)

/-- A run of `execute_insert` over the rows in turn, with the result of each. -/
def run_inserts (table : Table) : List Row → Exec (Table × List ExecuteResult)
  | [] => .ok (table, [])
  | row :: rows => do
    let (table, r) ← execute_insert row table
    let (table, rs) ← run_inserts table rows
    .ok (table, r :: rs)

/-- A session: `db_open` on a file, then the inserts in turn. -/
def session (f : File) (fresh : Nat → Page) (rows : List Row) :
    Exec (Table × List ExecuteResult) := do
  let table ← db_open f fresh
  run_inserts table rows

/-! ## The tree seen through the pager -/

/-- The bytes `get_page` delivers for page `n`: the resident buffer, else what a miss loads. -/
def Pager.peek (pager : Pager) (n : Nat) : Page :=
  match pager.pages n with
  | some p => p
  | none => (pager.miss n).2

/-- The child pointers of an internal node, cells first, then the right child. -/
def internal_children (node : Page) : List Nat :=
  (List.range (internal_node_num_keys node)).map (fun i => read_u32 node (internal_node_cell i))
    ++ [internal_node_right_child node]

/-- The leaves of the children `cs` one after the other, when `f` gives the leaves under
each child. -/
def collect_leaves (f : Nat → Option (List Nat)) : List Nat → Option (List Nat)
  | [] => some []
  | c :: cs =>
    match f c, collect_leaves f cs with
    | some a, some b => some (a ++ b)
    | _, _ => none

/-- The leaf pages under page `n`, left to right, for a tree of at most `fuel` levels whose
pages lie below `TABLE_MAX_PAGES` and whose internal nodes hold at most
`INTERNAL_NODE_MAX_CELLS` keys. -/
def tree_leaves (view : Nat → Page) : Nat → Nat → Option (List Nat)
  | 0, _ => none
  | fuel + 1, n =>
    if n < TABLE_MAX_PAGES then
      if get_node_type (view n) = NODE_LEAF then some [n]
      else if get_node_type (view n) = NODE_INTERNAL
          ∧ internal_node_num_keys (view n) ≤ INTERNAL_NODE_MAX_CELLS then
        collect_leaves (tree_leaves view fuel) (internal_children (view n))
      else none
    else none

/-- The keys of a leaf, in cell order. -/
def leaf_keys (node : Page) : List Nat :=
  (List.range (leaf_node_num_cells node)).map (fun i => read_u32 node (leaf_node_key i))

/-- The rows of a leaf, in cell order. -/
def leaf_rows (node : Page) : List Row :=
  (List.range (leaf_node_num_cells node)).map (fun i => deserialize_row node (leaf_node_value i))

/-- The rows stored in the leaves `ls`, leaf after leaf. -/
def stored_rows (view : Nat → Page) (ls : List Nat) : List Row :=
  ls.flatMap (fun l => leaf_rows (view l))

/-- The keys stored in the leaves `ls`, leaf after leaf. -/
def stored_keys (view : Nat → Page) (ls : List Nat) : List Nat :=
  ls.flatMap (fun l => leaf_keys (view l))

/-- Each leaf of the list names the next one in `next_leaf` (a page number other than 0), and
the last one holds `next_leaf = 0`. -/
def chain_links (view : Nat → Page) : List Nat → Prop
  | [] => True
  | [l] => leaf_node_next_leaf (view l) = 0
  | l :: l2 :: rest =>
    (leaf_node_next_leaf (view l) = l2 ∧ l2 ≠ 0) ∧ chain_links view (l2 :: rest)

instance chain_links_decidable (view : Nat → Page) : (ls : List Nat) →
    Decidable (chain_links view ls)
  | [] => isTrue trivial
  | [_] => by unfold chain_links; infer_instance
  | _ :: l2 :: rest =>
    have := chain_links_decidable view (l2 :: rest)
    by unfold chain_links; infer_instance

/-- The data-model invariants a scan relies on, for the tree under `root` with leaves `ls`:
the tree has the leaves `ls` from left to right; every leaf holds between 1 and
`LEAF_NODE_MAX_CELLS` cells; the key of a cell is the id of its row; the `next_leaf` chain
links the leaves in this order and ends with 0; the keys along the chain are strictly
ascending. -/
def scan_invariants (view : Nat → Page) (root : Nat) (ls : List Nat) : Prop :=
  tree_leaves view (TABLE_MAX_PAGES + 2) root = some ls
  ∧ (∀ l ∈ ls, 0 < leaf_node_num_cells (view l)
      ∧ leaf_node_num_cells (view l) ≤ LEAF_NODE_MAX_CELLS)
  ∧ (∀ l ∈ ls, ∀ i < leaf_node_num_cells (view l),
      read_u32 (view l) (leaf_node_key i) = (deserialize_row (view l) (leaf_node_value i)).id)
  ∧ chain_links view ls
  ∧ (stored_keys view ls).Pairwise (fun a b => a < b)

instance scan_invariants_decidable (view : Nat → Page) (root : Nat) (ls : List Nat) :
    Decidable (scan_invariants view root ls) := by
  unfold scan_invariants; infer_instance


/-! ## Statements -/

/-- The struct `Statement`: the type tag with the row of an insert. -/
inductive Statement where
  | STATEMENT_INSERT (row_to_insert : Row)
  | STATEMENT_SELECT

/-- The function `execute_statement`; the rows are those a select prints, `fuel` bounds the
rounds of its loop. -/
def execute_statement (fuel : Nat) (statement : Statement) (table : Table) :
    Exec (Table × ExecuteResult × List Row) :=
  match statement with
  | .STATEMENT_INSERT row_to_insert => do
    let (table, result) ← execute_insert row_to_insert table
    .ok (table, result, [])
  | .STATEMENT_SELECT => do
    let (table, rows) ← execute_select fuel table
    .ok (table, .EXECUTE_SUCCESS, rows)

/-- The statements of a session executed in turn, as the loop of `main` does. -/
def run_statements (fuel : Nat) (table : Table) :
    List Statement → Exec (Table × List (ExecuteResult × List Row))
  | [] => .ok (table, [])
  | statement :: statements => do
    let (table, result, rows) ← execute_statement fuel statement table
    let (table, results) ← run_statements fuel table statements
    .ok (table, (result, rows) :: results)

/-- A property of the pager that `get_page` keeps and that does not depend on the page
buffers. -/
def PagerInvariant (Q : Pager → Prop) : Prop :=
  (∀ pager page_num pager', get_page pager page_num = .ok pager' → Q pager → Q pager')
  ∧ (∀ pager page_num page, Q pager → Q (pager.set_node page_num page))

/-- The file of the pager is a whole number of pages long and its position is at a page
boundary. -/
def file_aligned (pager : Pager) : Prop :=
  pager.file.length % PAGE_SIZE = 0 ∧ pager.file.offset % PAGE_SIZE = 0

/-! ## The two parts of a leaf split -/

/-- The first part of `leaf_node_split_and_insert`, up to the stores to the two `num_cells`
fields: the new leaf is set up and the fourteen cells are divided between the two leaves.
Returns the pager with `old_max` and `new_page_num`. -/
def leaf_node_split_cells (table : Table) (cursor : Cursor) (key : Nat) (value : Row) :
    Exec (Pager × Nat × Nat) := do
  let old_page_num := cursor.page_num
  let pager ← get_page table.pager old_page_num
  let old_max ← get_node_max_key (pager.node old_page_num)
  let new_page_num := get_unused_page_num pager
  let pager ← get_page pager new_page_num
  let pager := pager.modify new_page_num initialize_leaf_node
  let pager := pager.modify new_page_num
    (fun node => set_leaf_node_next_leaf node (leaf_node_next_leaf (pager.node old_page_num)))
  let pager := pager.modify old_page_num (fun node => set_leaf_node_next_leaf node new_page_num)
  let pager ← leaf_node_split_loop cursor key value new_page_num (LEAF_NODE_MAX_CELLS + 1) pager
  let pager := pager.modify old_page_num
    (fun node => set_leaf_node_num_cells node LEAF_NODE_LEFT_SPLIT_COUNT)
  let pager := pager.modify new_page_num
    (fun node => set_leaf_node_num_cells node LEAF_NODE_RIGHT_SPLIT_COUNT)
  .ok (pager, old_max, new_page_num)

/-- The second part of `leaf_node_split_and_insert`, from the test `is_node_root(old_node)`
on: a new root is made, or the parent of the old leaf is updated. -/
def leaf_node_split_parent (table : Table) (cursor : Cursor) (old_max new_page_num : Nat) :
    Exec Table :=
  let old_page_num := cursor.page_num
  let pager := table.pager
  if is_node_root (pager.node old_page_num) then
    create_new_root table new_page_num
  else do
    let parent_page_num := node_parent (pager.node old_page_num)
    let new_max ← get_node_max_key (pager.node old_page_num)
    let pager ← get_page pager parent_page_num
    let pager ← update_internal_node_key pager parent_page_num old_max new_max
    internal_node_insert { table with pager := pager } parent_page_num new_page_num

/-! ## Example databases

Database files in the format of the pager, built page by page, and the buffers `malloc`
hands out in the example sessions. -/

/-- A row with the given id, user name `u` and e-mail `e`. -/
def example_row (id : Nat) : Row := { id := id, username := [117], email := [101] }

/-- The rows with the given ids. -/
def example_rows (ids : List Nat) : List Row := ids.map example_row

/-- A buffer of zero bytes. -/
def zero_page : Page := fun _ => 0

/-- The cells `i, i + 1, ...` of a leaf written from the rows, each with its id as key. -/
def put_cells (node : Page) : Nat → List Row → Page
  | _, [] => node
  | i, r :: rs =>
    put_cells (serialize_row r (write_u32 node (leaf_node_key i) r.id) (leaf_node_value i))
      (i + 1) rs

/-- A leaf page in the layout of the file format, holding the rows in the given order. -/
def leaf_page (is_root : Bool) (parent next_leaf : Nat) (rows : List Row) : Page :=
  let node := set_node_root (set_node_type zero_page NODE_LEAF) is_root
  let node := set_leaf_node_next_leaf (set_node_parent node parent) next_leaf
  put_cells (set_leaf_node_num_cells node rows.length) 0 rows

/-- The cells `i, i + 1, ...` of an internal node written from `(child, key)` pairs. -/
def put_internal_cells (node : Page) : Nat → List (Nat × Nat) → Page
  | _, [] => node
  | i, c :: cs =>
    put_internal_cells
      (write_u32 (write_u32 node (internal_node_cell i) c.1) (internal_node_key i) c.2) (i + 1) cs

/-- An internal page in the layout of the file format. -/
def internal_page (is_root : Bool) (parent : Nat) (cells : List (Nat × Nat))
    (right_child : Nat) : Page :=
  let node := set_node_root (set_node_type zero_page NODE_INTERNAL) is_root
  let node := set_internal_node_right_child (set_node_parent node parent) right_child
  put_internal_cells (set_internal_node_num_keys node cells.length) 0 cells

/-- The file made of the given pages, not yet opened. -/
def file_of_pages (ps : List Page) : File :=
  { length := ps.length * PAGE_SIZE
    bytes := fun i => (ps.getD (i / PAGE_SIZE) zero_page) (i % PAGE_SIZE)
    offset := 0 }

/-- A database file of one page: a root leaf holding one row. -/
def seed_file (row : Row) : File := file_of_pages [leaf_page true 0 0 [row]]

/-- Buffers from `malloc` that hold zero bytes. -/
def zero_fresh : Nat → Page := fun _ _ => 0

/-- Buffers from `malloc` that hold the byte `0xAA` everywhere. -/
def junk_fresh : Nat → Page := fun _ _ => 170

/-- A database file of three pages: an internal root with key 2 over the leaf on page 2
(ids 1, 2) and the leaf on page 1 (ids 3, 4). -/
def two_leaf_file : File :=
  file_of_pages
    [internal_page true 0 [(2, 2)] 1,
     leaf_page false 0 0 (example_rows [3, 4]),
     leaf_page false 0 1 (example_rows [1, 2])]

/-- The table `db_open` returns for `two_leaf_file`: no page is resident yet. -/
def two_leaf_table : Table :=
  { pager :=
      { file := two_leaf_file.lseek_end
        file_length := 12288
        num_pages := 3
        pages := fun _ => none
        fresh := zero_fresh }
    root_page_num := 0 }

/-- The ids a `select` prints, when it returns. -/
def select_ids (fuel : Nat) (table : Table) : Exec (List Nat) := do
  let (_, rows) ← execute_select fuel table
  .ok (rows.map Row.id)

/-- The ids a `select` prints after a session of inserts. -/
def session_select_ids (f : File) (fresh : Nat → Page) (rows : List Row) (fuel : Nat) :
    Exec (List Nat) := do
  let (table, _) ← session f fresh rows
  select_ids fuel table

/-- The run `x` returns normally, with a value of which `P` holds. -/
def returns {α : Type} (x : Exec α) (P : α → Prop) : Prop :=
  match x with
  | .ok a => P a
  | .error _ => False

instance returns_decidable {α : Type} (x : Exec α) (P : α → Prop) [DecidablePred P] :
    Decidable (returns x P) :=
  match x with
  | .ok a => inferInstanceAs (Decidable (P a))
  | .error _ => inferInstanceAs (Decidable False)

/-- A session followed by `db_close`: the table as it is in memory before the close, and the
file the close leaves. -/
def session_close (f : File) (fresh : Nat → Page) (rows : List Row) : Exec (Table × File) := do
  let (table, _) ← session f fresh rows
  let file ← db_close table
  .ok (table, file)

/-- Buffers from `malloc` that hold zero bytes except for the parent field of the buffer of
page 3 (the value 5) and the root flag of the buffer of page 5 (the value 1). -/
def recycled_fresh : Nat → Page :=
  fun n i => if n = 3 ∧ i = 2 then 5 else if n = 5 ∧ i = 1 then 1 else 0

/-- The ids `hi, hi - step, hi - 2 * step, ...`, `n` of them. -/
def descending_ids (hi step n : Nat) : List Nat := (List.range n).map (fun i => hi - step * i)

/-- The ids `lo, lo + 1, ...`, `n` of them. -/
def ascending_ids (lo n : Nat) : List Nat := (List.range n).map (fun i => lo + i)

/-- The 295 bytes of a leaf cell that holds `key` and the serialized `value`, as a buffer of
its own. -/
def cell_image (key : Nat) (value : Row) : Page :=
  serialize_row value (write_u32 zero_page 0 key) LEAF_NODE_KEY_SIZE

/-- A database file of two leaf pages, as a split of the root leaf leaves them before the new
root is made: the root on page 0 with the ids 1, 2 and its new sibling on page 1 with the
ids 3, 4. -/
def split_root_file : File :=
  file_of_pages
    [leaf_page true 0 1 (example_rows [1, 2]),
     leaf_page false 0 0 (example_rows [3, 4])]

/-- The table over `split_root_file` with no page resident. -/
def split_root_table : Table :=
  { pager :=
      { file := split_root_file.lseek_end
        file_length := 8192
        num_pages := 2
        pages := fun _ => none
        fresh := junk_fresh }
    root_page_num := 0 }

/-- A database file of four pages: an internal root with key 2 over the leaf on page 2
(ids 1, 2) and the right child on page 1 (ids 5, 6), and a leaf on page 3 (ids 3, 4) that is
not yet a child of the root. -/
def three_leaf_file : File :=
  file_of_pages
    [internal_page true 0 [(2, 2)] 1,
     leaf_page false 0 0 (example_rows [5, 6]),
     leaf_page false 0 3 (example_rows [1, 2]),
     leaf_page false 0 1 (example_rows [3, 4])]

/-- The table over `three_leaf_file` with no page resident. -/
def three_leaf_table : Table :=
  { pager :=
      { file := three_leaf_file.lseek_end
        file_length := 16384
        num_pages := 4
        pages := fun _ => none
        fresh := junk_fresh }
    root_page_num := 0 }

/-! ## Expected contents of a split leaf -/

/-- Cell `i` of the fourteen cells of a split: the cells of `node` with the cell of `key` and
`value` put in at position `cell_num`. -/
def cells_with_insert (node : Page) (cell_num key : Nat) (value : Row) (i : Nat) : Page :=
  if i = cell_num then cell_image key value
  else if i > cell_num then fun j => node (leaf_node_cell (i - 1) + j)
  else fun j => node (leaf_node_cell i + j)

/-- The old leaf while the loop of the split runs, when the rounds `i = 13, ..., k` are
done: the cells from `k` up to 7 hold their final bytes, all else is as in `node`. -/
def split_old_page (node : Page) (cell_num key : Nat) (value : Row) (k : Nat) : Page :=
  fun off =>
    if 14 + 295 * k ≤ off ∧ off < 14 + 295 * 7 then
      cells_with_insert node cell_num key value ((off - 14) / 295) ((off - 14) % 295)
    else node off

/-- The new leaf while the loop of the split runs, when the rounds `i = 13, ..., k` are
done: the cells from `k - 7` up to 7 hold their final bytes, all else is as in `fresh`. -/
def split_new_page (node fresh : Page) (cell_num key : Nat) (value : Row) (k : Nat) : Page :=
  fun off =>
    if 14 + 295 * (k - 7) ≤ off ∧ off < 14 + 295 * 7 then
      cells_with_insert node cell_num key value ((off - 14) / 295 + 7) ((off - 14) % 295)
    else fresh off

/-- The even ids 2, 4, ..., 26. -/
def even_ids : List Nat := (List.range 13).map (fun i => 2 * i + 2)

/-- A database file of three pages: an internal root with key 26 over the full leaf on
page 1 (the even ids 2 to 26) and the right child on page 2 (ids 40, 41). -/
def full_leaf_file : File :=
  file_of_pages
    [internal_page true 0 [(1, 26)] 2,
     leaf_page false 0 2 (example_rows even_ids),
     leaf_page false 0 0 (example_rows [40, 41])]

/-- The table over `full_leaf_file` with no page resident. -/
def full_leaf_table : Table :=
  { pager :=
      { file := full_leaf_file.lseek_end
        file_length := 12288
        num_pages := 3
        pages := fun _ => none
        fresh := junk_fresh }
    root_page_num := 0 }

/-- A database file of six pages: an internal root with the keys 10, 20, 30 over the leaves
on pages 1, 2, 3 and the right child on page 4, and a leaf on page 5 that is not yet a child
of the root. -/
def four_leaf_file : File :=
  file_of_pages
    [internal_page true 0 [(1, 10), (2, 20), (3, 30)] 4,
     leaf_page false 0 2 (example_rows [9, 10]),
     leaf_page false 0 3 (example_rows [19, 20]),
     leaf_page false 0 4 (example_rows [29, 30]),
     leaf_page false 0 0 (example_rows [50, 51]),
     leaf_page false 0 0 (example_rows [39, 40])]

/-- The table over `four_leaf_file` with no page resident. -/
def four_leaf_table : Table :=
  { pager :=
      { file := four_leaf_file.lseek_end
        file_length := 24576
        num_pages := 6
        pages := fun _ => none
        fresh := junk_fresh }
    root_page_num := 0 }

/-- The key of cell `i` of the fourteen cells of a split. -/
def split_key (node : Page) (cell_num key : Nat) (value : Row) (i : Nat) : Nat :=
  read_u32 (cells_with_insert node cell_num key value i) 0

/-- A database file of five pages: an internal root with the keys 26, 60, 80 over the full
leaf on page 1 (the even ids 2 to 26), the leaves on pages 2 and 3, and the right child on
page 4. -/
def full_tree_file : File :=
  file_of_pages
    [internal_page true 0 [(1, 26), (2, 60), (3, 80)] 4,
     leaf_page false 0 2 (example_rows even_ids),
     leaf_page false 0 3 (example_rows [59, 60]),
     leaf_page false 0 4 (example_rows [79, 80]),
     leaf_page false 0 0 (example_rows [90, 91])]

/-- The table over `full_tree_file` with no page resident. -/
def full_tree_table : Table :=
  { pager :=
      { file := full_tree_file.lseek_end
        file_length := 20480
        num_pages := 5
        pages := fun _ => none
        fresh := junk_fresh }
    root_page_num := 0 }

/-- The ids of 34 inserts after the row 1000: twenty descending by ten from 990, then
899 down to 893, then 939 down to 933. -/
def unset_parent_ids : List Nat :=
  descending_ids 990 10 20 ++ descending_ids 899 1 7 ++ descending_ids 939 1 7

/-- The ids of 54 inserts after the row 1000: `unset_parent_ids`, then 799 down to 794,
869 down to 864, 932, 931, and 949 down to 944. -/
def overfull_ids : List Nat :=
  unset_parent_ids ++ descending_ids 799 1 6 ++ descending_ids 869 1 6 ++ [932, 931]
    ++ descending_ids 949 1 6

/-! # Theorems -/

/-! ## Values of the constants -/

@[simp] theorem COLUMN_USERNAME_SIZE_eq : COLUMN_USERNAME_SIZE = 32 := rfl
@[simp] theorem COLUMN_EMAIL_SIZE_eq : COLUMN_EMAIL_SIZE = 255 := rfl
@[simp] theorem TABLE_MAX_PAGES_eq : TABLE_MAX_PAGES = 100 := rfl
@[simp] theorem U32_eq : U32 = 4294967296 := rfl
@[simp] theorem ID_SIZE_eq : ID_SIZE = 4 := rfl
@[simp] theorem USERNAME_SIZE_eq : USERNAME_SIZE = 32 := rfl
@[simp] theorem EMAIL_SIZE_eq : EMAIL_SIZE = 255 := rfl
@[simp] theorem ID_OFFSET_eq : ID_OFFSET = 0 := rfl
@[simp] theorem USERNAME_OFFSET_eq : USERNAME_OFFSET = 4 := rfl
@[simp] theorem EMAIL_OFFSET_eq : EMAIL_OFFSET = 36 := rfl
@[simp] theorem ROW_SIZE_eq : ROW_SIZE = 291 := rfl
@[simp] theorem PAGE_SIZE_eq : PAGE_SIZE = 4096 := rfl
@[simp] theorem NODE_TYPE_SIZE_eq : NODE_TYPE_SIZE = 1 := rfl
@[simp] theorem NODE_TYPE_OFFSET_eq : NODE_TYPE_OFFSET = 0 := rfl
@[simp] theorem IS_ROOT_SIZE_eq : IS_ROOT_SIZE = 1 := rfl
@[simp] theorem IS_ROOT_OFFSET_eq : IS_ROOT_OFFSET = 1 := rfl
@[simp] theorem PARENT_POINTER_SIZE_eq : PARENT_POINTER_SIZE = 4 := rfl
@[simp] theorem PARENT_POINTER_OFFSET_eq : PARENT_POINTER_OFFSET = 2 := rfl
@[simp] theorem COMMON_NODE_HEADER_SIZE_eq : COMMON_NODE_HEADER_SIZE = 6 := rfl
@[simp] theorem LEAF_NODE_NUM_CELLS_SIZE_eq : LEAF_NODE_NUM_CELLS_SIZE = 4 := rfl
@[simp] theorem LEAF_NODE_NUM_CELLS_OFFSET_eq : LEAF_NODE_NUM_CELLS_OFFSET = 6 := rfl
@[simp] theorem LEAF_NODE_NEXT_LEAF_SIZE_eq : LEAF_NODE_NEXT_LEAF_SIZE = 4 := rfl
@[simp] theorem LEAF_NODE_NEXT_LEAF_OFFSET_eq : LEAF_NODE_NEXT_LEAF_OFFSET = 10 := rfl
@[simp] theorem LEAF_NODE_HEADER_SIZE_eq : LEAF_NODE_HEADER_SIZE = 14 := rfl
@[simp] theorem LEAF_NODE_KEY_SIZE_eq : LEAF_NODE_KEY_SIZE = 4 := rfl
@[simp] theorem LEAF_NODE_KEY_OFFSET_eq : LEAF_NODE_KEY_OFFSET = 0 := rfl
@[simp] theorem LEAF_NODE_VALUE_SIZE_eq : LEAF_NODE_VALUE_SIZE = 291 := rfl
@[simp] theorem LEAF_NODE_VALUE_OFFSET_eq : LEAF_NODE_VALUE_OFFSET = 4 := rfl
@[simp] theorem LEAF_NODE_CELL_SIZE_eq : LEAF_NODE_CELL_SIZE = 295 := rfl
@[simp] theorem LEAF_NODE_SPACE_FOR_CELLS_eq : LEAF_NODE_SPACE_FOR_CELLS = 4082 := rfl
@[simp] theorem LEAF_NODE_MAX_CELLS_eq : LEAF_NODE_MAX_CELLS = 13 := rfl
@[simp] theorem LEAF_NODE_RIGHT_SPLIT_COUNT_eq : LEAF_NODE_RIGHT_SPLIT_COUNT = 7 := rfl
@[simp] theorem LEAF_NODE_LEFT_SPLIT_COUNT_eq : LEAF_NODE_LEFT_SPLIT_COUNT = 7 := rfl
@[simp] theorem INTERNAL_NODE_NUM_KEYS_SIZE_eq : INTERNAL_NODE_NUM_KEYS_SIZE = 4 := rfl
@[simp] theorem INTERNAL_NODE_NUM_KEYS_OFFSET_eq : INTERNAL_NODE_NUM_KEYS_OFFSET = 6 := rfl
@[simp] theorem INTERNAL_NODE_RIGHT_CHILD_SIZE_eq : INTERNAL_NODE_RIGHT_CHILD_SIZE = 4 := rfl
@[simp] theorem INTERNAL_NODE_RIGHT_CHILD_OFFSET_eq : INTERNAL_NODE_RIGHT_CHILD_OFFSET = 10 := rfl
@[simp] theorem INTERNAL_NODE_HEADER_SIZE_eq : INTERNAL_NODE_HEADER_SIZE = 14 := rfl
@[simp] theorem INTERNAL_NODE_KEY_SIZE_eq : INTERNAL_NODE_KEY_SIZE = 4 := rfl
@[simp] theorem INTERNAL_NODE_CHILD_SIZE_eq : INTERNAL_NODE_CHILD_SIZE = 4 := rfl
@[simp] theorem INTERNAL_NODE_CELL_SIZE_eq : INTERNAL_NODE_CELL_SIZE = 8 := rfl
@[simp] theorem INTERNAL_NODE_MAX_CELLS_eq : INTERNAL_NODE_MAX_CELLS = 3 := rfl
@[simp] theorem NODE_INTERNAL_eq : NODE_INTERNAL = 0 := rfl
@[simp] theorem NODE_LEAF_eq : NODE_LEAF = 1 := rfl

/-! ## The monad of faults -/

@[simp] theorem ok_bind {α β : Type} (x : α) (f : α → Exec β) :
    ((Except.ok x : Exec α) >>= f) = f x := rfl

@[simp] theorem error_bind {α β : Type} (e : Fault) (f : α → Exec β) :
    ((Except.error e : Exec α) >>= f) = Except.error e := rfl

/-! ## The pager as a view of pages -/

theorem miss_fst_bytes (pager : Pager) (n : Nat) : (pager.miss n).1.bytes = pager.file.bytes := by
  simp only [Pager.miss]; split_ifs <;> rfl

theorem miss_fst_length (pager : Pager) (n : Nat) :
    (pager.miss n).1.length = pager.file.length := by
  simp only [Pager.miss]; split_ifs <;> rfl

theorem peek_miss_congr (pager pager' : Pager) (m : Nat)
    (hb : pager'.file.bytes = pager.file.bytes) (hl : pager'.file.length = pager.file.length)
    (hfl : pager'.file_length = pager.file_length) (hf : pager'.fresh = pager.fresh) :
    (pager'.miss m).2 = (pager.miss m).2 := by
  simp only [Pager.miss, hfl, hf]
  split_ifs <;> simp only [File.read, File.lseek_set, hb, hl]

/-- A page below `TABLE_MAX_PAGES` is delivered by `get_page` with the bytes `peek` names, and
no page changes its bytes by the call. -/
theorem get_page_ok (pager : Pager) (n : Nat) (h : n < TABLE_MAX_PAGES) :
    ∃ pager', get_page pager n = .ok pager' ∧ pager'.node n = pager.peek n
      ∧ pager'.peek = pager.peek := by
  unfold get_page
  have h1 : ¬ n > TABLE_MAX_PAGES := by omega
  have h2 : ¬ n = TABLE_MAX_PAGES := by omega
  rw [if_neg h1, if_neg h2]
  cases hp : pager.pages n with
  | some p =>
    refine ⟨pager, rfl, ?_, rfl⟩
    simp [Pager.node, Pager.peek, hp]
  | none =>
    simp only
    have key : ∀ np : Nat,
        (({ ({ pager with file := (pager.miss n).1 } : Pager).set_node n (pager.miss n).2 with
            num_pages := np } : Pager).node n = pager.peek n)
        ∧ ({ ({ pager with file := (pager.miss n).1 } : Pager).set_node n (pager.miss n).2 with
            num_pages := np } : Pager).peek = pager.peek := by
      intro np
      constructor
      · simp [Pager.node, Pager.peek, Pager.set_node, hp]
      · funext m
        by_cases hm : m = n
        · subst hm; simp [Pager.peek, Pager.set_node, hp]
        · simp only [Pager.peek, Pager.set_node, hm, if_false]
          cases hq : pager.pages m with
          | some q => rfl
          | none =>
            simp only
            apply peek_miss_congr
            · exact miss_fst_bytes pager n
            · exact miss_fst_length pager n
            · rfl
            · rfl
    split
    · exact ⟨_, rfl, key _⟩
    · refine ⟨_, rfl, ?_⟩
      have := key pager.num_pages
      simpa [Pager.set_node] using this

theorem leaf_node_cell_eq (c : Nat) (h : c ≤ LEAF_NODE_MAX_CELLS) :
    leaf_node_cell c = 14 + c * 295 := by
  simp only [leaf_node_cell, LEAF_NODE_MAX_CELLS_eq, LEAF_NODE_HEADER_SIZE_eq,
    LEAF_NODE_CELL_SIZE_eq, U32_eq] at *
  omega

theorem internal_node_cell_eq (c : Nat) (h : c ≤ 509) :
    internal_node_cell c = 14 + c * 8 := by
  simp only [internal_node_cell, INTERNAL_NODE_HEADER_SIZE_eq,
    INTERNAL_NODE_CELL_SIZE_eq, U32_eq] at *
  omega

theorem internal_node_find_child_loop_zero (node : Page) :
    ∀ (fuel max_index : Nat), max_index ≤ 509 → max_index < 2 ^ fuel →
      internal_node_find_child_loop node 0 fuel 0 max_index = .ok 0 := by
  intro fuel
  induction fuel with
  | zero =>
    intro max_index _ h
    have : max_index = 0 := by simpa using h
    subst this
    simp [internal_node_find_child_loop]
  | succ fuel ih =>
    intro max_index hb h
    unfold internal_node_find_child_loop
    by_cases hm : 0 = max_index
    · subst hm; simp
    · have hne : (0 : Nat) ≠ max_index := hm
      rw [if_pos hne]
      have hidx : (0 + max_index) % U32 / 2 = max_index / 2 := by
        simp only [U32_eq]; omega
      rw [hidx]
      have hin : in_page (internal_node_key (max_index / 2)) 4 = true := by
        simp only [in_page, internal_node_key, internal_node_cell_eq (max_index / 2) (by omega),
          INTERNAL_NODE_CHILD_SIZE_eq, PAGE_SIZE_eq, decide_eq_true_eq]
        omega
      simp only [load_u32, hin, if_true, ok_bind, ge_iff_le, Nat.zero_le]
      apply ih
      · omega
      · rw [Nat.pow_succ] at h; omega

theorem internal_node_find_child_zero (node : Page)
    (h : internal_node_num_keys node ≤ INTERNAL_NODE_MAX_CELLS) :
    internal_node_find_child node 0 = .ok 0 := by
  unfold internal_node_find_child
  apply internal_node_find_child_loop_zero
  · simp only [INTERNAL_NODE_MAX_CELLS_eq] at h; omega
  · simp only [INTERNAL_NODE_MAX_CELLS_eq] at h
    calc internal_node_num_keys node ≤ 3 := h
      _ < 2 ^ 33 := by norm_num

theorem map_range_pairwise {α : Type} (R : α → α → Prop) (f : Nat → α) (n : Nat)
    (h : ((List.range n).map f).Pairwise R) (i j : Nat) (hij : i < j) (hj : j < n) :
    R (f i) (f j) := by
  rw [List.pairwise_iff_getElem] at h
  have := h i j (by simp; omega) (by simp; omega) hij
  simpa using this

/-- On a non-empty leaf with strictly ascending keys, the search for key 0 ends on cell 0. -/
theorem leaf_node_find_zero (table : Table) (l : Nat) (hl : l < TABLE_MAX_PAGES)
    (hn : 0 < leaf_node_num_cells (table.pager.peek l))
    (hn' : leaf_node_num_cells (table.pager.peek l) ≤ LEAF_NODE_MAX_CELLS)
    (hasc : (leaf_keys (table.pager.peek l)).Pairwise (fun a b => a < b)) :
    ∃ table', leaf_node_find table l 0
        = .ok (table', { page_num := l, cell_num := 0, end_of_table := none })
      ∧ table'.pager.peek = table.pager.peek
      ∧ table'.root_page_num = table.root_page_num := by
  obtain ⟨pager', hg, hnode, hpeek⟩ := get_page_ok table.pager l hl
  unfold leaf_node_find
  rw [hg]
  simp only [ok_bind, hnode]
  generalize hN : leaf_node_num_cells (table.pager.peek l) = n at hn hn'
  have hne : n ≠ 0 := by omega
  rw [if_pos hne]
  have hn13 : n ≤ 13 := by simpa using hn'
  have hin : in_page (leaf_node_key ((0 + n) / 2)) 4 = true := by
    simp only [in_page, leaf_node_key, leaf_node_cell_eq ((0 + n) / 2) (by simp; omega),
      PAGE_SIZE_eq, decide_eq_true_eq]
    omega
  simp only [load_u32, hin, if_true, ok_bind]
  by_cases h0 : 0 = read_u32 (table.pager.peek l) (leaf_node_key ((0 + n) / 2))
  · rw [if_pos h0]
    have hidx : (0 + n) / 2 = 0 := by
      by_contra hc
      have hpos : 0 < (0 + n) / 2 := Nat.pos_of_ne_zero hc
      have := map_range_pairwise _ _ _ (by simpa [leaf_keys, hN] using hasc) 0 ((0 + n) / 2)
        hpos (by omega)
      omega
    exact ⟨{ table with pager := pager' }, by rw [hidx], hpeek, rfl⟩
  · rw [if_neg h0]
    have hlt : 0 < read_u32 (table.pager.peek l) (leaf_node_key ((0 + n) / 2)) := by omega
    rw [if_pos hlt]
    exact ⟨{ table with pager := pager' }, rfl, hpeek, rfl⟩

/-! ## The leftmost leaf -/

/-- The child an internal node lists first. -/
theorem internal_children_head (node : Page) :
    ∃ cs, internal_children node
      = (if internal_node_num_keys node = 0 then internal_node_right_child node
          else read_u32 node (internal_node_cell 0)) :: cs := by
  unfold internal_children
  cases h : internal_node_num_keys node with
  | zero => exact ⟨[], by simp⟩
  | succ k =>
    refine ⟨(List.range k).map (fun i => read_u32 node (internal_node_cell (i + 1)))
      ++ [internal_node_right_child node], ?_⟩
    simp [List.range_succ_eq_map, List.map_map, Function.comp_def]

theorem tree_leaves_lt (view : Nat → Page) (k n : Nat) (ls : List Nat)
    (h : tree_leaves view k n = some ls) : n < TABLE_MAX_PAGES := by
  cases k with
  | zero => simp [tree_leaves] at h
  | succ k =>
    unfold tree_leaves at h
    by_contra hc
    rw [if_neg hc] at h
    exact absurd h (by simp)

theorem collect_leaves_cons {f : Nat → Option (List Nat)} {c : Nat} {cs : List Nat}
    {ls : List Nat} (h : collect_leaves f (c :: cs) = some ls) :
    ∃ a b, f c = some a ∧ collect_leaves f cs = some b ∧ ls = a ++ b := by
  unfold collect_leaves at h
  cases hf : f c with
  | none => simp [hf] at h
  | some a =>
    cases hc : collect_leaves f cs with
    | none => simp [hf, hc] at h
    | some b =>
      simp only [hf, hc, Option.some.injEq] at h
      exact ⟨a, b, rfl, rfl, h.symm⟩

/-- What a successful `tree_leaves` says about an internal page. -/
theorem tree_leaves_internal (view : Nat → Page) (k n : Nat) (ls : List Nat)
    (h : tree_leaves view (k + 1) n = some ls) (hty : get_node_type (view n) = NODE_INTERNAL) :
    internal_node_num_keys (view n) ≤ INTERNAL_NODE_MAX_CELLS
      ∧ collect_leaves (tree_leaves view k) (internal_children (view n)) = some ls := by
  have hlt := tree_leaves_lt view (k + 1) n ls h
  unfold tree_leaves at h
  rw [if_pos hlt] at h
  have hnl : ¬ get_node_type (view n) = NODE_LEAF := by
    rw [hty]; simp
  rw [if_neg hnl] at h
  by_cases hc : get_node_type (view n) = NODE_INTERNAL
      ∧ internal_node_num_keys (view n) ≤ INTERNAL_NODE_MAX_CELLS
  · rw [if_pos hc] at h
    exact ⟨hc.2, h⟩
  · rw [if_neg hc] at h
    exact absurd h (by simp)

/-- What a successful `tree_leaves` says about the type byte of a page. -/
theorem tree_leaves_type (view : Nat → Page) (k n : Nat) (ls : List Nat)
    (h : tree_leaves view (k + 1) n = some ls) :
    (get_node_type (view n) = NODE_LEAF ∧ ls = [n])
      ∨ get_node_type (view n) = NODE_INTERNAL := by
  have hlt := tree_leaves_lt view (k + 1) n ls h
  unfold tree_leaves at h
  rw [if_pos hlt] at h
  by_cases hl : get_node_type (view n) = NODE_LEAF
  · rw [if_pos hl] at h
    exact Or.inl ⟨hl, by simpa using h.symm⟩
  · rw [if_neg hl] at h
    by_cases hc : get_node_type (view n) = NODE_INTERNAL
        ∧ internal_node_num_keys (view n) ≤ INTERNAL_NODE_MAX_CELLS
    · exact Or.inr hc.1
    · rw [if_neg hc] at h
      exact absurd h (by simp)

/-- Child 0 of an internal node, as `internal_node_find` reads it, is the child listed first. -/
theorem load_child_zero (node : Page) :
    (internal_node_child node 0 >>= fun child_ptr => load_u32 node child_ptr)
      = .ok (if internal_node_num_keys node = 0 then internal_node_right_child node
          else read_u32 node (internal_node_cell 0)) := by
  unfold internal_node_child
  by_cases h : internal_node_num_keys node = 0
  · simp [h, load_u32, in_page, internal_node_right_child]
  · have h1 : ¬ 0 > internal_node_num_keys node := by omega
    have h2 : ¬ 0 = internal_node_num_keys node := by omega
    simp [h, h2, load_u32, in_page, internal_node_cell]

/-- The descent of `internal_node_find` for key 0 ends on cell 0 of the first leaf of the tree. -/
theorem internal_node_find_zero (view : Nat → Page) :
    ∀ (k n : Nat) (ls : List Nat) (table : Table), table.pager.peek = view →
      tree_leaves view (k + 1) n = some ls → get_node_type (view n) = NODE_INTERNAL →
      (∀ l ∈ ls, 0 < leaf_node_num_cells (view l)
        ∧ leaf_node_num_cells (view l) ≤ LEAF_NODE_MAX_CELLS
        ∧ (leaf_keys (view l)).Pairwise (fun a b => a < b)) →
      ∃ table' l rest, ls = l :: rest
        ∧ internal_node_find k table n 0
            = .ok (table', { page_num := l, cell_num := 0, end_of_table := none })
        ∧ table'.pager.peek = view ∧ table'.root_page_num = table.root_page_num := by
  intro k
  induction k with
  | zero =>
    intro n ls table _ htree hty _
    obtain ⟨_, hcol⟩ := tree_leaves_internal view 0 n ls htree hty
    obtain ⟨cs, hcs⟩ := internal_children_head (view n)
    rw [hcs] at hcol
    obtain ⟨a, _, ha, _, _⟩ := collect_leaves_cons hcol
    simp [tree_leaves] at ha
  | succ k ih =>
    intro n ls table hview htree hty hleaf
    have hn := tree_leaves_lt view _ n ls htree
    obtain ⟨hK, hcol⟩ := tree_leaves_internal view (k + 1) n ls htree hty
    obtain ⟨cs, hcs⟩ := internal_children_head (view n)
    have hload := load_child_zero (view n)
    generalize (if internal_node_num_keys (view n) = 0 then internal_node_right_child (view n)
      else read_u32 (view n) (internal_node_cell 0)) = c at hcs hload
    rw [hcs] at hcol
    obtain ⟨a, b, ha, _, hls⟩ := collect_leaves_cons hcol
    have hc := tree_leaves_lt view _ _ a ha
    obtain ⟨pager1, hg1, hnode1, hpeek1⟩ := get_page_ok table.pager n hn
    rw [hview] at hnode1 hpeek1
    obtain ⟨pager2, hg2, hnode2, hpeek2⟩ := get_page_ok pager1 c hc
    rw [hpeek1] at hnode2 hpeek2
    rw [internal_node_find, hg1]
    simp only [ok_bind, hnode1, internal_node_find_child_zero _ hK]
    rw [← bind_assoc, hload]
    simp only [ok_bind]
    rw [hg2]
    simp only [ok_bind, hnode2]
    rcases tree_leaves_type view k _ a ha with ⟨hleafty, hal⟩ | hint
    · rw [if_pos hleafty]
      have hmem : c ∈ ls := by
        rw [hls, hal]; simp
      obtain ⟨h1, h2, h3⟩ := hleaf _ hmem
      obtain ⟨table', hfind, hp, hr⟩ := leaf_node_find_zero
        { table with pager := pager2 } c hc (by simpa [hpeek2] using h1)
        (by simpa [hpeek2] using h2) (by simpa [hpeek2] using h3)
      refine ⟨table', c, b, ?_, hfind, ?_, ?_⟩
      · rw [hls, hal]; rfl
      · rw [hp]; exact hpeek2
      · rw [hr]
    · have hnl : ¬ get_node_type (view c) = NODE_LEAF := by
        rw [hint]; simp
      rw [if_neg hnl, if_pos hint]
      obtain ⟨table', l, rest, hl, hfind, hp, hr⟩ := ih c a { table with pager := pager2 }
        hpeek2 ha hint (fun l hl => hleaf l (by rw [hls]; exact List.mem_append_left _ hl))
      refine ⟨table', l, rest ++ b, ?_, hfind, hp, ?_⟩
      · rw [hls, hl]; rfl
      · rw [hr]

theorem collect_leaves_mem {f : Nat → Option (List Nat)} :
    ∀ (cs : List Nat) (ls : List Nat), collect_leaves f cs = some ls →
      ∀ l ∈ ls, ∃ c ∈ cs, ∃ a, f c = some a ∧ l ∈ a := by
  intro cs
  induction cs with
  | nil =>
    intro ls h l hl
    simp [collect_leaves] at h
    subst h
    simp at hl
  | cons c cs ih =>
    intro ls h l hl
    obtain ⟨a, b, ha, hb, hls⟩ := collect_leaves_cons h
    rw [hls] at hl
    rcases List.mem_append.mp hl with h1 | h2
    · exact ⟨c, by simp, a, ha, h1⟩
    · obtain ⟨c', hc', a', ha', hl'⟩ := ih b hb l h2
      exact ⟨c', by simp [hc'], a', ha', hl'⟩

/-- Every leaf of a tree is a page below `TABLE_MAX_PAGES`. -/
theorem tree_leaves_mem_lt (view : Nat → Page) :
    ∀ (k n : Nat) (ls : List Nat), tree_leaves view k n = some ls →
      ∀ l ∈ ls, l < TABLE_MAX_PAGES := by
  intro k
  induction k with
  | zero => intro n ls h; simp [tree_leaves] at h
  | succ k ih =>
    intro n ls h l hl
    rcases tree_leaves_type view k n ls h with ⟨_, hls⟩ | hty
    · rw [hls] at hl
      have : l = n := by simpa using hl
      rw [this]
      exact tree_leaves_lt view _ n ls h
    · obtain ⟨_, hcol⟩ := tree_leaves_internal view k n ls h hty
      obtain ⟨c, _, a, ha, hla⟩ := collect_leaves_mem _ ls hcol l hl
      exact ih c a ha l hla

/-- On a tree with non-empty, ordered leaves `table_start` returns a cursor on cell 0 of the
first leaf, not at the end of the table. -/
theorem table_start_first_leaf (view : Nat → Page) (table : Table) (ls : List Nat)
    (hview : table.pager.peek = view)
    (htree : tree_leaves view (TABLE_MAX_PAGES + 2) table.root_page_num = some ls)
    (hleaf : ∀ l ∈ ls, 0 < leaf_node_num_cells (view l)
        ∧ leaf_node_num_cells (view l) ≤ LEAF_NODE_MAX_CELLS
        ∧ (leaf_keys (view l)).Pairwise (fun a b => a < b)) :
    ∃ table' l rest, ls = l :: rest
      ∧ table_start table
          = .ok (table', { page_num := l, cell_num := 0, end_of_table := some false })
      ∧ table'.pager.peek = view ∧ table'.root_page_num = table.root_page_num := by
  have hroot := tree_leaves_lt view _ _ ls htree
  obtain ⟨pager1, hg1, hnode1, hpeek1⟩ := get_page_ok table.pager table.root_page_num hroot
  rw [hview] at hnode1 hpeek1
  have hfind : ∃ table1 l rest, ls = l :: rest
      ∧ table_find table 0
          = .ok (table1, { page_num := l, cell_num := 0, end_of_table := none })
      ∧ table1.pager.peek = view ∧ table1.root_page_num = table.root_page_num := by
    unfold table_find
    dsimp only
    rw [hg1]
    simp only [ok_bind, hnode1]
    rcases tree_leaves_type view _ _ ls htree with ⟨hty, hls⟩ | hty
    · rw [if_pos hty]
      obtain ⟨h1, h2, h3⟩ := hleaf table.root_page_num (by rw [hls]; simp)
      obtain ⟨table', hf, hp, hr⟩ := leaf_node_find_zero
        { table with pager := pager1 } table.root_page_num hroot
        (by simpa [hpeek1] using h1) (by simpa [hpeek1] using h2) (by simpa [hpeek1] using h3)
      exact ⟨table', _, [], hls, hf, by rw [hp]; exact hpeek1, by rw [hr]⟩
    · have hnl : ¬ get_node_type (view table.root_page_num) = NODE_LEAF := by
        rw [hty]; simp
      rw [if_neg hnl]
      exact internal_node_find_zero view (TABLE_MAX_PAGES + 1) table.root_page_num ls
        { table with pager := pager1 } hpeek1 htree hty hleaf
  obtain ⟨table1, l, rest, hls, hf, hp1, hr1⟩ := hfind
  have hmem : l ∈ ls := by rw [hls]; simp
  have hl : l < TABLE_MAX_PAGES := tree_leaves_mem_lt view _ _ ls htree l hmem
  obtain ⟨h1, _, _⟩ := hleaf l hmem
  obtain ⟨pager2, hg2, hnode2, hpeek2⟩ := get_page_ok table1.pager l hl
  rw [hp1] at hnode2 hpeek2
  refine ⟨{ table1 with pager := pager2 }, l, rest, hls, ?_, hpeek2, hr1⟩
  unfold table_start
  rw [hf]
  simp only [ok_bind]
  rw [hg2]
  simp only [ok_bind, hnode2]
  have : ¬ leaf_node_num_cells (view l) = 0 := by omega
  simp [this]

/-! ## The scan loop -/

theorem execute_select_loop_end (fuel : Nat) (table : Table) (cursor : Cursor)
    (h : cursor.end_of_table = some true) :
    execute_select_loop fuel table cursor = .ok (table, []) := by
  cases fuel <;> simp [execute_select_loop, h]

theorem leaf_rows_drop (node : Page) (c : Nat) (hc : c < leaf_node_num_cells node) :
    (leaf_rows node).drop c
      = deserialize_row node (leaf_node_value c) :: (leaf_rows node).drop (c + 1) := by
  unfold leaf_rows
  rw [List.drop_eq_getElem_cons (by simpa using hc)]
  simp

theorem leaf_rows_length (node : Page) : (leaf_rows node).length = leaf_node_num_cells node := by
  simp [leaf_rows]

theorem stored_rows_cons (view : Nat → Page) (l : Nat) (rest : List Nat) :
    stored_rows view (l :: rest) = leaf_rows (view l) ++ stored_rows view rest := by
  simp [stored_rows]

/-- One round of the loop of `execute_select` on a cell that exists: the row of the cell is
emitted and the loop goes on from the advanced cursor. -/
theorem execute_select_loop_step (view : Nat → Page) (table : Table) (fuel l c : Nat)
    (hview : table.pager.peek = view) (hl : l < TABLE_MAX_PAGES)
    (hn : leaf_node_num_cells (view l) ≤ LEAF_NODE_MAX_CELLS)
    (hc : c < leaf_node_num_cells (view l)) :
    ∃ table1, table1.pager.peek = view ∧ table1.root_page_num = table.root_page_num
      ∧ execute_select_loop (fuel + 1) table
          { page_num := l, cell_num := c, end_of_table := some false }
        = (execute_select_loop fuel table1
            (if c + 1 ≥ leaf_node_num_cells (view l) then
              (if leaf_node_next_leaf (view l) = 0 then
                { page_num := l, cell_num := c + 1, end_of_table := some true }
              else
                { page_num := leaf_node_next_leaf (view l), cell_num := 0,
                  end_of_table := some false })
            else { page_num := l, cell_num := c + 1, end_of_table := some false })
          >>= fun r => .ok (r.1, deserialize_row (view l) (leaf_node_value c) :: r.2)) := by
  obtain ⟨pager1, hg1, hnode1, hpeek1⟩ := get_page_ok table.pager l hl
  rw [hview] at hnode1 hpeek1
  obtain ⟨pager2, hg2, hnode2, hpeek2⟩ := get_page_ok pager1 l hl
  rw [hpeek1] at hnode2 hpeek2
  refine ⟨{ table with pager := pager2 }, hpeek2, rfl, ?_⟩
  have hn13 : leaf_node_num_cells (view l) ≤ 13 := by simpa using hn
  have hin : in_page (leaf_node_value c) ROW_SIZE = true := by
    simp only [in_page, leaf_node_value, leaf_node_cell_eq c (by simp; omega),
      LEAF_NODE_KEY_SIZE_eq, ROW_SIZE_eq, PAGE_SIZE_eq, decide_eq_true_eq]
    omega
  have hmod : (c + 1) % U32 = c + 1 := by
    simp only [U32_eq]; omega
  rw [execute_select_loop]
  simp only [cursor_value, hg1, ok_bind, hin, if_true, hnode1, cursor_advance, hg2, hnode2, hmod]
  by_cases h1 : c + 1 ≥ leaf_node_num_cells (view l)
  · simp only [h1, if_true]
    by_cases h2 : leaf_node_next_leaf (view l) = 0
    · simp only [h2, if_true, ok_bind]
    · simp only [h2, if_false, ok_bind]
  · simp only [h1, if_false, ok_bind]

/-- The loop of `execute_select`, started on a cell of a leaf of the chain with enough fuel,
emits the remaining rows of the leaf and then the rows of the leaves that follow. -/
theorem execute_select_loop_chain (view : Nat → Page) :
    ∀ (rest : List Nat) (l k c : Nat) (table : Table) (fuel : Nat),
      table.pager.peek = view →
      (∀ x ∈ l :: rest, x < TABLE_MAX_PAGES ∧ 0 < leaf_node_num_cells (view x)
        ∧ leaf_node_num_cells (view x) ≤ LEAF_NODE_MAX_CELLS) →
      chain_links view (l :: rest) →
      c + k = leaf_node_num_cells (view l) → 0 < k →
      k + (stored_rows view rest).length ≤ fuel →
      ∃ table', execute_select_loop fuel table
            { page_num := l, cell_num := c, end_of_table := some false }
          = .ok (table', (leaf_rows (view l)).drop c ++ stored_rows view rest)
        ∧ table'.pager.peek = view ∧ table'.root_page_num = table.root_page_num := by
  intro rest
  induction rest with
  | nil =>
    intro l k
    induction k with
    | zero => intro c table fuel _ _ _ _ hk; omega
    | succ k ihk =>
      intro c table fuel hview hall hchain hck _ hfuel
      obtain ⟨hl, _, hn⟩ := hall l (by simp)
      obtain ⟨fuel', rfl⟩ : ∃ f, fuel = f + 1 := ⟨fuel - 1, by omega⟩
      obtain ⟨table1, hp1, hr1, hstep⟩ :=
        execute_select_loop_step view table fuel' l c hview hl hn (by omega)
      rw [hstep, leaf_rows_drop _ c (by omega)]
      by_cases h1 : c + 1 ≥ leaf_node_num_cells (view l)
      · have hnext : leaf_node_next_leaf (view l) = 0 := hchain
        rw [if_pos h1, if_pos hnext, execute_select_loop_end _ _ _ rfl]
        refine ⟨table1, ?_, hp1, hr1⟩
        have : (leaf_rows (view l)).drop (c + 1) = [] :=
          List.drop_eq_nil_of_le (by rw [leaf_rows_length]; omega)
        simp [this, stored_rows]
      · rw [if_neg h1]
        obtain ⟨table', hrun, hp, hr⟩ := ihk (c + 1) table1 fuel' hp1 hall hchain (by omega)
          (by omega) (by omega)
        refine ⟨table', ?_, hp, by rw [hr, hr1]⟩
        rw [hrun]
        simp
  | cons l2 rest ih =>
    intro l k
    induction k with
    | zero => intro c table fuel _ _ _ _ hk; omega
    | succ k ihk =>
      intro c table fuel hview hall hchain hck _ hfuel
      obtain ⟨hl, _, hn⟩ := hall l (by simp)
      obtain ⟨fuel', rfl⟩ : ∃ f, fuel = f + 1 := ⟨fuel - 1, by omega⟩
      obtain ⟨table1, hp1, hr1, hstep⟩ :=
        execute_select_loop_step view table fuel' l c hview hl hn (by omega)
      rw [hstep, leaf_rows_drop _ c (by omega)]
      obtain ⟨⟨hnext, hne⟩, hchain2⟩ := hchain
      by_cases h1 : c + 1 ≥ leaf_node_num_cells (view l)
      · have hnz : ¬ leaf_node_next_leaf (view l) = 0 := by rw [hnext]; exact hne
        rw [if_pos h1, if_neg hnz, hnext]
        obtain ⟨_, hpos2, _⟩ := hall l2 (by simp)
        have hlen : (stored_rows view (l2 :: rest)).length
            = leaf_node_num_cells (view l2) + (stored_rows view rest).length := by
          rw [stored_rows_cons, List.length_append, leaf_rows_length]
        obtain ⟨table', hrun, hp, hr⟩ := ih l2 (leaf_node_num_cells (view l2)) 0 table1 fuel'
          hp1 (fun x hx => hall x (List.mem_cons_of_mem _ hx)) hchain2 (by omega) hpos2
          (by omega)
        refine ⟨table', ?_, hp, by rw [hr, hr1]⟩
        rw [hrun]
        have : (leaf_rows (view l)).drop (c + 1) = [] :=
          List.drop_eq_nil_of_le (by rw [leaf_rows_length]; omega)
        simp [this, stored_rows_cons]
      · rw [if_neg h1]
        obtain ⟨table', hrun, hp, hr⟩ := ihk (c + 1) table1 fuel' hp1 hall
          ⟨⟨hnext, hne⟩, hchain2⟩ (by omega) (by omega) (by omega)
        refine ⟨table', ?_, hp, by rw [hr, hr1]⟩
        rw [hrun]
        simp

theorem stored_rows_ids (view : Nat → Page) :
    ∀ (ls : List Nat),
      (∀ l ∈ ls, ∀ i < leaf_node_num_cells (view l),
        read_u32 (view l) (leaf_node_key i)
          = (deserialize_row (view l) (leaf_node_value i)).id) →
      (stored_rows view ls).map Row.id = stored_keys view ls := by
  intro ls
  induction ls with
  | nil => intro _; rfl
  | cons l ls ih =>
    intro h
    have h1 : (leaf_rows (view l)).map Row.id = leaf_keys (view l) := by
      unfold leaf_rows leaf_keys
      rw [List.map_map]
      apply List.map_congr_left
      intro i hi
      exact (h l (by simp) i (by simpa using hi)).symm
    have h2 := ih (fun l' hl' => h l' (List.mem_cons_of_mem _ hl'))
    simp only [stored_rows, stored_keys, List.flatMap_cons, List.map_append] at *
    rw [h1, h2]

/-- C5. On a tree that holds at least one row and satisfies the data-model invariants (every
leaf non-empty with at most `LEAF_NODE_MAX_CELLS` cells, the key of a cell being the id of its
row, the `next_leaf` chain linking all leaves of the tree from the leftmost one and ending
with 0, keys strictly ascending along the chain), `execute_select` with fuel for one round
per row returns, and it emits exactly the stored rows, each once, in strictly ascending id
order; no page changes. -/
theorem scan_emits_stored_rows_ascending (table : Table) (ls : List Nat)
    (hinv : scan_invariants table.pager.peek table.root_page_num ls) (fuel : Nat)
    (hfuel : (stored_rows table.pager.peek ls).length ≤ fuel) :
    ∃ table', execute_select fuel table = .ok (table', stored_rows table.pager.peek ls)
      ∧ table'.pager.peek = table.pager.peek
      ∧ table'.root_page_num = table.root_page_num
      ∧ stored_rows table.pager.peek ls ≠ []
      ∧ ((stored_rows table.pager.peek ls).map Row.id).Pairwise (fun a b => a < b) := by
  obtain ⟨htree, hcells, hkeyid, hchain, hpair⟩ := hinv
  generalize hview : table.pager.peek = view at *
  have hper : ∀ l ∈ ls, (leaf_keys (view l)).Pairwise (fun a b => a < b) :=
    (List.pairwise_flatMap.mp hpair).1
  obtain ⟨table1, l, rest, hls, hstart, hp1, hr1⟩ := table_start_first_leaf view table ls hview
    htree (fun x hx => ⟨(hcells x hx).1, (hcells x hx).2, hper x hx⟩)
  have hall : ∀ x ∈ l :: rest, x < TABLE_MAX_PAGES ∧ 0 < leaf_node_num_cells (view x)
      ∧ leaf_node_num_cells (view x) ≤ LEAF_NODE_MAX_CELLS := by
    intro x hx
    rw [← hls] at hx
    exact ⟨tree_leaves_mem_lt view _ _ ls htree x hx, hcells x hx⟩
  have hlen : (stored_rows view ls).length
      = leaf_node_num_cells (view l) + (stored_rows view rest).length := by
    rw [hls, stored_rows_cons, List.length_append, leaf_rows_length]
  obtain ⟨table', hrun, hp, hr⟩ := execute_select_loop_chain view rest l
    (leaf_node_num_cells (view l)) 0 table1 fuel hp1 hall (hls ▸ hchain) (by omega)
    (hall l (by simp)).2.1 (by omega)
  refine ⟨table', ?_, hp, by rw [hr, hr1], ?_, ?_⟩
  · unfold execute_select
    rw [hstart]
    simp only [ok_bind]
    rw [hrun, hls, stored_rows_cons, List.drop_zero]
  · intro hnil
    have := (hall l (by simp)).2.1
    rw [hnil] at hlen
    simp at hlen
    omega
  · rw [stored_rows_ids view ls hkeyid]
    exact hpair

set_option maxRecDepth 100000 in
/-- C5, at the database file of three pages with the rows 1, 2 under the left leaf and 3, 4
under the right leaf: the select prints the four rows in the order 1, 2, 3, 4. -/
theorem scan_emits_stored_rows_ascending_witness :
    scan_invariants two_leaf_table.pager.peek two_leaf_table.root_page_num [2, 1]
      ∧ (stored_rows two_leaf_table.pager.peek [2, 1]).map Row.id = [1, 2, 3, 4]
      ∧ ∃ table', execute_select 4 two_leaf_table
            = .ok (table', stored_rows two_leaf_table.pager.peek [2, 1])
          ∧ table'.pager.peek = two_leaf_table.pager.peek
          ∧ table'.root_page_num = two_leaf_table.root_page_num
          ∧ stored_rows two_leaf_table.pager.peek [2, 1] ≠ []
          ∧ ((stored_rows two_leaf_table.pager.peek [2, 1]).map Row.id).Pairwise
              (fun a b => a < b) :=
  ⟨by decide, by decide,
    scan_emits_stored_rows_ascending two_leaf_table [2, 1] (by decide) 4 (by decide)⟩

/-! ## The claims on concrete runs -/

open ExecuteResult

set_option maxRecDepth 100000

/-- The table `db_open` returns for `two_leaf_file` has the fields of `two_leaf_table`. -/
theorem db_open_two_leaf_file : returns (db_open two_leaf_file zero_fresh)
    (fun t => t.root_page_num = two_leaf_table.root_page_num
      ∧ t.pager.num_pages = two_leaf_table.pager.num_pages
      ∧ t.pager.file_length = two_leaf_table.pager.file_length
      ∧ t.pager.file.length = two_leaf_table.pager.file.length
      ∧ (t.pager.pages 0).isNone ∧ (t.pager.pages 1).isNone ∧ (t.pager.pages 2).isNone) := by
  decide

/-- C1 (the code fails the claim). On a freshly created database the inserts of ids 3, 1, 2
do not complete: the first `execute_insert` ends in `leaf_node_find` on the empty root leaf,
which reaches the end of the function without a `return`.  On a database file that already
holds the row 3, the inserts of 1 and 2 succeed and the select then prints 2, 1, 3. -/
theorem scan_after_inserts_not_ascending :
    (∀ fresh : Nat → Page,
      session File.empty fresh (example_rows [3, 1, 2]) = .error .undefined)
    ∧ returns (session (seed_file (example_row 3)) zero_fresh (example_rows [1, 2]))
        (fun r => r.2 = [EXECUTE_SUCCESS, EXECUTE_SUCCESS]
          ∧ returns (select_ids 3 r.1) (fun ids => ids = [2, 1, 3])) :=
  ⟨fun _ => rfl, by decide!⟩

/-- C2 (the code fails the claim). A root leaf reached by inserts holds the keys 2, 3, 4, 5;
inserting id 3 again returns success and the leaf then holds 3, 2, 3, 4, 5.  With an internal
root over two leaves, inserting the stored id 87 again returns success as well and the left
leaf then holds 87 twice. -/
theorem stored_key_inserted_again :
    returns (session (seed_file (example_row 5)) zero_fresh (example_rows [4, 3, 2]))
        (fun r => get_node_type (r.1.pager.node 0) = NODE_LEAF
          ∧ leaf_keys (r.1.pager.node 0) = [2, 3, 4, 5]
          ∧ returns (execute_insert (example_row 3) r.1)
              (fun r2 => r2.2 = EXECUTE_SUCCESS
                ∧ leaf_keys (r2.1.pager.node 0) = [3, 2, 3, 4, 5]))
    ∧ returns (session (seed_file (example_row 100)) zero_fresh
          (example_rows (descending_ids 99 1 13)))
        (fun r => get_node_type (r.1.pager.node 0) = NODE_INTERNAL
          ∧ internal_children (r.1.pager.node 0) = [2, 1]
          ∧ leaf_keys (r.1.pager.node 2) = [87, 88, 89, 90, 91, 92, 93]
          ∧ returns (execute_insert (example_row 87) r.1)
              (fun r2 => r2.2 = EXECUTE_SUCCESS
                ∧ leaf_keys (r2.1.pager.node 2) = [87, 87, 88, 89, 90, 91, 92, 93])) :=
  ⟨by decide!, by decide!⟩

/-- C3 (the code fails the claim). With an internal root over the leaves on pages 2 (keys 87
to 93) and 1 (keys 94 to 100), inserting the id 2, which no leaf stores, returns
`EXECUTE_DUPLICATE_KEY` and changes no key: `execute_insert` compares the id with the four
bytes at cell 0 of the root page, which hold the page number 2 of the left child. -/
theorem absent_key_reported_duplicate :
    returns (session (seed_file (example_row 100)) zero_fresh
          (example_rows (descending_ids 99 1 13)))
        (fun r => get_node_type (r.1.pager.node 0) = NODE_INTERNAL
          ∧ internal_children (r.1.pager.node 0) = [2, 1]
          ∧ leaf_keys (r.1.pager.node 2) = [87, 88, 89, 90, 91, 92, 93]
          ∧ leaf_keys (r.1.pager.node 1) = [94, 95, 96, 97, 98, 99, 100]
          ∧ read_u32 (r.1.pager.node 0) (leaf_node_key 0) = 2
          ∧ returns (execute_insert (example_row 2) r.1)
              (fun r2 => r2.2 = EXECUTE_DUPLICATE_KEY
                ∧ leaf_keys (r2.1.pager.node 2) = [87, 88, 89, 90, 91, 92, 93]
                ∧ leaf_keys (r2.1.pager.node 1) = [94, 95, 96, 97, 98, 99, 100])) := by
  decide!

/-- C4 (the code fails the claim). A session opened on a file of one page (a root leaf with
the row 5) inserts the row 4 and closes.  The pager holds one page, but the file left by
`db_close` has two: page 0 of the file is still the old leaf (key 5) and the page in memory
(keys 4, 5) was written behind it, because `pager_flush` writes at the position the last
`read` left.  The reopened table has two pages and its root holds the key 5 only. -/
theorem close_writes_page_behind_file :
    returns (session_close (seed_file (example_row 5)) zero_fresh (example_rows [4]))
      (fun r => r.1.pager.num_pages = 1 ∧ r.2.length = 2 * PAGE_SIZE
        ∧ leaf_keys (r.1.pager.node 0) = [4, 5]
        ∧ leaf_keys (r.2.page 0) = [5] ∧ leaf_keys (r.2.page 1) = [4, 5]
        ∧ returns (db_open r.2 zero_fresh)
            (fun t => t.pager.num_pages = 2 ∧ leaf_keys (t.pager.peek 0) = [5])) := by
  decide!

/-- C6 (the code fails the claim). No insert into a freshly created database completes.  On a
database file that holds the row 1, the inserts of 2, 3, ..., 14 all succeed and leave an
internal root with the single key 12 whose right child, page 1, holds the keys
14, 13, 11, 9, 7, 5, 3: five of them are not greater than the separator. -/
theorem separator_does_not_bound_right_child :
    (∀ (fresh : Nat → Page) (row : Row) (rows : List Row),
      session File.empty fresh (row :: rows) = .error .undefined)
    ∧ returns (session (seed_file (example_row 1)) zero_fresh (example_rows (ascending_ids 2 13)))
        (fun r => r.2 = List.replicate 13 EXECUTE_SUCCESS
          ∧ get_node_type (r.1.pager.node 0) = NODE_INTERNAL
          ∧ internal_node_num_keys (r.1.pager.node 0) = 1
          ∧ read_u32 (r.1.pager.node 0) (internal_node_key 0) = 12
          ∧ internal_children (r.1.pager.node 0) = [2, 1]
          ∧ leaf_keys (r.1.pager.node 2) = [1, 2, 4, 6, 8, 10, 12]
          ∧ leaf_keys (r.1.pager.node 1) = [14, 13, 11, 9, 7, 5, 3]) :=
  ⟨fun _ _ _ => rfl, by decide!⟩

/-- C7 (the code fails the claim). On a freshly created database, the state reached by no
insert at all, the single leaf has `next_leaf = 0`, yet `execute_select` does not return for
any fuel: `table_start` calls `leaf_node_find` on the empty root leaf, which reaches the end
of the function without a `return`.  No insert completes there either, so no other state is
reached. -/
theorem select_on_empty_database_undefined :
    ∀ (fresh : Nat → Page) (fuel : Nat),
      (db_open File.empty fresh >>= fun t => execute_select fuel t) = .error .undefined
      ∧ returns (db_open File.empty fresh)
          (fun t => leaf_node_next_leaf (t.pager.node 0) = 0)
      ∧ ∀ (row : Row) (rows : List Row),
          session File.empty fresh (row :: rows) = .error .undefined :=
  fun _ _ => ⟨rfl, rfl, fun _ _ => rfl⟩

/-- C8 (the code fails the claim). No insert into a freshly created database completes.  On a
database file that holds the row 100, with `malloc` returning buffers of `0xAA` bytes, the
twenty inserts of 99, 98, ..., 80 succeed; the second split is of the non-root leaf on page 2
and creates the leaf on page 3, which the root lists as a child but whose `parent_page` still
holds the bytes of the `malloc` buffer, `0xAAAAAAAA`. -/
theorem split_leaf_parent_left_unset :
    (∀ (fresh : Nat → Page) (row : Row) (rows : List Row),
      session File.empty fresh (row :: rows) = .error .undefined)
    ∧ returns (session (seed_file (example_row 100)) junk_fresh
          (example_rows (descending_ids 99 1 20)))
        (fun r => r.2 = List.replicate 20 EXECUTE_SUCCESS
          ∧ get_node_type (r.1.pager.node 0) = NODE_INTERNAL
          ∧ internal_children (r.1.pager.node 0) = [2, 3, 1]
          ∧ get_node_type (r.1.pager.node 3) = NODE_LEAF
          ∧ is_node_root (r.1.pager.node 3) = false
          ∧ node_parent (r.1.pager.node 3) = 2863311530
          ∧ node_parent (r.1.pager.node 2) = 0
          ∧ r.1.pager.num_pages = 4) :=
  ⟨fun _ _ _ => rfl, by decide!⟩

/-- C9 (the code fails the claim). Right after `db_open` on an empty file the root is page 0,
an empty leaf with the root flag, and the only page.  No insert into this database completes,
so page 0 never becomes an internal node there.  On a database file that holds the row 1000,
with `malloc` returning zeroed buffers except for two recycled bytes, 27 inserts succeed; the
third split is of the leaf on page 3, whose `parent_page` was never written and reads 5, and
it makes page 5 resident with the root flag of its `malloc` buffer: pages 0 and 5 both have
`is_root` set. -/
theorem two_pages_flagged_root :
    (∀ fresh : Nat → Page, returns (db_open File.empty fresh)
      (fun t => t.root_page_num = 0 ∧ t.pager.num_pages = 1
        ∧ get_node_type (t.pager.node 0) = NODE_LEAF
        ∧ is_node_root (t.pager.node 0) = true
        ∧ leaf_node_num_cells (t.pager.node 0) = 0))
    ∧ (∀ (fresh : Nat → Page) (row : Row) (rows : List Row),
      session File.empty fresh (row :: rows) = .error .undefined)
    ∧ returns (session (seed_file (example_row 1000)) recycled_fresh
          (example_rows (descending_ids 990 10 20 ++ [899, 898, 897, 896, 895, 894, 893])))
        (fun r => r.2 = List.replicate 27 EXECUTE_SUCCESS
          ∧ r.1.root_page_num = 0
          ∧ is_node_root (r.1.pager.node 0) = true
          ∧ (r.1.pager.pages 5).isSome = true
          ∧ is_node_root (r.1.pager.node 5) = true
          ∧ r.1.pager.num_pages = 6) :=
  ⟨fun _ => ⟨rfl, rfl, rfl, rfl, rfl⟩, fun _ _ _ => rfl, by decide!⟩

/-- C10 (the code fails the claim). Whatever the rows, the first insert into a freshly
created database does not complete: `leaf_node_find` on the empty root leaf reaches the end
of the function without a `return`.  No sequence of 14 inserts gets to a leaf of 13 cells or
to a split. -/
theorem first_insert_into_empty_database_undefined :
    ∀ (fresh : Nat → Page) (row : Row) (rows : List Row),
      session File.empty fresh (row :: rows) = .error .undefined
      ∧ (db_open File.empty fresh >>= fun t => execute_insert row t) = .error .undefined :=
  fun _ _ _ => ⟨rfl, rfl⟩

/-- C11 (the code fails the claim). On a freshly created database the inserts of ids
14, 13, ..., 1 do not complete: the first `execute_insert` ends in `leaf_node_find` on the
empty root leaf, which reaches the end of the function without a `return`.  Once the file
holds the row 14, the remaining thirteen descending inserts do succeed and the select prints
1, 2, ..., 14: each new id is smaller than the key probed in the middle of the leaf, so the
single probe of `leaf_node_find` gives cell 0, which is the sorted position. -/
theorem descending_inserts_need_first_row :
    (∀ fresh : Nat → Page,
      session File.empty fresh (example_rows (descending_ids 14 1 14)) = .error .undefined)
    ∧ descending_ids 14 1 14 = [14, 13, 12, 11, 10, 9, 8, 7, 6, 5, 4, 3, 2, 1]
    ∧ returns (session (seed_file (example_row 14)) zero_fresh
          (example_rows (descending_ids 13 1 13)))
        (fun r => r.2 = List.replicate 13 EXECUTE_SUCCESS
          ∧ returns (select_ids 14 r.1)
              (fun ids => ids = [1, 2, 3, 4, 5, 6, 7, 8, 9, 10, 11, 12, 13, 14])) :=
  ⟨fun _ => rfl, by decide, by decide!⟩

/-- C12 (the code fails the claim). On a freshly created database page 0 is an empty root
leaf, and `table_start` does not return a cursor: its call of `table_find` ends in
`leaf_node_find`, which skips its loop for `num_cells = 0` and reaches the end of the
function without a `return`; the assignment of `end_of_table` is never reached and
`execute_select` emits nothing because it does not return. -/
theorem table_start_on_empty_database_undefined :
    ∀ fresh : Nat → Page,
      returns (db_open File.empty fresh)
          (fun t => get_node_type (t.pager.node 0) = NODE_LEAF
            ∧ leaf_node_num_cells (t.pager.node 0) = 0)
      ∧ (db_open File.empty fresh >>= fun t => table_start t) = .error .undefined
      ∧ (db_open File.empty fresh >>= fun t => table_find t 0) = .error .undefined :=
  fun _ => ⟨⟨rfl, rfl⟩, rfl, rfl⟩

/-- C14 (the code fails the claim). On a root leaf with the keys 2, 3, 4, 5 the search for the
stored key 3 returns a cursor on cell 0, whose key is 2, not on cell 1: the body of the loop
probes cell 2 once (key 4) and returns `min_index`.  The search for 1 gives cell 0 and the
search for 5 gives cell 3, which one probe happens to get right.  On an empty leaf the
function returns nothing. -/
theorem leaf_node_find_stops_after_one_probe :
    returns (db_open (file_of_pages [leaf_page true 0 0 (example_rows [2, 3, 4, 5])]) zero_fresh)
        (fun t => leaf_keys (t.pager.peek 0) = [2, 3, 4, 5]
          ∧ returns (leaf_node_find t 0 3)
              (fun r => r.2 = { page_num := 0, cell_num := 0, end_of_table := none })
          ∧ returns (leaf_node_find t 0 1)
              (fun r => r.2 = { page_num := 0, cell_num := 0, end_of_table := none })
          ∧ returns (leaf_node_find t 0 5)
              (fun r => r.2 = { page_num := 0, cell_num := 3, end_of_table := none }))
    ∧ ∀ (fresh : Nat → Page) (key : Nat),
        (db_open File.empty fresh >>= fun t => leaf_node_find t 0 key) = .error .undefined :=
  ⟨by decide!, fun _ _ => rfl⟩

/-! ## The binary search of an internal node -/

/-- The loop of `internal_node_find_child` on an interval that lies inside the cells of the
page: it returns an index inside the interval, whatever the keys are. -/
theorem internal_node_find_child_loop_bounds (node : Page) (key : Nat) :
    ∀ (fuel min_index max_index : Nat), min_index ≤ max_index → max_index ≤ 510 →
      max_index - min_index < 2 ^ fuel →
      ∃ i, internal_node_find_child_loop node key fuel min_index max_index = .ok i
        ∧ min_index ≤ i ∧ i ≤ max_index := by
  intro fuel
  induction fuel with
  | zero =>
    intro min_index max_index h1 _ h3
    have : min_index = max_index := by simp at h3; omega
    subst this
    exact ⟨min_index, by simp [internal_node_find_child_loop], le_refl _, le_refl _⟩
  | succ fuel ih =>
    intro min_index max_index h1 h2 h3
    unfold internal_node_find_child_loop
    by_cases hm : min_index = max_index
    · subst hm
      exact ⟨min_index, by simp, le_refl _, le_refl _⟩
    · rw [if_pos hm]
      have hidx : (min_index + max_index) % U32 / 2 = (min_index + max_index) / 2 := by
        simp only [U32_eq]; omega
      rw [hidx]
      have hin : in_page (internal_node_key ((min_index + max_index) / 2)) 4 = true := by
        simp only [in_page, internal_node_key,
          internal_node_cell_eq ((min_index + max_index) / 2) (by omega),
          INTERNAL_NODE_CHILD_SIZE_eq, PAGE_SIZE_eq, decide_eq_true_eq]
        omega
      simp only [load_u32, hin, if_true, ok_bind]
      rw [Nat.pow_succ] at h3
      split
      · obtain ⟨i, hi, h4, h5⟩ := ih min_index ((min_index + max_index) / 2) (by omega)
          (by omega) (by omega)
        exact ⟨i, hi, h4, by omega⟩
      · obtain ⟨i, hi, h4, h5⟩ := ih ((min_index + max_index) / 2 + 1) max_index (by omega)
          (by omega) (by omega)
        exact ⟨i, hi, by omega, h5⟩

/-- On a node whose keys fit the page `internal_node_find_child` returns an index of at most
`num_keys`. -/
theorem internal_node_find_child_le (node : Page) (key : Nat)
    (h : internal_node_num_keys node ≤ 510) :
    ∃ i, internal_node_find_child node key = .ok i ∧ i ≤ internal_node_num_keys node := by
  obtain ⟨i, hi, _, h2⟩ := internal_node_find_child_loop_bounds node key 33 0
    (internal_node_num_keys node) (Nat.zero_le _) h
    (by calc internal_node_num_keys node - 0 ≤ 510 := by omega
          _ < 2 ^ 33 := by norm_num)
  exact ⟨i, hi, h2⟩

/-- The loop of `internal_node_find_child` on ascending keys keeps the keys below the interval
smaller than the target and the keys from its upper end on at least the target. -/
theorem internal_node_find_child_loop_sorted (node : Page) (key : Nat)
    (hasc : ∀ j < internal_node_num_keys node, ∀ i ≤ j,
      read_u32 node (internal_node_key i) ≤ read_u32 node (internal_node_key j))
    (hk : internal_node_num_keys node ≤ 510) :
    ∀ (fuel min_index max_index : Nat), min_index ≤ max_index →
      max_index ≤ internal_node_num_keys node → max_index - min_index < 2 ^ fuel →
      (∀ j < min_index, read_u32 node (internal_node_key j) < key) →
      (∀ j, max_index ≤ j → j < internal_node_num_keys node →
        key ≤ read_u32 node (internal_node_key j)) →
      ∃ i, internal_node_find_child_loop node key fuel min_index max_index = .ok i
        ∧ i ≤ internal_node_num_keys node
        ∧ (∀ j < i, read_u32 node (internal_node_key j) < key)
        ∧ (∀ j, i ≤ j → j < internal_node_num_keys node →
            key ≤ read_u32 node (internal_node_key j)) := by
  intro fuel
  induction fuel with
  | zero =>
    intro min_index max_index h1 h2 h3 hlo hhi
    have : min_index = max_index := by simp at h3; omega
    subst this
    exact ⟨min_index, by simp [internal_node_find_child_loop], h2, hlo, hhi⟩
  | succ fuel ih =>
    intro min_index max_index h1 h2 h3 hlo hhi
    unfold internal_node_find_child_loop
    by_cases hm : min_index = max_index
    · subst hm
      exact ⟨min_index, by simp, h2, hlo, hhi⟩
    · rw [if_pos hm]
      have hidx : (min_index + max_index) % U32 / 2 = (min_index + max_index) / 2 := by
        simp only [U32_eq]; omega
      rw [hidx]
      have hin : in_page (internal_node_key ((min_index + max_index) / 2)) 4 = true := by
        simp only [in_page, internal_node_key,
          internal_node_cell_eq ((min_index + max_index) / 2) (by omega),
          INTERNAL_NODE_CHILD_SIZE_eq, PAGE_SIZE_eq, decide_eq_true_eq]
        omega
      simp only [load_u32, hin, if_true, ok_bind]
      rw [Nat.pow_succ] at h3
      by_cases hge : read_u32 node (internal_node_key ((min_index + max_index) / 2)) ≥ key
      · rw [if_pos hge]
        apply ih min_index ((min_index + max_index) / 2) (by omega) (by omega) (by omega) hlo
        intro j hj hjk
        exact le_trans hge (hasc j hjk _ hj)
      · rw [if_neg hge]
        apply ih ((min_index + max_index) / 2 + 1) max_index (by omega) h2 (by omega) _ hhi
        intro j hj
        have := hasc ((min_index + max_index) / 2) (by omega) j (by omega)
        omega

/-- C15. On an internal node whose keys fit the page and are in ascending order,
`internal_node_find_child` returns the smallest index whose key is at least the target, or
`num_keys` when every key is smaller; for the index `num_keys` the child pointer is
`right_child`; and a target equal to a key gives an index whose key is the target, the
first such. -/
theorem internal_node_find_child_smallest (node : Page) (key : Nat)
    (hk : internal_node_num_keys node ≤ 510)
    (hasc : ∀ j < internal_node_num_keys node, ∀ i ≤ j,
      read_u32 node (internal_node_key i) ≤ read_u32 node (internal_node_key j)) :
    ∃ i, internal_node_find_child node key = .ok i
      ∧ i ≤ internal_node_num_keys node
      ∧ (∀ j < i, read_u32 node (internal_node_key j) < key)
      ∧ (∀ j, i ≤ j → j < internal_node_num_keys node →
          key ≤ read_u32 node (internal_node_key j))
      ∧ (i = internal_node_num_keys node ↔
          ∀ j < internal_node_num_keys node, read_u32 node (internal_node_key j) < key)
      ∧ internal_node_child node (internal_node_num_keys node)
          = .ok INTERNAL_NODE_RIGHT_CHILD_OFFSET
      ∧ (∀ j < internal_node_num_keys node, read_u32 node (internal_node_key j) = key →
          i ≤ j ∧ read_u32 node (internal_node_key i) = key) := by
  obtain ⟨i, hi, hle, hlo, hhi⟩ := internal_node_find_child_loop_sorted node key hasc hk 33 0
    (internal_node_num_keys node) (Nat.zero_le _) (le_refl _)
    (by calc internal_node_num_keys node - 0 ≤ 510 := by omega
          _ < 2 ^ 33 := by norm_num)
    (fun j hj => absurd hj (Nat.not_lt_zero j)) (fun j h1 h2 => absurd h2 (by omega))
  refine ⟨i, hi, hle, hlo, hhi, ⟨?_, ?_⟩, ?_, ?_⟩
  · intro h j hj
    exact hlo j (by omega)
  · intro h
    by_contra hne
    have hlt : i < internal_node_num_keys node := by omega
    have h1 := hhi i (le_refl _) hlt
    have h2 := h i hlt
    omega
  · simp [internal_node_child]
  · intro j hj hjk
    have hij : i ≤ j := by
      by_contra hc
      have := hlo j (by omega)
      omega
    refine ⟨hij, ?_⟩
    have h1 := hhi i (le_refl _) (by omega)
    have h2 := hasc j hj i hij
    omega

/-- C15, at the internal node with the keys 10, 20, 30: the target 20 gives index 1, the cell
whose key is 20. -/
theorem internal_node_find_child_smallest_witness :
    internal_node_num_keys (internal_page true 0 [(2, 10), (3, 20), (4, 30)] 1) ≤ 510
    ∧ (∀ j < internal_node_num_keys (internal_page true 0 [(2, 10), (3, 20), (4, 30)] 1),
        ∀ i ≤ j,
          read_u32 (internal_page true 0 [(2, 10), (3, 20), (4, 30)] 1) (internal_node_key i)
            ≤ read_u32 (internal_page true 0 [(2, 10), (3, 20), (4, 30)] 1)
                (internal_node_key j))
    ∧ internal_node_find_child (internal_page true 0 [(2, 10), (3, 20), (4, 30)] 1) 20 = .ok 1
    ∧ ∃ i, internal_node_find_child (internal_page true 0 [(2, 10), (3, 20), (4, 30)] 1) 20
          = .ok i
      ∧ i ≤ internal_node_num_keys (internal_page true 0 [(2, 10), (3, 20), (4, 30)] 1)
      ∧ (∀ j < i, read_u32 (internal_page true 0 [(2, 10), (3, 20), (4, 30)] 1)
            (internal_node_key j) < 20)
      ∧ (∀ j, i ≤ j →
          j < internal_node_num_keys (internal_page true 0 [(2, 10), (3, 20), (4, 30)] 1) →
          20 ≤ read_u32 (internal_page true 0 [(2, 10), (3, 20), (4, 30)] 1)
            (internal_node_key j))
      ∧ (i = internal_node_num_keys (internal_page true 0 [(2, 10), (3, 20), (4, 30)] 1) ↔
          ∀ j < internal_node_num_keys (internal_page true 0 [(2, 10), (3, 20), (4, 30)] 1),
            read_u32 (internal_page true 0 [(2, 10), (3, 20), (4, 30)] 1)
              (internal_node_key j) < 20)
      ∧ internal_node_child (internal_page true 0 [(2, 10), (3, 20), (4, 30)] 1)
            (internal_node_num_keys (internal_page true 0 [(2, 10), (3, 20), (4, 30)] 1))
          = .ok INTERNAL_NODE_RIGHT_CHILD_OFFSET
      ∧ (∀ j < internal_node_num_keys (internal_page true 0 [(2, 10), (3, 20), (4, 30)] 1),
          read_u32 (internal_page true 0 [(2, 10), (3, 20), (4, 30)] 1)
              (internal_node_key j) = 20 →
          i ≤ j ∧ read_u32 (internal_page true 0 [(2, 10), (3, 20), (4, 30)] 1)
              (internal_node_key i) = 20) :=
  ⟨by decide, by decide, rfl,
    internal_node_find_child_smallest (internal_page true 0 [(2, 10), (3, 20), (4, 30)] 1) 20
      (by decide) (by decide)⟩

/-! ## What every operation keeps of the pager -/

theorem bind_ok_iff {α β : Type} (x : Exec α) (f : α → Exec β) (r : β) :
    (x >>= f) = .ok r ↔ ∃ a, x = .ok a ∧ f a = .ok r := by
  cases x with
  | error e => simp
  | ok a => simp

theorem modify_keeps {Q : Pager → Prop} (hQ : PagerInvariant Q) (pager : Pager) (n : Nat)
    (f : Page → Page) (h : Q pager) : Q (pager.modify n f) :=
  hQ.2 pager n _ h

theorem pager_store_u32_keeps {Q : Pager → Prop} (hQ : PagerInvariant Q) (pager pager' : Pager)
    (n off v : Nat) (h : pager.store_u32 n off v = .ok pager') (hq : Q pager) : Q pager' := by
  unfold Pager.store_u32 store_u32 at h
  split at h
  · simp only [ok_bind, Except.ok.injEq] at h
    rw [← h]; exact hQ.2 pager n _ hq
  · simp at h

theorem pager_serialize_row_keeps {Q : Pager → Prop} (hQ : PagerInvariant Q)
    (pager pager' : Pager) (n off : Nat) (value : Row)
    (h : pager.serialize_row n off value = .ok pager') (hq : Q pager) : Q pager' := by
  unfold Pager.serialize_row at h
  split at h
  · simp only [Except.ok.injEq] at h
    rw [← h]; exact modify_keeps hQ pager n _ hq
  · simp at h

theorem memcpy_cell_keeps {Q : Pager → Prop} (hQ : PagerInvariant Q) (pager pager' : Pager)
    (dp d sp s n : Nat) (h : memcpy_cell pager dp d sp s n = .ok pager') (hq : Q pager) :
    Q pager' := by
  unfold memcpy_cell at h
  split at h
  · simp only [Except.ok.injEq] at h
    rw [← h]; exact modify_keeps hQ pager dp _ hq
  · simp at h

theorem leaf_node_find_keeps {Q : Pager → Prop} (hQ : PagerInvariant Q) (table : Table)
    (page_num key : Nat) (r : Table × Cursor) (h : leaf_node_find table page_num key = .ok r)
    (hq : Q table.pager) : Q r.1.pager := by
  unfold leaf_node_find at h
  rw [bind_ok_iff] at h
  obtain ⟨pager, hg, h⟩ := h
  have hq1 := hQ.1 _ _ _ hg hq
  try dsimp only at h
  split at h
  · rw [bind_ok_iff] at h
    obtain ⟨k, _, h⟩ := h
    split at h
    · simp only [Except.ok.injEq] at h; rw [← h]; exact hq1
    · split at h <;> (simp only [Except.ok.injEq] at h; rw [← h]; exact hq1)
  · simp at h

theorem internal_node_find_keeps {Q : Pager → Prop} (hQ : PagerInvariant Q) :
    ∀ (fuel : Nat) (table : Table) (page_num key : Nat) (r : Table × Cursor),
      internal_node_find fuel table page_num key = .ok r → Q table.pager → Q r.1.pager := by
  intro fuel
  induction fuel with
  | zero => intro table page_num key r h; simp [internal_node_find] at h
  | succ fuel ih =>
    intro table page_num key r h hq
    rw [internal_node_find] at h
    rw [bind_ok_iff] at h
    obtain ⟨pager, hg, h⟩ := h
    have hq1 := hQ.1 _ _ _ hg hq
    rw [bind_ok_iff] at h
    obtain ⟨child_index, _, h⟩ := h
    rw [bind_ok_iff] at h
    obtain ⟨child_ptr, _, h⟩ := h
    rw [bind_ok_iff] at h
    obtain ⟨child_num, _, h⟩ := h
    rw [bind_ok_iff] at h
    obtain ⟨pager2, hg2, h⟩ := h
    have hq2 := hQ.1 _ _ _ hg2 hq1
    try dsimp only at h
    split at h
    · exact leaf_node_find_keeps hQ _ _ _ r h hq2
    · split at h
      · exact ih _ _ _ r h hq2
      · simp at h

theorem table_find_keeps {Q : Pager → Prop} (hQ : PagerInvariant Q) (table : Table)
    (key : Nat) (r : Table × Cursor) (h : table_find table key = .ok r)
    (hq : Q table.pager) : Q r.1.pager := by
  unfold table_find at h
  try dsimp only at h
  rw [bind_ok_iff] at h
  obtain ⟨pager, hg, h⟩ := h
  have hq1 := hQ.1 _ _ _ hg hq
  try dsimp only at h
  split at h
  · exact leaf_node_find_keeps hQ _ _ _ r h hq1
  · exact internal_node_find_keeps hQ _ _ _ _ r h hq1

theorem table_start_keeps {Q : Pager → Prop} (hQ : PagerInvariant Q) (table : Table)
    (r : Table × Cursor) (h : table_start table = .ok r) (hq : Q table.pager) :
    Q r.1.pager := by
  unfold table_start at h
  rw [bind_ok_iff] at h
  obtain ⟨⟨table1, cursor⟩, hf, h⟩ := h
  have hq1 := table_find_keeps hQ _ _ _ hf hq
  try dsimp only at h
  rw [bind_ok_iff] at h
  obtain ⟨pager, hg, h⟩ := h
  have hq2 := hQ.1 _ _ _ hg hq1
  simp only [Except.ok.injEq] at h
  rw [← h]; exact hq2

theorem cursor_advance_keeps {Q : Pager → Prop} (hQ : PagerInvariant Q) (table : Table)
    (cursor : Cursor) (r : Table × Cursor) (h : cursor_advance table cursor = .ok r)
    (hq : Q table.pager) : Q r.1.pager := by
  unfold cursor_advance at h
  try dsimp only at h
  rw [bind_ok_iff] at h
  obtain ⟨pager, hg, h⟩ := h
  have hq1 := hQ.1 _ _ _ hg hq
  try dsimp only at h
  split at h
  · split at h <;> (simp only [Except.ok.injEq] at h; rw [← h]; exact hq1)
  · simp only [Except.ok.injEq] at h; rw [← h]; exact hq1

theorem execute_select_loop_keeps {Q : Pager → Prop} (hQ : PagerInvariant Q) :
    ∀ (fuel : Nat) (table : Table) (cursor : Cursor) (r : Table × List Row),
      execute_select_loop fuel table cursor = .ok r → Q table.pager → Q r.1.pager := by
  intro fuel
  induction fuel with
  | zero =>
    intro table cursor r h hq
    rw [execute_select_loop] at h
    split at h
    · simp at h
    · simp only [Except.ok.injEq] at h; rw [← h]; exact hq
    · simp at h
  | succ fuel ih =>
    intro table cursor r h hq
    rw [execute_select_loop] at h
    split at h
    · simp at h
    · simp only [Except.ok.injEq] at h; rw [← h]; exact hq
    · dsimp only at h
      simp only [cursor_value, bind_ok_iff] at h
      obtain ⟨⟨table1, source⟩, ⟨pager, hg, h1⟩, h⟩ := h
      simp only [Except.ok.injEq, Prod.mk.injEq] at h1
      have hq1 : Q table1.pager := by
        rw [← h1.1]; exact hQ.1 _ _ _ hg hq
      split at h
      · simp only [bind_ok_iff] at h
        obtain ⟨⟨table2, cursor2⟩, hadv, ⟨⟨table3, rows⟩, hloop, h⟩⟩ := h
        have hq2 := cursor_advance_keeps hQ _ _ _ hadv hq1
        have hq3 := ih _ _ _ hloop hq2
        simp only [Except.ok.injEq] at h
        rw [← h]; exact hq3
      · simp at h

theorem execute_select_keeps {Q : Pager → Prop} (hQ : PagerInvariant Q) (fuel : Nat)
    (table : Table) (r : Table × List Row) (h : execute_select fuel table = .ok r)
    (hq : Q table.pager) : Q r.1.pager := by
  unfold execute_select at h
  rw [bind_ok_iff] at h
  obtain ⟨⟨table1, cursor⟩, hs, h⟩ := h
  exact execute_select_loop_keeps hQ _ _ _ _ h (table_start_keeps hQ _ _ hs hq)

theorem update_internal_node_key_keeps {Q : Pager → Prop} (hQ : PagerInvariant Q)
    (pager pager' : Pager) (n old_key new_key : Nat)
    (h : update_internal_node_key pager n old_key new_key = .ok pager') (hq : Q pager) :
    Q pager' := by
  unfold update_internal_node_key at h
  rw [bind_ok_iff] at h
  obtain ⟨i, _, h⟩ := h
  exact pager_store_u32_keeps hQ _ _ _ _ _ h hq

theorem internal_node_insert_loop_keeps {Q : Pager → Prop} (hQ : PagerInvariant Q)
    (parent index : Nat) :
    ∀ (i : Nat) (pager pager' : Pager),
      internal_node_insert_loop parent index i pager = .ok pager' → Q pager → Q pager' := by
  intro i
  induction i with
  | zero =>
    intro pager pager' h hq
    simp only [internal_node_insert_loop, Except.ok.injEq] at h
    rw [← h]; exact hq
  | succ i ih =>
    intro pager pager' h hq
    rw [internal_node_insert_loop] at h
    split at h
    · rw [bind_ok_iff] at h
      obtain ⟨pager1, hm, h⟩ := h
      exact ih _ _ h (memcpy_cell_keeps hQ _ _ _ _ _ _ _ hm hq)
    · simp only [Except.ok.injEq] at h
      rw [← h]; exact hq

theorem internal_node_insert_keeps {Q : Pager → Prop} (hQ : PagerInvariant Q) (table : Table)
    (parent child : Nat) (table' : Table)
    (h : internal_node_insert table parent child = .ok table') (hq : Q table.pager) :
    Q table'.pager := by
  unfold internal_node_insert at h
  rw [bind_ok_iff] at h
  obtain ⟨pager1, hg1, h⟩ := h
  have hq1 := hQ.1 _ _ _ hg1 hq
  rw [bind_ok_iff] at h
  obtain ⟨pager2, hg2, h⟩ := h
  have hq2 := hQ.1 _ _ _ hg2 hq1
  rw [bind_ok_iff] at h
  obtain ⟨child_max_key, _, h⟩ := h
  rw [bind_ok_iff] at h
  obtain ⟨index, _, h⟩ := h
  try dsimp only at h
  have hq3 := modify_keeps hQ pager2 parent
    (fun node => set_internal_node_num_keys node
      ((internal_node_num_keys (pager2.node parent) + 1) % U32)) hq2
  split at h
  · simp at h
  · rw [bind_ok_iff] at h
    obtain ⟨pager4, hg4, h⟩ := h
    have hq4 := hQ.1 _ _ _ hg4 hq3
    rw [bind_ok_iff] at h
    obtain ⟨right_max, _, h⟩ := h
    split at h
    · rw [bind_ok_iff] at h
      obtain ⟨child_ptr, _, h⟩ := h
      rw [bind_ok_iff] at h
      obtain ⟨pager5, hs5, h⟩ := h
      have hq5 := pager_store_u32_keeps hQ _ _ _ _ _ hs5 hq4
      rw [bind_ok_iff] at h
      obtain ⟨right_max2, _, h⟩ := h
      rw [bind_ok_iff] at h
      obtain ⟨pager6, hs6, h⟩ := h
      have hq6 := pager_store_u32_keeps hQ _ _ _ _ _ hs6 hq5
      simp only [Except.ok.injEq] at h
      rw [← h]
      dsimp only
      exact modify_keeps hQ _ _ _ hq6
    · rw [bind_ok_iff] at h
      obtain ⟨pager5, hl5, h⟩ := h
      have hq5 := internal_node_insert_loop_keeps hQ _ _ _ _ _ hl5 hq4
      rw [bind_ok_iff] at h
      obtain ⟨child_ptr, _, h⟩ := h
      rw [bind_ok_iff] at h
      obtain ⟨pager6, hs6, h⟩ := h
      have hq6 := pager_store_u32_keeps hQ _ _ _ _ _ hs6 hq5
      rw [bind_ok_iff] at h
      obtain ⟨pager7, hs7, h⟩ := h
      have hq7 := pager_store_u32_keeps hQ _ _ _ _ _ hs7 hq6
      simp only [Except.ok.injEq] at h
      rw [← h]
      exact hq7

theorem create_new_root_keeps {Q : Pager → Prop} (hQ : PagerInvariant Q) (table : Table)
    (right_child : Nat) (table' : Table)
    (h : create_new_root table right_child = .ok table') (hq : Q table.pager) :
    Q table'.pager := by
  unfold create_new_root at h
  try dsimp only at h
  rw [bind_ok_iff] at h
  obtain ⟨pager1, hg1, h⟩ := h
  have hq1 := hQ.1 _ _ _ hg1 hq
  rw [bind_ok_iff] at h
  obtain ⟨pager2, hg2, h⟩ := h
  have hq2 := hQ.1 _ _ _ hg2 hq1
  try dsimp only at h
  rw [bind_ok_iff] at h
  obtain ⟨pager3, hg3, h⟩ := h
  have hq3 := hQ.1 _ _ _ hg3 hq2
  try dsimp only at h
  rw [bind_ok_iff] at h
  obtain ⟨child_ptr, _, h⟩ := h
  rw [bind_ok_iff] at h
  obtain ⟨pager4, hs4, h⟩ := h
  have hq4 := pager_store_u32_keeps hQ _ _ _ _ _ hs4
    (modify_keeps hQ _ _ _ (modify_keeps hQ _ _ _ (modify_keeps hQ _ _ _
      (modify_keeps hQ _ _ _ (modify_keeps hQ _ _ _ hq3)))))
  rw [bind_ok_iff] at h
  obtain ⟨left_max, _, h⟩ := h
  rw [bind_ok_iff] at h
  obtain ⟨pager5, hs5, h⟩ := h
  have hq5 := pager_store_u32_keeps hQ _ _ _ _ _ hs5 hq4
  simp only [Except.ok.injEq] at h
  rw [← h]
  dsimp only
  exact modify_keeps hQ _ _ _ (modify_keeps hQ _ _ _ (modify_keeps hQ _ _ _ hq5))

theorem leaf_node_split_loop_keeps {Q : Pager → Prop} (hQ : PagerInvariant Q) (cursor : Cursor)
    (key : Nat) (value : Row) (new_page_num : Nat) :
    ∀ (i : Nat) (pager pager' : Pager),
      leaf_node_split_loop cursor key value new_page_num i pager = .ok pager' → Q pager →
      Q pager' := by
  intro i
  induction i with
  | zero =>
    intro pager pager' h hq
    simp only [leaf_node_split_loop, Except.ok.injEq] at h
    rw [← h]; exact hq
  | succ i ih =>
    intro pager pager' h hq
    rw [leaf_node_split_loop] at h
    try dsimp only at h
    split at h
    · rw [bind_ok_iff] at h
      obtain ⟨pager0, hs, h⟩ := h
      rw [bind_ok_iff] at h
      obtain ⟨pager1, hstep, h⟩ := h
      exact ih _ _ h (pager_store_u32_keeps hQ _ _ _ _ _ hstep
        (pager_serialize_row_keeps hQ _ _ _ _ _ hs hq))
    · split at h
      · rw [bind_ok_iff] at h
        obtain ⟨pager1, hstep, h⟩ := h
        exact ih _ _ h (memcpy_cell_keeps hQ _ _ _ _ _ _ _ hstep hq)
      · rw [bind_ok_iff] at h
        obtain ⟨pager1, hstep, h⟩ := h
        exact ih _ _ h (memcpy_cell_keeps hQ _ _ _ _ _ _ _ hstep hq)

theorem leaf_node_split_and_insert_keeps {Q : Pager → Prop} (hQ : PagerInvariant Q)
    (table : Table) (cursor : Cursor) (key : Nat) (value : Row) (table' : Table)
    (h : leaf_node_split_and_insert table cursor key value = .ok table') (hq : Q table.pager) :
    Q table'.pager := by
  unfold leaf_node_split_and_insert at h
  try dsimp only at h
  rw [bind_ok_iff] at h
  obtain ⟨pager1, hg1, h⟩ := h
  have hq1 := hQ.1 _ _ _ hg1 hq
  rw [bind_ok_iff] at h
  obtain ⟨old_max, _, h⟩ := h
  try dsimp only at h
  rw [bind_ok_iff] at h
  obtain ⟨pager2, hg2, h⟩ := h
  have hq2 := hQ.1 _ _ _ hg2 hq1
  try dsimp only at h
  rw [bind_ok_iff] at h
  obtain ⟨pager3, hl, h⟩ := h
  have hq3 := leaf_node_split_loop_keeps hQ _ _ _ _ _ _ _ hl
    (modify_keeps hQ _ _ _ (modify_keeps hQ _ _ _ (modify_keeps hQ _ _ _ hq2)))
  try dsimp only at h
  have hq4 : Q ((pager3.modify cursor.page_num
      (fun node => set_leaf_node_num_cells node LEAF_NODE_LEFT_SPLIT_COUNT)).modify
      (get_unused_page_num pager1)
      (fun node => set_leaf_node_num_cells node LEAF_NODE_RIGHT_SPLIT_COUNT)) :=
    modify_keeps hQ _ _ _ (modify_keeps hQ _ _ _ hq3)
  split at h
  · exact create_new_root_keeps hQ _ _ _ h hq4
  · rw [bind_ok_iff] at h
    obtain ⟨new_max, _, h⟩ := h
    rw [bind_ok_iff] at h
    obtain ⟨pager5, hg5, h⟩ := h
    have hq5 := hQ.1 _ _ _ hg5 hq4
    rw [bind_ok_iff] at h
    obtain ⟨pager6, hu, h⟩ := h
    have hq6 := update_internal_node_key_keeps hQ _ _ _ _ _ hu hq5
    exact internal_node_insert_keeps hQ _ _ _ _ h hq6

theorem leaf_node_insert_loop_keeps {Q : Pager → Prop} (hQ : PagerInvariant Q)
    (page_num cell_num : Nat) :
    ∀ (i : Nat) (pager pager' : Pager),
      leaf_node_insert_loop page_num cell_num i pager = .ok pager' → Q pager → Q pager' := by
  intro i
  induction i with
  | zero =>
    intro pager pager' h hq
    simp only [leaf_node_insert_loop, Except.ok.injEq] at h
    rw [← h]; exact hq
  | succ i ih =>
    intro pager pager' h hq
    rw [leaf_node_insert_loop] at h
    split at h
    · rw [bind_ok_iff] at h
      obtain ⟨pager1, hm, h⟩ := h
      exact ih _ _ h (memcpy_cell_keeps hQ _ _ _ _ _ _ _ hm hq)
    · simp only [Except.ok.injEq] at h
      rw [← h]; exact hq

theorem leaf_node_insert_keeps {Q : Pager → Prop} (hQ : PagerInvariant Q) (table : Table)
    (cursor : Cursor) (key : Nat) (value : Row) (table' : Table)
    (h : leaf_node_insert table cursor key value = .ok table') (hq : Q table.pager) :
    Q table'.pager := by
  unfold leaf_node_insert at h
  rw [bind_ok_iff] at h
  obtain ⟨pager1, hg1, h⟩ := h
  have hq1 := hQ.1 _ _ _ hg1 hq
  try dsimp only at h
  split at h
  · exact leaf_node_split_and_insert_keeps hQ _ _ _ _ _ h hq1
  · have key : ∀ pager2 : Pager, Q pager2 →
        ((pager2.modify cursor.page_num fun node =>
            set_leaf_node_num_cells node ((leaf_node_num_cells node + 1) % U32)).store_u32
            cursor.page_num (leaf_node_key cursor.cell_num) key >>= fun pager =>
          pager.serialize_row cursor.page_num (leaf_node_value cursor.cell_num) value
            >>= fun pager =>
          (Except.ok { pager := pager, root_page_num := table.root_page_num } : Exec Table))
          = .ok table' → Q table'.pager := by
      intro pager2 hq2 h
      rw [bind_ok_iff] at h
      obtain ⟨pager3, hs3, h⟩ := h
      have hq3 := pager_store_u32_keeps hQ _ _ _ _ _ hs3 (modify_keeps hQ _ _ _ hq2)
      rw [bind_ok_iff] at h
      obtain ⟨pager4, hs4, h⟩ := h
      have hq4 := pager_serialize_row_keeps hQ _ _ _ _ _ hs4 hq3
      simp only [Except.ok.injEq] at h
      rw [← h]
      exact hq4
    split at h
    · rw [bind_ok_iff] at h
      obtain ⟨pager2, hl, h⟩ := h
      exact key pager2 (leaf_node_insert_loop_keeps hQ _ _ _ _ _ hl hq1) h
    · rw [ok_bind] at h
      exact key pager1 hq1 h

theorem execute_insert_keeps {Q : Pager → Prop} (hQ : PagerInvariant Q) (row : Row)
    (table : Table) (r : Table × ExecuteResult) (h : execute_insert row table = .ok r)
    (hq : Q table.pager) : Q r.1.pager := by
  unfold execute_insert at h
  rw [bind_ok_iff] at h
  obtain ⟨pager1, hg1, h⟩ := h
  have hq1 := hQ.1 _ _ _ hg1 hq
  try dsimp only at h
  rw [bind_ok_iff] at h
  obtain ⟨⟨table2, cursor⟩, hf, h⟩ := h
  have hq2 := table_find_keeps hQ _ _ _ hf hq1
  try dsimp only at h
  have key : ∀ y : Bool,
      (if y = true then (Except.ok (table2, ExecuteResult.EXECUTE_DUPLICATE_KEY) :
          Exec (Table × ExecuteResult))
        else do
          let table ← leaf_node_insert table2 cursor row.id row
          Except.ok (table, ExecuteResult.EXECUTE_SUCCESS)) = .ok r → Q r.1.pager := by
    intro y h
    split at h
    · simp only [Except.ok.injEq] at h
      rw [← h]; exact hq2
    · rw [bind_ok_iff] at h
      obtain ⟨table3, hi, h⟩ := h
      simp only [Except.ok.injEq] at h
      rw [← h]
      exact leaf_node_insert_keeps hQ _ _ _ _ _ hi hq2
  split at h
  · rw [bind_ok_iff] at h
    obtain ⟨key_at_index, _, h⟩ := h
    exact key _ h
  · exact key false h

theorem execute_statement_keeps {Q : Pager → Prop} (hQ : PagerInvariant Q) (fuel : Nat)
    (statement : Statement) (table : Table) (r : Table × ExecuteResult × List Row)
    (h : execute_statement fuel statement table = .ok r) (hq : Q table.pager) :
    Q r.1.pager := by
  unfold execute_statement at h
  split at h
  · rw [bind_ok_iff] at h
    obtain ⟨⟨table1, result⟩, hi, h⟩ := h
    simp only [Except.ok.injEq] at h
    rw [← h]
    exact execute_insert_keeps hQ _ _ _ hi hq
  · rw [bind_ok_iff] at h
    obtain ⟨⟨table1, rows⟩, hs, h⟩ := h
    simp only [Except.ok.injEq] at h
    rw [← h]
    exact execute_select_keeps hQ _ _ _ hs hq

/-- A property of the pager that `get_page` keeps and that does not depend on the page
buffers holds after every run of statements that returns. -/
theorem run_statements_keeps {Q : Pager → Prop} (hQ : PagerInvariant Q) (fuel : Nat) :
    ∀ (statements : List Statement) (table : Table)
      (r : Table × List (ExecuteResult × List Row)),
      run_statements fuel table statements = .ok r → Q table.pager → Q r.1.pager := by
  intro statements
  induction statements with
  | nil =>
    intro table r h hq
    simp only [run_statements, Except.ok.injEq] at h
    rw [← h]; exact hq
  | cons s ss ih =>
    intro table r h hq
    rw [run_statements] at h
    rw [bind_ok_iff] at h
    obtain ⟨⟨table1, result, rows⟩, hs, h⟩ := h
    have hq1 := execute_statement_keeps hQ _ _ _ _ hs hq
    try dsimp only at h
    rw [bind_ok_iff] at h
    obtain ⟨⟨table2, results⟩, hr, h⟩ := h
    have hq2 := ih _ _ hr hq1
    simp only [Except.ok.injEq] at h
    rw [← h]
    exact hq2

/-! ## The length of the file -/

theorem miss_fst_offset (pager : Pager) (n : Nat) (h : file_aligned pager) :
    (pager.miss n).1.offset % PAGE_SIZE = 0 := by
  obtain ⟨h1, h2⟩ := h
  simp only [Pager.miss]
  split_ifs
  · simp only [File.read, File.lseek_set, PAGE_SIZE_eq, U32_eq] at *
    omega
  · exact h2
  · simp only [File.read, File.lseek_set, PAGE_SIZE_eq, U32_eq] at *
    omega
  · exact h2

theorem file_aligned_invariant : PagerInvariant file_aligned := by
  constructor
  · intro pager n pager' h hq
    unfold get_page at h
    split at h
    · simp at h
    · split at h
      · simp at h
      · split at h
        · simp only [Except.ok.injEq] at h; rw [← h]; exact hq
        · have hfile : file_aligned { pager with file := (pager.miss n).1 } :=
            ⟨by rw [show ({ pager with file := (pager.miss n).1 } : Pager).file.length
                  = (pager.miss n).1.length from rfl, miss_fst_length]; exact hq.1,
              miss_fst_offset pager n hq⟩
          dsimp only at h
          split at h <;> (simp only [Except.ok.injEq] at h; rw [← h]; exact hfile)
  · intro pager n page hq
    exact hq

theorem num_pages_invariant : PagerInvariant (fun pager => pager.num_pages ≤ TABLE_MAX_PAGES) := by
  constructor
  · intro pager n pager' h hq
    unfold get_page at h
    split at h
    · simp at h
    · split at h
      · simp at h
      · split at h
        · simp only [Except.ok.injEq] at h; rw [← h]; exact hq
        · dsimp only at h
          split at h
          · simp only [Except.ok.injEq] at h; rw [← h]
            simp only [TABLE_MAX_PAGES_eq] at *
            omega
          · simp only [Except.ok.injEq] at h; rw [← h]; exact hq
  · intro pager n page hq
    exact hq

/-- The table `db_open` returns has a file of whole pages, positioned at a page boundary. -/
theorem db_open_aligned (f : File) (fresh : Nat → Page) (table : Table)
    (h : db_open f fresh = .ok table) : file_aligned table.pager := by
  unfold db_open at h
  rw [bind_ok_iff] at h
  obtain ⟨pager, hp, h⟩ := h
  have hq : file_aligned pager := by
    unfold pager_open at hp
    dsimp only at hp
    split at hp
    · simp at hp
    · rename_i hc
      simp only [Except.ok.injEq] at hp
      rw [← hp]
      simp only [File.lseek_end, ne_eq, not_not] at hc
      exact ⟨hc, hc⟩
  split at h
  · rw [bind_ok_iff] at h
    obtain ⟨pager1, hg, h⟩ := h
    simp only [Except.ok.injEq] at h
    rw [← h]
    exact modify_keeps file_aligned_invariant _ _ _
      (modify_keeps file_aligned_invariant _ _ _ (file_aligned_invariant.1 _ _ _ hg hq))
  · simp only [Except.ok.injEq] at h
    rw [← h]; exact hq

/-- A file of at most `TABLE_MAX_PAGES` pages gives a pager of at most that many pages. -/
theorem db_open_num_pages (f : File) (fresh : Nat → Page) (table : Table)
    (h : db_open f fresh = .ok table) (hf : f.length ≤ TABLE_MAX_PAGES * PAGE_SIZE) :
    table.pager.num_pages ≤ TABLE_MAX_PAGES := by
  unfold db_open at h
  rw [bind_ok_iff] at h
  obtain ⟨pager, hp, h⟩ := h
  have hq : pager.num_pages ≤ TABLE_MAX_PAGES := by
    unfold pager_open at hp
    dsimp only at hp
    split at hp
    · simp at hp
    · simp only [Except.ok.injEq] at hp
      rw [← hp]
      simp only [File.lseek_end, TABLE_MAX_PAGES_eq, PAGE_SIZE_eq, U32_eq] at *
      omega
  split at h
  · rw [bind_ok_iff] at h
    obtain ⟨pager1, hg, h⟩ := h
    simp only [Except.ok.injEq] at h
    rw [← h]
    exact modify_keeps num_pages_invariant _ _ _
      (modify_keeps num_pages_invariant _ _ _ (num_pages_invariant.1 _ _ _ hg hq))
  · simp only [Except.ok.injEq] at h
    rw [← h]; exact hq

/-- The writes of `db_close` keep the file a whole number of pages long. -/
theorem db_close_loop_aligned :
    ∀ (count i : Nat) (pager pager' : Pager), db_close_loop pager count i = .ok pager' →
      file_aligned pager → file_aligned pager' := by
  intro count
  induction count with
  | zero =>
    intro i pager pager' h hq
    simp only [db_close_loop, Except.ok.injEq] at h
    rw [← h]; exact hq
  | succ count ih =>
    intro i pager pager' h hq
    rw [db_close_loop] at h
    split at h
    · simp at h
    · split at h
      · exact ih _ _ _ h hq
      · rw [bind_ok_iff] at h
        obtain ⟨pager1, hf, h⟩ := h
        refine ih _ _ _ h ?_
        unfold pager_flush at hf
        split at hf
        · simp at hf
        · simp only [Except.ok.injEq] at hf
          rw [← hf]
          obtain ⟨h1, h2⟩ := hq
          simp only [file_aligned, File.write, PAGE_SIZE_eq] at *
          omega

/-- The loop of `db_close` returns when it stays inside the array of slots. -/
theorem db_close_loop_returns :
    ∀ (count i : Nat) (pager : Pager), i + count ≤ TABLE_MAX_PAGES →
      ∃ pager', db_close_loop pager count i = .ok pager' := by
  intro count
  induction count with
  | zero => intro i pager _; exact ⟨pager, rfl⟩
  | succ count ih =>
    intro i pager hle
    rw [db_close_loop]
    have hi : ¬ i ≥ TABLE_MAX_PAGES := by omega
    rw [if_neg hi]
    cases hp : pager.pages i with
    | none => exact ih _ _ (by omega)
    | some page =>
      simp only [pager_flush, hp, ok_bind]
      exact ih _ _ (by omega)

/-- On a file of whole pages `db_open` returns. -/
theorem db_open_returns (f : File) (fresh : Nat → Page) (hlen : f.length % PAGE_SIZE = 0) :
    ∃ table, db_open f fresh = .ok table := by
  unfold db_open pager_open
  dsimp only
  have hc : ¬ f.lseek_end.offset % PAGE_SIZE ≠ 0 := by
    simpa [File.lseek_end] using hlen
  rw [if_neg hc]
  simp only [ok_bind]
  split
  · obtain ⟨pager', hg, _⟩ := get_page_ok
      { file := f.lseek_end, file_length := f.lseek_end.offset % U32,
        num_pages := f.lseek_end.offset / PAGE_SIZE % U32, pages := fun _ => none,
        fresh := fresh } 0 (by simp)
    rw [hg]
    exact ⟨_, rfl⟩
  · exact ⟨_, rfl⟩

/-- C13. When the file is a whole number of pages long, `db_open` returns, and after every
sequence of inserts and selects that returns, the file `db_close` leaves is again a whole
number of pages long; `db_close` does return when the file had at most `TABLE_MAX_PAGES`
pages. -/
theorem close_leaves_whole_pages (f : File) (fresh : Nat → Page)
    (hlen : f.length % PAGE_SIZE = 0) :
    (∃ table, db_open f fresh = .ok table)
    ∧ ∀ (fuel : Nat) (statements : List Statement)
        (r : Table × List (ExecuteResult × List Row)),
        (db_open f fresh >>= fun table => run_statements fuel table statements) = .ok r →
        (∀ file, db_close r.1 = .ok file → file.length % PAGE_SIZE = 0)
        ∧ (f.length ≤ TABLE_MAX_PAGES * PAGE_SIZE →
            ∃ file, db_close r.1 = .ok file ∧ file.length % PAGE_SIZE = 0) := by
  refine ⟨db_open_returns f fresh hlen, ?_⟩
  intro fuel statements r hrun
  rw [bind_ok_iff] at hrun
  obtain ⟨table, hopen, hrun⟩ := hrun
  have hq := run_statements_keeps file_aligned_invariant fuel statements table r hrun
    (db_open_aligned f fresh table hopen)
  have hclose : ∀ file, db_close r.1 = .ok file → file.length % PAGE_SIZE = 0 := by
    intro file h
    unfold db_close at h
    rw [bind_ok_iff] at h
    obtain ⟨pager, hl, h⟩ := h
    simp only [Except.ok.injEq] at h
    rw [← h]
    exact (db_close_loop_aligned _ _ _ _ hl hq).1
  refine ⟨hclose, ?_⟩
  intro hf
  have hn := run_statements_keeps num_pages_invariant fuel statements table r hrun
    (db_open_num_pages f fresh table hopen hf)
  obtain ⟨pager', hl⟩ := db_close_loop_returns r.1.pager.num_pages 0 r.1.pager (by omega)
  have hc : db_close r.1 = .ok pager'.file := by
    unfold db_close
    rw [hl]; rfl
  exact ⟨pager'.file, hc, hclose _ hc⟩

/-- C13, at the one-page database file with the row 5: the session that inserts the row 4
and then selects returns, and the file `db_close` leaves is 8192 bytes long. -/
theorem close_leaves_whole_pages_witness :
    (seed_file (example_row 5)).length % PAGE_SIZE = 0
    ∧ returns (db_open (seed_file (example_row 5)) zero_fresh >>= fun table =>
          run_statements 5 table [.STATEMENT_INSERT (example_row 4), .STATEMENT_SELECT])
        (fun r => r.2.map (fun x => (x.1, x.2.map Row.id))
            = [(EXECUTE_SUCCESS, []), (EXECUTE_SUCCESS, [4, 5])]
          ∧ returns (db_close r.1) (fun file => file.length = 8192))
    ∧ (∃ table, db_open (seed_file (example_row 5)) zero_fresh = .ok table)
    ∧ ∀ (fuel : Nat) (statements : List Statement)
        (r : Table × List (ExecuteResult × List Row)),
        (db_open (seed_file (example_row 5)) zero_fresh >>= fun table =>
          run_statements fuel table statements) = .ok r →
        (∀ file, db_close r.1 = .ok file → file.length % PAGE_SIZE = 0)
        ∧ ((seed_file (example_row 5)).length ≤ TABLE_MAX_PAGES * PAGE_SIZE →
            ∃ file, db_close r.1 = .ok file ∧ file.length % PAGE_SIZE = 0) :=
  ⟨by decide, by decide!,
    close_leaves_whole_pages (seed_file (example_row 5)) zero_fresh (by decide)⟩

/-! ## Bytes of a page -/

theorem write_u32_outside (p : Page) (off v i : Nat) (h : i < off ∨ off + 4 ≤ i) :
    write_u32 p off v i = p i := by
  unfold write_u32
  split_ifs <;> first | rfl | omega

theorem read_u32_congr (p q : Page) (off : Nat) (h : ∀ j < 4, p (off + j) = q (off + j)) :
    read_u32 p off = read_u32 q off := by
  unfold read_u32
  have h0 := h 0 (by omega)
  have h1 := h 1 (by omega)
  have h2 := h 2 (by omega)
  have h3 := h 3 (by omega)
  simp only [Nat.add_zero] at h0
  rw [h0, h1, h2, h3]

theorem read_u32_lt (p : Page) (off : Nat) : read_u32 p off < U32 := by
  unfold read_u32
  simp only [U32_eq]
  omega

theorem read_u32_write_u32 (p : Page) (off v : Nat) :
    read_u32 (write_u32 p off v) off = v % U32 := by
  unfold read_u32 write_u32
  simp only [U32_eq]
  have e1 : ¬ off + 1 = off := by omega
  have e2 : ¬ off + 2 = off := by omega
  have e3 : ¬ off + 2 = off + 1 := by omega
  have e4 : ¬ off + 3 = off := by omega
  have e5 : ¬ off + 3 = off + 1 := by omega
  have e6 : ¬ off + 3 = off + 2 := by omega
  simp only [if_true, e1, e2, e3, e4, e5, e6, if_false]
  omega

theorem read_u32_write_u32_other (p : Page) (off v off' : Nat)
    (h : off' + 4 ≤ off ∨ off + 4 ≤ off') :
    read_u32 (write_u32 p off v) off' = read_u32 p off' := by
  apply read_u32_congr
  intro j hj
  exact write_u32_outside p off v _ (by omega)

theorem read_u8_write_u32 (p : Page) (off v i : Nat) (h : i < off ∨ off + 4 ≤ i) :
    read_u8 (write_u32 p off v) i = read_u8 p i := by
  unfold read_u8
  rw [write_u32_outside p off v i h]

theorem memcpy_inside (dst src : Page) (d s n i : Nat) (h : d ≤ i ∧ i < d + n) :
    memcpy dst d src s n i = src (s + (i - d)) := by
  unfold memcpy
  rw [if_pos h]

theorem memcpy_outside (dst src : Page) (d s n i : Nat) (h : i < d ∨ d + n ≤ i) :
    memcpy dst d src s n i = dst i := by
  unfold memcpy
  have : ¬ (d ≤ i ∧ i < d + n) := by omega
  rw [if_neg this]

theorem serialize_row_outside (value : Row) (p : Page) (dest i : Nat)
    (h : i < dest ∨ dest + ROW_SIZE ≤ i) : serialize_row value p dest i = p i := by
  simp only [ROW_SIZE_eq] at h
  unfold serialize_row
  simp only [ID_OFFSET_eq, USERNAME_OFFSET_eq, EMAIL_OFFSET_eq, USERNAME_SIZE_eq, EMAIL_SIZE_eq]
  rw [memcpy_outside _ _ _ _ _ _ (by omega), memcpy_outside _ _ _ _ _ _ (by omega),
    write_u32_outside _ _ _ _ (by omega)]

/-- The bytes `serialize_row` writes depend on the row and on the place in the row only. -/
theorem serialize_row_inside (value : Row) (p q : Page) (dest dest' j : Nat)
    (h : j < ROW_SIZE) :
    serialize_row value p dest (dest + j) = serialize_row value q dest' (dest' + j) := by
  simp only [ROW_SIZE_eq] at h
  unfold serialize_row
  simp only [ID_OFFSET_eq, USERNAME_OFFSET_eq, EMAIL_OFFSET_eq, USERNAME_SIZE_eq, EMAIL_SIZE_eq]
  by_cases h1 : 36 ≤ j
  · rw [memcpy_inside _ _ (dest + 36) _ _ _ (by omega),
      memcpy_inside _ _ (dest' + 36) _ _ _ (by omega)]
    congr 1; omega
  · rw [memcpy_outside _ _ (dest + 36) _ _ _ (by omega),
      memcpy_outside _ _ (dest' + 36) _ _ _ (by omega)]
    by_cases h2 : 4 ≤ j
    · rw [memcpy_inside _ _ (dest + 4) _ _ _ (by omega),
        memcpy_inside _ _ (dest' + 4) _ _ _ (by omega)]
      congr 1; omega
    · rw [memcpy_outside _ _ (dest + 4) _ _ _ (by omega),
        memcpy_outside _ _ (dest' + 4) _ _ _ (by omega)]
      unfold write_u32
      have hj : j = 0 ∨ j = 1 ∨ j = 2 ∨ j = 3 := by omega
      rcases hj with rfl | rfl | rfl | rfl <;> simp

/-! ## Slots of the pager -/

theorem set_node_pages_same (pager : Pager) (n : Nat) (x : Page) :
    (pager.set_node n x).pages n = some x := by
  simp [Pager.set_node]

theorem set_node_pages_other (pager : Pager) (n m : Nat) (x : Page) (h : m ≠ n) :
    (pager.set_node n x).pages m = pager.pages m := by
  simp [Pager.set_node, h]

theorem node_of_pages (pager : Pager) (n : Nat) (x : Page) (h : pager.pages n = some x) :
    pager.node n = x := by
  simp [Pager.node, h]

theorem peek_of_pages (pager : Pager) (n : Nat) (x : Page) (h : pager.pages n = some x) :
    pager.peek n = x := by
  simp [Pager.peek, h]

theorem set_node_set_node (pager : Pager) (n : Nat) (x y : Page) :
    (pager.set_node n x).set_node n y = pager.set_node n y := by
  unfold Pager.set_node
  congr 1
  funext m
  by_cases h : m = n <;> simp [h]

theorem set_node_resident (pager : Pager) (n : Nat) (x : Page) (h : pager.pages n = some x) :
    pager.set_node n x = pager := by
  cases pager with
  | mk file file_length num_pages pages fresh =>
    unfold Pager.set_node
    congr 1
    funext m
    by_cases hm : m = n
    · subst hm; simp only [if_true]; exact h.symm
    · simp [hm]

theorem modify_of_pages (pager : Pager) (n : Nat) (f : Page → Page) (x : Page)
    (h : pager.pages n = some x) : pager.modify n f = pager.set_node n (f x) := by
  unfold Pager.modify
  rw [node_of_pages pager n x h]

theorem peek_set_node (pager : Pager) (n : Nat) (x : Page) :
    (pager.set_node n x).peek = Function.update pager.peek n x := by
  funext m
  by_cases h : m = n
  · subst h
    simp [Pager.peek, Pager.set_node]
  · rw [Function.update_noteq h]
    simp only [Pager.peek, Pager.set_node, h, if_false]
    rfl

/-- The full account of `get_page` on a page below `TABLE_MAX_PAGES`. -/
theorem get_page_spec (pager : Pager) (n : Nat) (h : n < TABLE_MAX_PAGES) :
    ∃ pager', get_page pager n = .ok pager'
      ∧ pager'.pages n = some (pager.peek n)
      ∧ (∀ m, m ≠ n → pager'.pages m = pager.pages m)
      ∧ pager'.peek = pager.peek
      ∧ (n < pager.num_pages → pager'.num_pages = pager.num_pages) := by
  obtain ⟨pager', hg, hnode, hpeek⟩ := get_page_ok pager n h
  have hg' := hg
  unfold get_page at hg
  have h1 : ¬ n > TABLE_MAX_PAGES := by omega
  have h2 : ¬ n = TABLE_MAX_PAGES := by omega
  rw [if_neg h1, if_neg h2] at hg
  refine ⟨pager', hg', ?_, ?_, hpeek, ?_⟩
  · cases hp : pager.pages n with
    | some p =>
      simp only [hp, Except.ok.injEq] at hg
      rw [← hg, hp]
      simp [Pager.peek, hp]
    | none =>
      simp only [hp] at hg
      split at hg <;>
        (simp only [Except.ok.injEq] at hg; rw [← hg]; simp [Pager.set_node, Pager.peek, hp])
  · intro m hm
    cases hp : pager.pages n with
    | some p =>
      simp only [hp, Except.ok.injEq] at hg
      rw [← hg]
    | none =>
      simp only [hp] at hg
      split at hg <;>
        (simp only [Except.ok.injEq] at hg; rw [← hg]; simp [Pager.set_node, hm])
  · intro hlt
    cases hp : pager.pages n with
    | some p =>
      simp only [hp, Except.ok.injEq] at hg
      rw [← hg]
    | none =>
      simp only [hp] at hg
      split at hg
      · rename_i hc
        simp only [Pager.set_node] at hc
        omega
      · simp only [Except.ok.injEq] at hg; rw [← hg]
        rfl

/-! ## Leaf insert with room -/

theorem memcpy_cell_ok (pager : Pager) (dp d sp s n : Nat) (x y : Page)
    (hd : pager.pages dp = some x) (hs : pager.pages sp = some y)
    (h1 : d + n ≤ PAGE_SIZE) (h2 : s + n ≤ PAGE_SIZE) :
    memcpy_cell pager dp d sp s n = .ok (pager.set_node dp (memcpy x d y s n)) := by
  unfold memcpy_cell
  have : (in_page d n && in_page s n) = true := by
    simp only [in_page, Bool.and_eq_true, decide_eq_true_eq]
    exact ⟨h1, h2⟩
  rw [if_pos this, modify_of_pages pager dp _ x hd, node_of_pages pager sp y hs]

theorem pager_store_u32_ok (pager : Pager) (n off v : Nat) (x : Page)
    (hn : pager.pages n = some x) (h : off + 4 ≤ PAGE_SIZE) :
    pager.store_u32 n off v = .ok (pager.set_node n (write_u32 x off v)) := by
  unfold Pager.store_u32 store_u32
  have : in_page off 4 = true := by
    simp only [in_page, decide_eq_true_eq]; exact h
  rw [node_of_pages pager n x hn, if_pos this]
  rfl

theorem pager_serialize_row_ok (pager : Pager) (n off : Nat) (value : Row) (x : Page)
    (hn : pager.pages n = some x) (h : off + ROW_SIZE ≤ PAGE_SIZE) :
    pager.serialize_row n off value = .ok (pager.set_node n (serialize_row value x off)) := by
  unfold Pager.serialize_row
  have : in_page off ROW_SIZE = true := by
    simp only [in_page, decide_eq_true_eq]; exact h
  rw [if_pos this, modify_of_pages pager n _ x hn]

/-- The shifting loop of `leaf_node_insert`, started at `k`: the bytes of the cells
`cell_num + 1` to `k` become the bytes 295 places before them. -/
theorem leaf_node_insert_loop_spec (page_num cell_num : Nat) :
    ∀ (k : Nat) (pager : Pager) (x : Page), pager.pages page_num = some x → k ≤ 12 →
      leaf_node_insert_loop page_num cell_num k pager
        = .ok (pager.set_node page_num (fun off =>
            if 14 + 295 * (cell_num + 1) ≤ off ∧ off < 14 + 295 * (k + 1) then x (off - 295)
            else x off)) := by
  intro k
  induction k with
  | zero =>
    intro pager x hx _
    rw [leaf_node_insert_loop]
    congr 1
    rw [eq_comm]
    apply set_node_resident
    rw [hx]
    congr 1
    funext off
    have : ¬ (14 + 295 * (cell_num + 1) ≤ off ∧ off < 14 + 295 * (0 + 1)) := by omega
    rw [if_neg this]
  | succ k ih =>
    intro pager x hx hk
    rw [leaf_node_insert_loop]
    by_cases hc : k + 1 > cell_num
    · rw [if_pos hc]
      rw [memcpy_cell_ok pager page_num _ page_num _ _ x x hx hx
        (by rw [leaf_node_cell_eq (k + 1) (by simp; omega)]; simp; omega)
        (by rw [leaf_node_cell_eq k (by simp; omega)]; simp; omega)]
      simp only [ok_bind]
      rw [ih _ _ (set_node_pages_same pager page_num _) (by omega), set_node_set_node]
      congr 2
      funext off
      rw [leaf_node_cell_eq (k + 1) (by simp; omega), leaf_node_cell_eq k (by simp; omega)]
      simp only [memcpy, LEAF_NODE_CELL_SIZE_eq]
      split_ifs <;> first | rfl | omega | (congr 1; omega)
    · rw [if_neg hc]
      congr 1
      rw [eq_comm]
      apply set_node_resident
      rw [hx]
      congr 1
      funext off
      have : ¬ (14 + 295 * (cell_num + 1) ≤ off ∧ off < 14 + 295 * (k + 1 + 1)) := by omega
      rw [if_neg this]

/-- C18. Leaf insert with room: on a leaf page below `TABLE_MAX_PAGES` with
`n < LEAF_NODE_MAX_CELLS` cells and a cursor on cell `c <= n`, `leaf_node_insert` returns;
the cells before `c` keep their bytes, each old cell `i` from `c` on is found at `i + 1`,
cell `c` holds the key and the serialized row, `num_cells` is `n + 1`, and no other byte of
the header, no byte behind the cells and no other page changes. -/
theorem leaf_node_insert_with_room (table : Table) (cursor : Cursor) (key : Nat) (value : Row)
    (hp : cursor.page_num < TABLE_MAX_PAGES)
    (hn : leaf_node_num_cells (table.pager.peek cursor.page_num) < LEAF_NODE_MAX_CELLS)
    (hc : cursor.cell_num ≤ leaf_node_num_cells (table.pager.peek cursor.page_num)) :
    ∃ table', leaf_node_insert table cursor key value = .ok table'
      ∧ table'.root_page_num = table.root_page_num
      ∧ (∀ m, m ≠ cursor.page_num → table'.pager.peek m = table.pager.peek m)
      ∧ leaf_node_num_cells (table'.pager.peek cursor.page_num)
          = leaf_node_num_cells (table.pager.peek cursor.page_num) + 1
      ∧ (∀ off, off < LEAF_NODE_HEADER_SIZE →
          ¬ (LEAF_NODE_NUM_CELLS_OFFSET ≤ off
            ∧ off < LEAF_NODE_NUM_CELLS_OFFSET + LEAF_NODE_NUM_CELLS_SIZE) →
          table'.pager.peek cursor.page_num off = table.pager.peek cursor.page_num off)
      ∧ (∀ i < cursor.cell_num, ∀ j < LEAF_NODE_CELL_SIZE,
          table'.pager.peek cursor.page_num (leaf_node_cell i + j)
            = table.pager.peek cursor.page_num (leaf_node_cell i + j))
      ∧ (∀ i, cursor.cell_num ≤ i →
          i < leaf_node_num_cells (table.pager.peek cursor.page_num) →
          ∀ j < LEAF_NODE_CELL_SIZE,
            table'.pager.peek cursor.page_num (leaf_node_cell (i + 1) + j)
              = table.pager.peek cursor.page_num (leaf_node_cell i + j))
      ∧ (∀ j < LEAF_NODE_CELL_SIZE,
          table'.pager.peek cursor.page_num (leaf_node_cell cursor.cell_num + j)
            = cell_image key value j)
      ∧ (∀ off,
          leaf_node_cell (leaf_node_num_cells (table.pager.peek cursor.page_num) + 1) ≤ off →
          table'.pager.peek cursor.page_num off = table.pager.peek cursor.page_num off) := by
  obtain ⟨pager1, hg, hres, _, hpeek, _⟩ := get_page_spec table.pager cursor.page_num hp
  generalize hP : table.pager.peek cursor.page_num = P at *
  generalize hN : leaf_node_num_cells P = n at *
  generalize hC : cursor.cell_num = c at *
  have hn13 : n < 13 := by simpa using hn
  -- the page after the shifting loop
  have hloop : (if c < n then leaf_node_insert_loop cursor.page_num c n pager1
        else (Except.ok pager1 : Exec Pager))
      = .ok (pager1.set_node cursor.page_num (fun off =>
          if 14 + 295 * (c + 1) ≤ off ∧ off < 14 + 295 * (n + 1) then P (off - 295)
          else P off)) := by
    split
    · exact leaf_node_insert_loop_spec _ _ n pager1 P hres (by omega)
    · congr 1
      rw [eq_comm]
      apply set_node_resident
      rw [hres]
      congr 1
      funext off
      have : ¬ (14 + 295 * (c + 1) ≤ off ∧ off < 14 + 295 * (n + 1)) := by omega
      rw [if_neg this]
  generalize hS : (fun off => if 14 + 295 * (c + 1) ≤ off ∧ off < 14 + 295 * (n + 1)
      then P (off - 295) else P off) = S at hloop
  have hSlow : ∀ off, off < 14 + 295 * (c + 1) → S off = P off := by
    intro off h
    rw [← hS]
    have : ¬ (14 + 295 * (c + 1) ≤ off ∧ off < 14 + 295 * (n + 1)) := by omega
    simp only [this, if_false]
  have hSnum : leaf_node_num_cells S = n := by
    rw [← hN]
    unfold leaf_node_num_cells
    apply read_u32_congr
    intro j hj
    exact hSlow _ (by simp; omega)
  have hcell : leaf_node_cell c = 14 + c * 295 := leaf_node_cell_eq c (by simp; omega)
  -- the final page
  have hrun : leaf_node_insert table cursor key value
      = .ok (Table.mk (pager1.set_node cursor.page_num
          (serialize_row value
            (write_u32 (set_leaf_node_num_cells S ((n + 1) % U32)) (leaf_node_key c) key)
            (leaf_node_value c))) table.root_page_num) := by
    have tail : ∀ (y : Pager), y.pages cursor.page_num = some S →
        (∀ X, y.set_node cursor.page_num X = pager1.set_node cursor.page_num X) →
        (do
          let pager ←
            (y.modify cursor.page_num fun node =>
                set_leaf_node_num_cells node ((leaf_node_num_cells node + 1) % U32)).store_u32
              cursor.page_num (leaf_node_key c) key
          let pager ← pager.serialize_row cursor.page_num (leaf_node_value c) value
          (Except.ok (Table.mk pager table.root_page_num) : Exec Table))
        = .ok (Table.mk (pager1.set_node cursor.page_num
          (serialize_row value
            (write_u32 (set_leaf_node_num_cells S ((n + 1) % U32)) (leaf_node_key c) key)
            (leaf_node_value c))) table.root_page_num) := by
      intro y hy hset
      rw [modify_of_pages _ _ _ S hy, hSnum]
      rw [pager_store_u32_ok _ _ _ _ _ (set_node_pages_same _ _ _)
        (by simp only [leaf_node_key, hcell, PAGE_SIZE_eq]; omega)]
      simp only [ok_bind]
      rw [set_node_set_node, pager_serialize_row_ok _ _ _ _ _ (set_node_pages_same _ _ _)
        (by simp only [leaf_node_value, hcell, PAGE_SIZE_eq, ROW_SIZE_eq, LEAF_NODE_KEY_SIZE_eq]
            omega)]
      simp only [ok_bind]
      rw [set_node_set_node, hset]
    unfold leaf_node_insert
    rw [hg]
    simp only [ok_bind, node_of_pages pager1 _ P hres, hN, hC]
    have hnot : ¬ n ≥ LEAF_NODE_MAX_CELLS := by simp; omega
    rw [if_neg hnot]
    split
    · rename_i hlt
      rw [if_pos hlt] at hloop
      rw [hloop]
      simp only [ok_bind]
      exact tail _ (set_node_pages_same _ _ _) (fun X => set_node_set_node _ _ _ _)
    · rename_i hlt
      have hSP : S = P := by
        rw [← hS]
        funext off
        have : ¬ (14 + 295 * (c + 1) ≤ off ∧ off < 14 + 295 * (n + 1)) := by omega
        rw [if_neg this]
      exact tail _ (by rw [hSP]; exact hres) (fun X => rfl)
  refine ⟨_, hrun, rfl, ?_, ?_⟩
  · intro m hm
    show (pager1.set_node cursor.page_num _).peek m = _
    rw [peek_set_node, Function.update_noteq hm, hpeek]
  · have hX : (Table.mk (pager1.set_node cursor.page_num
          (serialize_row value
            (write_u32 (set_leaf_node_num_cells S ((n + 1) % U32)) (leaf_node_key c) key)
            (leaf_node_value c))) table.root_page_num).pager.peek cursor.page_num
        = serialize_row value
            (write_u32 (set_leaf_node_num_cells S ((n + 1) % U32)) (leaf_node_key c) key)
            (leaf_node_value c) := by
      show (pager1.set_node cursor.page_num _).peek cursor.page_num = _
      rw [peek_set_node, Function.update_same]
    rw [hX]
    -- bytes outside cell `c` come from the shifted page with the new count
    have hout : ∀ off, off < 14 + c * 295 ∨ 14 + c * 295 + 295 ≤ off →
        serialize_row value
            (write_u32 (set_leaf_node_num_cells S ((n + 1) % U32)) (leaf_node_key c) key)
            (leaf_node_value c) off
          = set_leaf_node_num_cells S ((n + 1) % U32) off := by
      intro off h
      rw [serialize_row_outside _ _ _ _
          (by simp only [leaf_node_value, hcell, ROW_SIZE_eq, LEAF_NODE_KEY_SIZE_eq]; omega),
        write_u32_outside _ _ _ _ (by simp only [leaf_node_key, hcell]; omega)]
    have hnum : ∀ off, off < 6 ∨ 10 ≤ off →
        set_leaf_node_num_cells S ((n + 1) % U32) off = S off := by
      intro off h
      unfold set_leaf_node_num_cells
      exact write_u32_outside _ _ _ _ (by simp only [LEAF_NODE_NUM_CELLS_OFFSET_eq]; omega)
    refine ⟨?_, ?_, ?_, ?_, ?_, ?_⟩
    · unfold leaf_node_num_cells
      rw [read_u32_congr _ (set_leaf_node_num_cells S ((n + 1) % U32)) _
        (fun j hj => hout _ (by simp only [LEAF_NODE_NUM_CELLS_OFFSET_eq]; omega))]
      unfold set_leaf_node_num_cells
      rw [read_u32_write_u32]
      simp only [U32_eq]
      omega
    · intro off h1 h2
      simp only [LEAF_NODE_HEADER_SIZE_eq, LEAF_NODE_NUM_CELLS_OFFSET_eq,
        LEAF_NODE_NUM_CELLS_SIZE_eq] at h1 h2
      rw [hout off (by omega), hnum off (by omega), hSlow off (by omega)]
    · intro i hi j hj
      simp only [LEAF_NODE_CELL_SIZE_eq] at hj
      rw [leaf_node_cell_eq i (by simp; omega)]
      rw [hout _ (by omega), hnum _ (by omega), hSlow _ (by omega)]
    · intro i hi1 hi2 j hj
      simp only [LEAF_NODE_CELL_SIZE_eq] at hj
      rw [leaf_node_cell_eq i (by simp; omega), leaf_node_cell_eq (i + 1) (by simp; omega)]
      rw [hout _ (by omega), hnum _ (by omega), ← hS]
      have : 14 + 295 * (c + 1) ≤ 14 + (i + 1) * 295 + j
          ∧ 14 + (i + 1) * 295 + j < 14 + 295 * (n + 1) := by omega
      simp only [this, and_self, if_true]
      congr 1
      omega
    · intro j hj
      simp only [LEAF_NODE_CELL_SIZE_eq] at hj
      by_cases hj4 : j < 4
      · rw [serialize_row_outside _ _ _ _
          (by simp only [leaf_node_value, ROW_SIZE_eq, LEAF_NODE_KEY_SIZE_eq]; omega)]
        unfold cell_image
        rw [serialize_row_outside _ _ _ _ (by simp only [LEAF_NODE_KEY_SIZE_eq]; omega)]
        unfold leaf_node_key write_u32
        have hj' : j = 0 ∨ j = 1 ∨ j = 2 ∨ j = 3 := by omega
        rcases hj' with rfl | rfl | rfl | rfl <;> simp
      · unfold cell_image
        have e1 : leaf_node_cell c + j = leaf_node_value c + (j - 4) := by
          simp only [leaf_node_value, LEAF_NODE_KEY_SIZE_eq]; omega
        have e2 : j = LEAF_NODE_KEY_SIZE + (j - 4) := by
          simp only [LEAF_NODE_KEY_SIZE_eq]; omega
        rw [e1]
        conv_rhs => rw [e2]
        exact serialize_row_inside value _ _ _ _ _ (by simp only [ROW_SIZE_eq]; omega)
    · intro off h
      rw [leaf_node_cell_eq (n + 1) (by simp; omega)] at h
      rw [hout off (by omega), hnum off (by omega), ← hS]
      have : ¬ (14 + 295 * (c + 1) ≤ off ∧ off < 14 + 295 * (n + 1)) := by omega
      simp only [this, if_false]

/-- C18, at `two_leaf_table`: inserting the key 7 at cell 1 of the leaf on page 1 (two cells,
ids 3 and 4) returns, the leaf then has three cells, cell 1 holds the new key and row, and the
old cell 1 is found at cell 2. -/
theorem leaf_node_insert_with_room_witness :
    (1 < TABLE_MAX_PAGES
      ∧ leaf_node_num_cells (two_leaf_table.pager.peek 1) < LEAF_NODE_MAX_CELLS
      ∧ 1 ≤ leaf_node_num_cells (two_leaf_table.pager.peek 1))
    ∧ ∃ table', leaf_node_insert two_leaf_table ⟨1, 1, some false⟩ 7 (example_row 7) = .ok table'
        ∧ leaf_node_num_cells (table'.pager.peek 1)
            = leaf_node_num_cells (two_leaf_table.pager.peek 1) + 1
        ∧ (∀ j < LEAF_NODE_CELL_SIZE,
            table'.pager.peek 1 (leaf_node_cell 1 + j) = cell_image 7 (example_row 7) j)
        ∧ (∀ j < LEAF_NODE_CELL_SIZE,
            table'.pager.peek 1 (leaf_node_cell 2 + j)
              = two_leaf_table.pager.peek 1 (leaf_node_cell 1 + j)) := by
  refine ⟨by decide, ?_⟩
  obtain ⟨t, h1, _, _, h2, _, _, h3, h4, _⟩ :=
    leaf_node_insert_with_room two_leaf_table ⟨1, 1, some false⟩ 7 (example_row 7)
      (by decide) (by decide) (by decide)
  exact ⟨t, h1, h2, h4, h3 1 (le_refl _) (by decide)⟩

/-! ## A new root -/

theorem node_set_node (pager : Pager) (n m : Nat) (x : Page) :
    (pager.set_node n x).node m = if m = n then x else pager.node m := by
  unfold Pager.node Pager.set_node
  by_cases h : m = n <;> simp [h]

theorem pager_store_u32_eq (pager : Pager) (n off v : Nat) (h : off + 4 ≤ PAGE_SIZE) :
    pager.store_u32 n off v = .ok (pager.set_node n (write_u32 (pager.node n) off v)) := by
  unfold Pager.store_u32 store_u32
  have : in_page off 4 = true := by
    simp only [in_page, decide_eq_true_eq]; exact h
  rw [if_pos this]
  rfl

theorem write_u8_outside (p : Page) (off v i : Nat) (h : i ≠ off) :
    write_u8 p off v i = p i := by
  unfold write_u8
  rw [if_neg h]

theorem read_u8_write_u8 (p : Page) (off v : Nat) :
    read_u8 (write_u8 p off v) off = v % 256 := by
  unfold read_u8 write_u8
  simp

theorem get_page_resident (pager pager' : Pager) (n m : Nat) (x : Page)
    (hg : get_page pager n = .ok pager') (hm : pager.pages m = some x) :
    pager'.pages m = some x := by
  have hn : n < TABLE_MAX_PAGES := by
    unfold get_page at hg
    by_contra hcon
    by_cases h1 : n > TABLE_MAX_PAGES
    · rw [if_pos h1] at hg; cases hg
    · have h2 : n = TABLE_MAX_PAGES := by omega
      rw [if_neg h1, if_pos h2] at hg; cases hg
  obtain ⟨q, hq, hres, hoth, _, _⟩ := get_page_spec pager n hn
  rw [hg] at hq
  cases hq
  by_cases h : m = n
  · subst h
    rw [hres, peek_of_pages pager m x hm]
  · rw [hoth m h, hm]

theorem get_node_max_key_leaf (node : Page) (hleaf : get_node_type node = NODE_LEAF)
    (h1 : 1 ≤ leaf_node_num_cells node) (h13 : leaf_node_num_cells node ≤ LEAF_NODE_MAX_CELLS) :
    get_node_max_key node
      = .ok (read_u32 node (leaf_node_key (leaf_node_num_cells node - 1))) := by
  have hn1 : leaf_node_num_cells node - 1 ≤ LEAF_NODE_MAX_CELLS := by omega
  have hcellr := leaf_node_cell_eq _ hn1
  unfold get_node_max_key
  rw [hleaf]
  have e : (leaf_node_num_cells node + U32 - 1) % U32 = leaf_node_num_cells node - 1 := by
    have : leaf_node_num_cells node < U32 := read_u32_lt node LEAF_NODE_NUM_CELLS_OFFSET
    simp only [U32_eq] at this ⊢
    omega
  rw [e]
  rw [if_neg (show ¬ NODE_LEAF = NODE_INTERNAL by decide), if_pos rfl]
  unfold load_u32
  have hin : in_page (leaf_node_key (leaf_node_num_cells node - 1)) 4 = true := by
    simp only [in_page, decide_eq_true_eq, leaf_node_key, hcellr, PAGE_SIZE_eq]
    simp only [LEAF_NODE_MAX_CELLS_eq] at hn1
    omega
  rw [if_pos hin]

/-- The run of `create_new_root` when the root and the right child lie below `num_pages` and
one more page fits: the page `num_pages` gets the bytes of the root with the root flag
cleared and the parent set, the root is rewritten as an internal node, and the right child
gets its parent. -/
theorem create_new_root_run (table : Table) (right_child_page_num : Nat)
    (hroot : table.root_page_num < table.pager.num_pages)
    (hright : right_child_page_num < table.pager.num_pages)
    (hne : right_child_page_num ≠ table.root_page_num)
    (hfull : table.pager.num_pages < TABLE_MAX_PAGES)
    (hleaf : get_node_type (table.pager.peek table.root_page_num) = NODE_LEAF)
    (h1 : 1 ≤ leaf_node_num_cells (table.pager.peek table.root_page_num))
    (h13 : leaf_node_num_cells (table.pager.peek table.root_page_num) ≤ LEAF_NODE_MAX_CELLS) :
    ∃ pager', create_new_root table right_child_page_num
        = .ok (Table.mk pager' table.root_page_num)
      ∧ pager'.peek table.pager.num_pages
          = set_node_parent
              (set_node_root
                (memcpy (table.pager.peek table.pager.num_pages) 0
                  (table.pager.peek table.root_page_num) 0 PAGE_SIZE) false)
              table.root_page_num
      ∧ pager'.peek table.root_page_num
          = set_internal_node_right_child
              (write_u32
                (write_u32
                  (set_internal_node_num_keys
                    (set_node_root
                      (initialize_internal_node (table.pager.peek table.root_page_num)) true) 1)
                  (internal_node_cell 0) table.pager.num_pages)
                (internal_node_key 0)
                (read_u32 (table.pager.peek table.root_page_num)
                  (leaf_node_key
                    (leaf_node_num_cells (table.pager.peek table.root_page_num) - 1))))
              right_child_page_num
      ∧ pager'.peek right_child_page_num
          = set_node_parent (table.pager.peek right_child_page_num) table.root_page_num
      ∧ (∀ m, m ≠ table.pager.num_pages → m ≠ table.root_page_num →
          m ≠ right_child_page_num → pager'.peek m = table.pager.peek m) := by
  obtain ⟨p1, hg1, hres1, _, hpeek1, hnp1⟩ :=
    get_page_spec table.pager table.root_page_num (by omega)
  obtain ⟨p2, hg2, hres2, _, hpeek2, hnp2⟩ :=
    get_page_spec p1 right_child_page_num (by omega)
  have hL : p2.num_pages = table.pager.num_pages := by
    rw [hnp2 (by rw [hnp1 hroot]; exact hright), hnp1 hroot]
  obtain ⟨p3, hg3, hres3, _, hpeek3, _⟩ := get_page_spec p2 table.pager.num_pages hfull
  have hr3 : p3.pages table.root_page_num = some (table.pager.peek table.root_page_num) :=
    get_page_resident _ _ _ _ _ hg3 (get_page_resident _ _ _ _ _ hg2 hres1)
  have hc3 : p3.pages right_child_page_num = some (table.pager.peek right_child_page_num) := by
    apply get_page_resident _ _ _ _ _ hg3
    rw [hres2, hpeek1]
  rw [hpeek2, hpeek1] at hres3
  have hp3 : p3.peek = table.pager.peek := by rw [hpeek3, hpeek2, hpeek1]
  generalize table.pager.peek table.root_page_num = R at *
  generalize table.pager.peek right_child_page_num = C at *
  generalize table.pager.peek table.pager.num_pages = X at *
  generalize hLdef : table.pager.num_pages = L at *
  generalize hrdef : table.root_page_num = root at *
  have hLr : L ≠ root := by omega
  have hLc : L ≠ right_child_page_num := by omega
  have hrL : root ≠ L := by omega
  have hcL : right_child_page_num ≠ L := by omega
  have hrc : root ≠ right_child_page_num := fun h => hne h.symm
  have hn3r := node_of_pages _ _ _ hr3
  have hn3c := node_of_pages _ _ _ hc3
  have hn3L := node_of_pages _ _ _ hres3
  have hn1 : leaf_node_num_cells R - 1 ≤ LEAF_NODE_MAX_CELLS := by omega
  have hcellr := leaf_node_cell_eq _ hn1
  have hkey : get_node_max_key (set_node_root (memcpy X 0 R 0 PAGE_SIZE) false)
      = .ok (read_u32 R (leaf_node_key (leaf_node_num_cells R - 1))) := by
    have hbyte : ∀ off, off < PAGE_SIZE → off ≠ 1 →
        set_node_root (memcpy X 0 R 0 PAGE_SIZE) false off = R off := by
      intro off h1 h2
      unfold set_node_root
      rw [write_u8_outside _ _ _ _ (by simpa using h2), memcpy_inside _ _ _ _ _ _ (by omega)]
      congr 1
      omega
    have ht : get_node_type (set_node_root (memcpy X 0 R 0 PAGE_SIZE) false) = NODE_LEAF := by
      rw [← hleaf]
      unfold get_node_type read_u8
      rw [hbyte _ (by simp) (by simp)]
    have hnum : leaf_node_num_cells (set_node_root (memcpy X 0 R 0 PAGE_SIZE) false)
        = leaf_node_num_cells R := by
      unfold leaf_node_num_cells
      apply read_u32_congr
      intro j hj
      exact hbyte _ (by simp; omega) (by simp; omega)
    rw [get_node_max_key_leaf _ ht (by rw [hnum]; exact h1) (by rw [hnum]; exact h13), hnum]
    apply congrArg Except.ok
    apply read_u32_congr
    intro j hj
    apply hbyte
    · simp only [leaf_node_key, hcellr, PAGE_SIZE_eq]
      simp only [LEAF_NODE_MAX_CELLS_eq] at hn1
      omega
    · simp only [leaf_node_key, hcellr]
      omega
  unfold create_new_root
  simp only [hrdef, hg1, ok_bind, hg2, get_unused_page_num, hL, hLdef, hg3]
  simp only [Pager.modify, node_set_node, hn3r, hn3c, hn3L, if_true, if_false, hLr, hLc, hrL,
    hcL, hrc, hne]
  have hchild : internal_node_child
      (set_internal_node_num_keys (set_node_root (initialize_internal_node R) true) 1) 0
      = .ok (internal_node_cell 0) := by
    unfold internal_node_child
    have : internal_node_num_keys
        (set_internal_node_num_keys (set_node_root (initialize_internal_node R) true) 1) = 1 := by
      unfold internal_node_num_keys set_internal_node_num_keys
      rw [read_u32_write_u32]
      rfl
    simp only [this]
    rfl
  rw [hchild]
  simp only [ok_bind]
  rw [pager_store_u32_eq _ _ _ _ (by rw [internal_node_cell_eq 0 (by omega)]; simp)]
  simp only [ok_bind, node_set_node, hn3r, hn3c, hn3L, if_true, if_false, hLr, hLc, hrL,
    hcL, hrc, hne, hkey]
  rw [pager_store_u32_eq _ _ _ _
    (by simp only [internal_node_key, internal_node_cell_eq 0 (by omega)]; simp)]
  simp only [ok_bind, node_set_node, hn3r, hn3c, hn3L, if_true, if_false, hLr, hLc, hrL,
    hcL, hrc, hne, hkey]
  refine ⟨_, rfl, ?_, ?_, ?_, ?_⟩
  · simp only [peek_set_node, Function.update_same, Function.update_noteq, ne_eq, hLr, hLc,
      hrL, hcL, hrc, hne, not_false_eq_true]
  · simp only [peek_set_node, Function.update_same, Function.update_noteq, ne_eq, hLr, hLc,
      hrL, hcL, hrc, hne, not_false_eq_true]
  · simp only [peek_set_node, Function.update_same, Function.update_noteq, ne_eq, hLr, hLc,
      hrL, hcL, hrc, hne, not_false_eq_true]
  · intro m m1 m2 m3
    simp only [peek_set_node, Function.update_same, Function.update_noteq, ne_eq, m1, m2, m3,
      not_false_eq_true, hp3]

/-- C17. The function `create_new_root`, called when the root is a leaf with 1 to 13 cells,
the root and the right child `new_page` lie below `num_pages`, and one more page fits: it
returns; with `L` the `num_pages` before the call, page `L` has the bytes the root had, except
that `is_root` is false and `parent_page` is the root; the root is an internal node with
`is_root` true, `num_keys` 1, child 0 `L`, key 0 the key of the last cell of `L` (its largest
key when the cells ascend) and right child `new_page`; `new_page` has `parent_page` the root
and is otherwise unchanged; no other page changes. -/
theorem create_new_root_moves_root_to_fresh_page (table : Table) (right_child_page_num : Nat)
    (hroot : table.root_page_num < table.pager.num_pages)
    (hright : right_child_page_num < table.pager.num_pages)
    (hne : right_child_page_num ≠ table.root_page_num)
    (hfull : table.pager.num_pages < TABLE_MAX_PAGES)
    (hleaf : get_node_type (table.pager.peek table.root_page_num) = NODE_LEAF)
    (h1 : 1 ≤ leaf_node_num_cells (table.pager.peek table.root_page_num))
    (h13 : leaf_node_num_cells (table.pager.peek table.root_page_num) ≤ LEAF_NODE_MAX_CELLS) :
    ∃ table', create_new_root table right_child_page_num = .ok table'
      ∧ table'.root_page_num = table.root_page_num
      ∧ (∀ off < PAGE_SIZE, off ≠ IS_ROOT_OFFSET →
          ¬ (PARENT_POINTER_OFFSET ≤ off ∧ off < PARENT_POINTER_OFFSET + PARENT_POINTER_SIZE) →
          table'.pager.peek table.pager.num_pages off
            = table.pager.peek table.root_page_num off)
      ∧ is_node_root (table'.pager.peek table.pager.num_pages) = false
      ∧ node_parent (table'.pager.peek table.pager.num_pages) = table.root_page_num
      ∧ get_node_type (table'.pager.peek table.root_page_num) = NODE_INTERNAL
      ∧ is_node_root (table'.pager.peek table.root_page_num) = true
      ∧ internal_node_num_keys (table'.pager.peek table.root_page_num) = 1
      ∧ internal_node_child (table'.pager.peek table.root_page_num) 0
          = .ok (internal_node_cell 0)
      ∧ read_u32 (table'.pager.peek table.root_page_num) (internal_node_cell 0)
          = table.pager.num_pages
      ∧ get_node_max_key (table'.pager.peek table.pager.num_pages)
          = .ok (read_u32 (table'.pager.peek table.root_page_num) (internal_node_key 0))
      ∧ read_u32 (table'.pager.peek table.root_page_num) (internal_node_key 0)
          = read_u32 (table'.pager.peek table.pager.num_pages)
              (leaf_node_key (leaf_node_num_cells (table'.pager.peek table.pager.num_pages) - 1))
      ∧ ((∀ i j, i ≤ j → j < leaf_node_num_cells (table'.pager.peek table.pager.num_pages) →
            read_u32 (table'.pager.peek table.pager.num_pages) (leaf_node_key i)
              ≤ read_u32 (table'.pager.peek table.pager.num_pages) (leaf_node_key j)) →
          ∀ i < leaf_node_num_cells (table'.pager.peek table.pager.num_pages),
            read_u32 (table'.pager.peek table.pager.num_pages) (leaf_node_key i)
              ≤ read_u32 (table'.pager.peek table.root_page_num) (internal_node_key 0))
      ∧ internal_node_right_child (table'.pager.peek table.root_page_num)
          = right_child_page_num
      ∧ node_parent (table'.pager.peek right_child_page_num) = table.root_page_num
      ∧ (∀ off,
          ¬ (PARENT_POINTER_OFFSET ≤ off ∧ off < PARENT_POINTER_OFFSET + PARENT_POINTER_SIZE) →
          table'.pager.peek right_child_page_num off
            = table.pager.peek right_child_page_num off)
      ∧ (∀ m, m ≠ table.pager.num_pages → m ≠ table.root_page_num →
          m ≠ right_child_page_num → table'.pager.peek m = table.pager.peek m) := by
  obtain ⟨pager', hrun, hA, hB, hC, hoth⟩ :=
    create_new_root_run table right_child_page_num hroot hright hne hfull hleaf h1 h13
  refine ⟨_, hrun, rfl, ?_⟩
  show (∀ off < PAGE_SIZE, off ≠ IS_ROOT_OFFSET →
          ¬ (PARENT_POINTER_OFFSET ≤ off ∧ off < PARENT_POINTER_OFFSET + PARENT_POINTER_SIZE) →
          pager'.peek table.pager.num_pages off = table.pager.peek table.root_page_num off)
      ∧ is_node_root (pager'.peek table.pager.num_pages) = false
      ∧ node_parent (pager'.peek table.pager.num_pages) = table.root_page_num
      ∧ get_node_type (pager'.peek table.root_page_num) = NODE_INTERNAL
      ∧ is_node_root (pager'.peek table.root_page_num) = true
      ∧ internal_node_num_keys (pager'.peek table.root_page_num) = 1
      ∧ internal_node_child (pager'.peek table.root_page_num) 0 = .ok (internal_node_cell 0)
      ∧ read_u32 (pager'.peek table.root_page_num) (internal_node_cell 0)
          = table.pager.num_pages
      ∧ get_node_max_key (pager'.peek table.pager.num_pages)
          = .ok (read_u32 (pager'.peek table.root_page_num) (internal_node_key 0))
      ∧ read_u32 (pager'.peek table.root_page_num) (internal_node_key 0)
          = read_u32 (pager'.peek table.pager.num_pages)
              (leaf_node_key (leaf_node_num_cells (pager'.peek table.pager.num_pages) - 1))
      ∧ ((∀ i j, i ≤ j → j < leaf_node_num_cells (pager'.peek table.pager.num_pages) →
            read_u32 (pager'.peek table.pager.num_pages) (leaf_node_key i)
              ≤ read_u32 (pager'.peek table.pager.num_pages) (leaf_node_key j)) →
          ∀ i < leaf_node_num_cells (pager'.peek table.pager.num_pages),
            read_u32 (pager'.peek table.pager.num_pages) (leaf_node_key i)
              ≤ read_u32 (pager'.peek table.root_page_num) (internal_node_key 0))
      ∧ internal_node_right_child (pager'.peek table.root_page_num) = right_child_page_num
      ∧ node_parent (pager'.peek right_child_page_num) = table.root_page_num
      ∧ (∀ off,
          ¬ (PARENT_POINTER_OFFSET ≤ off ∧ off < PARENT_POINTER_OFFSET + PARENT_POINTER_SIZE) →
          pager'.peek right_child_page_num off = table.pager.peek right_child_page_num off)
      ∧ (∀ m, m ≠ table.pager.num_pages → m ≠ table.root_page_num →
          m ≠ right_child_page_num → pager'.peek m = table.pager.peek m)
  generalize table.pager.peek table.root_page_num = R at *
  generalize table.pager.peek right_child_page_num = C at *
  generalize table.pager.peek table.pager.num_pages = X at *
  generalize table.pager.num_pages = L at *
  generalize table.root_page_num = root at *
  generalize pager'.peek L = A at *
  generalize pager'.peek root = B at *
  generalize pager'.peek right_child_page_num = C' at *
  have hbyte : ∀ off < PAGE_SIZE, off ≠ IS_ROOT_OFFSET →
      ¬ (PARENT_POINTER_OFFSET ≤ off ∧ off < PARENT_POINTER_OFFSET + PARENT_POINTER_SIZE) →
      A off = R off := by
    intro off h1 h2 h3
    simp only [PARENT_POINTER_OFFSET_eq, PARENT_POINTER_SIZE_eq] at h3
    rw [hA]
    unfold set_node_parent set_node_root
    rw [write_u32_outside _ _ _ _ (by simp only [PARENT_POINTER_OFFSET_eq]; omega),
      write_u8_outside _ _ _ _ h2, memcpy_inside _ _ _ _ _ _ (by omega)]
    apply congrArg R
    omega
  have htA : get_node_type A = NODE_LEAF := by
    rw [← hleaf]
    unfold get_node_type read_u8
    rw [hbyte _ (by simp) (by simp) (by simp)]
  have hnA : leaf_node_num_cells A = leaf_node_num_cells R := by
    unfold leaf_node_num_cells
    apply read_u32_congr
    intro j hj
    exact hbyte _ (by simp only [LEAF_NODE_NUM_CELLS_OFFSET_eq, PAGE_SIZE_eq]; omega)
      (by simp only [LEAF_NODE_NUM_CELLS_OFFSET_eq, IS_ROOT_OFFSET_eq]; omega)
      (by simp only [LEAF_NODE_NUM_CELLS_OFFSET_eq, PARENT_POINTER_OFFSET_eq,
            PARENT_POINTER_SIZE_eq]; omega)
  have hkA := get_node_max_key_leaf A htA (by rw [hnA]; exact h1) (by rw [hnA]; exact h13)
  have icell0 : internal_node_cell 0 = 14 := internal_node_cell_eq 0 (by omega)
  have ikey0 : internal_node_key 0 = 18 := by
    unfold internal_node_key
    rw [icell0]
    rfl
  have hkey0 : read_u32 B (internal_node_key 0)
      = read_u32 A (leaf_node_key (leaf_node_num_cells A - 1)) := by
    rw [hB, hnA]
    unfold set_internal_node_right_child
    simp only [ikey0, icell0, INTERNAL_NODE_RIGHT_CHILD_OFFSET_eq]
    rw [read_u32_write_u32_other _ _ _ _ (by omega), read_u32_write_u32,
      Nat.mod_eq_of_lt (read_u32_lt _ _)]
    apply read_u32_congr
    intro j hj
    rw [eq_comm]
    have hn1 : leaf_node_num_cells R - 1 ≤ LEAF_NODE_MAX_CELLS := by omega
    have hcellr := leaf_node_cell_eq _ hn1
    simp only [LEAF_NODE_MAX_CELLS_eq] at hn1
    exact hbyte _ (by simp only [leaf_node_key, hcellr, PAGE_SIZE_eq]; omega)
      (by simp only [leaf_node_key, hcellr, IS_ROOT_OFFSET_eq]; omega)
      (by simp only [leaf_node_key, hcellr, PARENT_POINTER_OFFSET_eq,
            PARENT_POINTER_SIZE_eq]; omega)
  have hnumB : internal_node_num_keys B = 1 := by
    rw [hB]
    unfold internal_node_num_keys set_internal_node_right_child set_internal_node_num_keys
    simp only [ikey0, icell0, INTERNAL_NODE_RIGHT_CHILD_OFFSET_eq,
      INTERNAL_NODE_NUM_KEYS_OFFSET_eq]
    rw [read_u32_write_u32_other _ _ _ _ (by omega),
      read_u32_write_u32_other _ _ _ _ (by omega),
      read_u32_write_u32_other _ _ _ _ (by omega), read_u32_write_u32]
    rfl
  refine ⟨hbyte, ?_, ?_, ?_, ?_, hnumB, ?_, ?_, ?_, hkey0, ?_, ?_, ?_, ?_, hoth⟩
  · rw [hA]
    unfold is_node_root set_node_parent set_node_root
    rw [read_u8_write_u32 _ _ _ _ (by simp), read_u8_write_u8]
    rfl
  · rw [hA]
    unfold node_parent set_node_parent
    rw [read_u32_write_u32]
    simp only [U32_eq, TABLE_MAX_PAGES_eq] at hfull ⊢
    omega
  · rw [hB]
    unfold get_node_type set_internal_node_right_child set_internal_node_num_keys set_node_root
      initialize_internal_node set_internal_node_num_keys set_node_root set_node_type
    simp only [ikey0, icell0, INTERNAL_NODE_RIGHT_CHILD_OFFSET_eq,
      INTERNAL_NODE_NUM_KEYS_OFFSET_eq, IS_ROOT_OFFSET_eq, NODE_TYPE_OFFSET_eq]
    rw [read_u8_write_u32 _ _ _ _ (by omega), read_u8_write_u32 _ _ _ _ (by omega),
      read_u8_write_u32 _ _ _ _ (by omega), read_u8_write_u32 _ _ _ _ (by omega)]
    unfold read_u8
    rw [write_u8_outside _ _ _ _ (by omega), write_u32_outside _ _ _ _ (by omega),
      write_u8_outside _ _ _ _ (by omega)]
    rfl
  · rw [hB]
    unfold is_node_root set_internal_node_right_child set_internal_node_num_keys set_node_root
    simp only [ikey0, icell0, INTERNAL_NODE_RIGHT_CHILD_OFFSET_eq,
      INTERNAL_NODE_NUM_KEYS_OFFSET_eq, IS_ROOT_OFFSET_eq]
    rw [read_u8_write_u32 _ _ _ _ (by omega), read_u8_write_u32 _ _ _ _ (by omega),
      read_u8_write_u32 _ _ _ _ (by omega), read_u8_write_u32 _ _ _ _ (by omega),
      read_u8_write_u8]
    rfl
  · unfold internal_node_child
    rw [hnumB]
    rfl
  · rw [hB]
    unfold set_internal_node_right_child
    simp only [ikey0, icell0, INTERNAL_NODE_RIGHT_CHILD_OFFSET_eq]
    rw [read_u32_write_u32_other _ _ _ _ (by omega),
      read_u32_write_u32_other _ _ _ _ (by omega), read_u32_write_u32]
    simp only [U32_eq, TABLE_MAX_PAGES_eq] at hfull ⊢
    omega
  · rw [hkA, hkey0]
  · intro hasc i hi
    rw [hkey0]
    exact hasc i _ (by omega) (by omega)
  · rw [hB]
    unfold internal_node_right_child set_internal_node_right_child
    rw [read_u32_write_u32]
    simp only [U32_eq, TABLE_MAX_PAGES_eq] at hfull ⊢
    omega
  · rw [hC]
    unfold node_parent set_node_parent
    rw [read_u32_write_u32]
    simp only [U32_eq, TABLE_MAX_PAGES_eq] at hfull ⊢
    omega
  · intro off h
    simp only [PARENT_POINTER_OFFSET_eq, PARENT_POINTER_SIZE_eq] at h
    rw [hC]
    unfold set_node_parent
    exact write_u32_outside _ _ _ _ (by simp only [PARENT_POINTER_OFFSET_eq]; omega)

/-- C17, at `split_root_table` with the right child on page 1: the call returns, page 2 is
the copy of the old root, and the root is an internal node with one key, the key 2 of the
last cell of page 2, over the children 2 and 1. -/
theorem create_new_root_moves_root_to_fresh_page_witness :
    (split_root_table.root_page_num < split_root_table.pager.num_pages
      ∧ 1 < split_root_table.pager.num_pages
      ∧ 1 ≠ split_root_table.root_page_num
      ∧ split_root_table.pager.num_pages < TABLE_MAX_PAGES
      ∧ get_node_type (split_root_table.pager.peek split_root_table.root_page_num) = NODE_LEAF
      ∧ 1 ≤ leaf_node_num_cells (split_root_table.pager.peek split_root_table.root_page_num)
      ∧ leaf_node_num_cells (split_root_table.pager.peek split_root_table.root_page_num)
          ≤ LEAF_NODE_MAX_CELLS)
    ∧ returns (create_new_root split_root_table 1)
        (fun t => read_u32 (t.pager.peek 0) (internal_node_key 0) = 2
          ∧ leaf_node_num_cells (t.pager.peek 2) = 2
          ∧ read_u32 (t.pager.peek 2) (leaf_node_key 1) = 2)
    ∧ ∃ table', create_new_root split_root_table 1 = .ok table'
        ∧ get_node_type (table'.pager.peek split_root_table.root_page_num) = NODE_INTERNAL
        ∧ is_node_root (table'.pager.peek split_root_table.root_page_num) = true
        ∧ internal_node_num_keys (table'.pager.peek split_root_table.root_page_num) = 1
        ∧ read_u32 (table'.pager.peek split_root_table.root_page_num) (internal_node_cell 0)
            = split_root_table.pager.num_pages
        ∧ internal_node_right_child (table'.pager.peek split_root_table.root_page_num) = 1
        ∧ is_node_root (table'.pager.peek split_root_table.pager.num_pages) = false
        ∧ node_parent (table'.pager.peek split_root_table.pager.num_pages)
            = split_root_table.root_page_num
        ∧ node_parent (table'.pager.peek 1) = split_root_table.root_page_num := by
  refine ⟨by decide, by decide!, ?_⟩
  obtain ⟨t, h, _, _, a1, a2, b1, b2, b3, _, b4, _, _, _, b5, c1, _⟩ :=
    create_new_root_moves_root_to_fresh_page split_root_table 1
      (by decide) (by decide) (by decide) (by decide) (by decide) (by decide) (by decide)
  exact ⟨t, h, b1, b2, b3, b4, b5, a1, a2, c1⟩

/-! ## Insert into an internal node -/

theorem internal_node_insert_loop_spec (page_num index : Nat) :
    ∀ (k : Nat) (pager : Pager) (x : Page), pager.pages page_num = some x → k ≤ 508 →
      internal_node_insert_loop page_num index k pager
        = .ok (pager.set_node page_num (fun off =>
            if 14 + 8 * (index + 1) ≤ off ∧ off < 14 + 8 * (k + 1) then x (off - 8)
            else x off)) := by
  intro k
  induction k with
  | zero =>
    intro pager x hx _
    rw [internal_node_insert_loop]
    apply congrArg Except.ok
    rw [eq_comm]
    apply set_node_resident
    rw [hx]
    apply congrArg some
    funext off
    have : ¬ (14 + 8 * (index + 1) ≤ off ∧ off < 14 + 8 * (0 + 1)) := by omega
    rw [if_neg this]
  | succ k ih =>
    intro pager x hx hk
    rw [internal_node_insert_loop]
    by_cases hc : k + 1 > index
    · rw [if_pos hc]
      rw [memcpy_cell_ok pager page_num _ page_num _ _ x x hx hx
        (by rw [internal_node_cell_eq (k + 1) (by omega)]; simp; omega)
        (by rw [internal_node_cell_eq k (by omega)]; simp; omega)]
      simp only [ok_bind]
      rw [ih _ _ (set_node_pages_same pager page_num _) (by omega), set_node_set_node]
      apply congrArg Except.ok
      apply congrArg (pager.set_node page_num)
      funext off
      rw [internal_node_cell_eq (k + 1) (by omega), internal_node_cell_eq k (by omega)]
      simp only [memcpy, INTERNAL_NODE_CELL_SIZE_eq]
      split_ifs <;> first | rfl | omega | (congr 1; omega)
    · rw [if_neg hc]
      apply congrArg Except.ok
      rw [eq_comm]
      apply set_node_resident
      rw [hx]
      apply congrArg some
      funext off
      have : ¬ (14 + 8 * (index + 1) ≤ off ∧ off < 14 + 8 * (k + 1 + 1)) := by omega
      rw [if_neg this]

theorem get_node_max_key_lt (node : Page) (v : Nat) (h : get_node_max_key node = .ok v) :
    v < U32 := by
  unfold get_node_max_key load_u32 at h
  split_ifs at h <;> first | (injection h with h; rw [← h]; exact read_u32_lt _ _)

/-- The run of `internal_node_insert` on a parent with fewer than three keys: the parent page
afterwards, in the branch taken. -/
theorem internal_node_insert_run (table : Table) (parent_page_num child_page_num k km : Nat)
    (hp : parent_page_num < TABLE_MAX_PAGES) (hc : child_page_num < TABLE_MAX_PAGES)
    (hr : internal_node_right_child (table.pager.peek parent_page_num) < TABLE_MAX_PAGES)
    (hrp : internal_node_right_child (table.pager.peek parent_page_num) ≠ parent_page_num)
    (hK : internal_node_num_keys (table.pager.peek parent_page_num) < INTERNAL_NODE_MAX_CELLS)
    (hk : get_node_max_key (table.pager.peek child_page_num) = .ok k)
    (hkm : get_node_max_key
        (table.pager.peek (internal_node_right_child (table.pager.peek parent_page_num)))
      = .ok km) :
    ∃ pager' idx, internal_node_insert table parent_page_num child_page_num
        = .ok (Table.mk pager' table.root_page_num)
      ∧ internal_node_find_child (table.pager.peek parent_page_num) k = .ok idx
      ∧ idx ≤ internal_node_num_keys (table.pager.peek parent_page_num)
      ∧ (∀ m, m ≠ parent_page_num → pager'.peek m = table.pager.peek m)
      ∧ pager'.peek parent_page_num = 
          if k > km then
            set_internal_node_right_child
              (write_u32
                (write_u32
                  (set_internal_node_num_keys (table.pager.peek parent_page_num)
                    (internal_node_num_keys (table.pager.peek parent_page_num) + 1))
                  (internal_node_cell (internal_node_num_keys (table.pager.peek parent_page_num)))
                  (internal_node_right_child (table.pager.peek parent_page_num)))
                (internal_node_key (internal_node_num_keys (table.pager.peek parent_page_num)))
                km)
              child_page_num
          else
            write_u32
              (write_u32
                (fun off =>
                  if 14 + 8 * (idx + 1) ≤ off
                      ∧ off < 14 + 8 * (internal_node_num_keys
                          (table.pager.peek parent_page_num) + 1) then
                    set_internal_node_num_keys (table.pager.peek parent_page_num)
                      (internal_node_num_keys (table.pager.peek parent_page_num) + 1) (off - 8)
                  else
                    set_internal_node_num_keys (table.pager.peek parent_page_num)
                      (internal_node_num_keys (table.pager.peek parent_page_num) + 1) off)
                (internal_node_cell idx) child_page_num)
              (internal_node_key idx) k := by
  obtain ⟨p1, hg1, hres1, _, hpeek1, _⟩ := get_page_spec table.pager parent_page_num hp
  obtain ⟨p2, hg2, hres2, _, hpeek2, _⟩ := get_page_spec p1 child_page_num hc
  have hP2 := get_page_resident _ _ _ _ _ hg2 hres1
  rw [hpeek1] at hres2
  have hpk2 : p2.peek = table.pager.peek := by rw [hpeek2, hpeek1]
  generalize hPdef : table.pager.peek parent_page_num = P at *
  generalize hCdef : table.pager.peek child_page_num = C at *
  generalize hKdef : internal_node_num_keys P = K at *
  generalize hrdef : internal_node_right_child P = r at *
  have hK3 : K < 3 := by simpa using hK
  obtain ⟨idx, hidx, hidxle⟩ := internal_node_find_child_le P k (by omega)
  rw [hKdef] at hidxle
  have hP1num : internal_node_num_keys (set_internal_node_num_keys P (K + 1)) = K + 1 := by
    unfold internal_node_num_keys set_internal_node_num_keys
    rw [read_u32_write_u32]
    simp only [U32_eq]
    omega
  have hP1r : internal_node_right_child (set_internal_node_num_keys P (K + 1)) = r := by
    rw [← hrdef]
    unfold internal_node_right_child set_internal_node_num_keys
    exact read_u32_write_u32_other _ _ _ _ (by simp)
  obtain ⟨p4, hg4, hres4, _, hpeek4, _⟩ :=
    get_page_spec (p2.set_node parent_page_num (set_internal_node_num_keys P (K + 1))) r hr
  have hP4 := get_page_resident _ _ _ _ _ hg4 (set_node_pages_same p2 parent_page_num _)
  rw [peek_set_node, Function.update_noteq hrp, hpk2] at hres4
  have hpk4 : ∀ m, m ≠ parent_page_num → p4.peek m = table.pager.peek m := by
    intro m hm
    rw [hpeek4, peek_set_node, Function.update_noteq hm, hpk2]
  have hrun : ∃ F, internal_node_insert table parent_page_num child_page_num
        = .ok (Table.mk (p4.set_node parent_page_num F) table.root_page_num)
      ∧ F = if k > km then
            set_internal_node_right_child
              (write_u32
                (write_u32 (set_internal_node_num_keys P (K + 1)) (internal_node_cell K) r)
                (internal_node_key K) km)
              child_page_num
          else
            write_u32
              (write_u32
                (fun off =>
                  if 14 + 8 * (idx + 1) ≤ off ∧ off < 14 + 8 * (K + 1) then
                    set_internal_node_num_keys P (K + 1) (off - 8)
                  else set_internal_node_num_keys P (K + 1) off)
                (internal_node_cell idx) child_page_num)
              (internal_node_key idx) k := by
    unfold internal_node_insert
    simp only [hg1, ok_bind, hg2, node_of_pages _ _ _ hP2, node_of_pages _ _ _ hres2, hk, hidx,
      hKdef]
    have e1 : (K + 1) % U32 = K + 1 := by simp only [U32_eq]; omega
    rw [e1, modify_of_pages _ _ _ _ hP2]
    rw [if_neg (by simp; omega)]
    simp only [node_of_pages _ _ _ (set_node_pages_same _ _ _), hP1r, hg4, ok_bind,
      node_of_pages _ _ _ hres4, hkm, node_of_pages _ _ _ hP4]
    have hcK := internal_node_cell_eq K (by omega)
    have hci := internal_node_cell_eq idx (by omega)
    by_cases hgt : k > km
    · rw [if_pos hgt, if_pos hgt]
      have hchild : internal_node_child (set_internal_node_num_keys P (K + 1)) K
          = .ok (internal_node_cell K) := by
        unfold internal_node_child
        simp only [hP1num]
        rw [if_neg (by omega), if_neg (by omega)]
      rw [hchild]
      simp only [ok_bind]
      rw [pager_store_u32_ok _ _ _ _ _ hP4 (by rw [hcK]; simp; omega)]
      simp only [ok_bind, node_set_node, if_neg hrp, node_of_pages _ _ _ hres4, hkm]
      rw [pager_store_u32_ok _ _ _ _ _ (set_node_pages_same _ _ _)
        (by simp only [internal_node_key, hcK]; simp; omega)]
      simp only [ok_bind]
      rw [modify_of_pages _ _ _ _ (set_node_pages_same _ _ _)]
      simp only [set_node_set_node]
      exact ⟨_, rfl, rfl⟩
    · rw [if_neg hgt, if_neg hgt]
      rw [internal_node_insert_loop_spec _ _ K p4 _ hP4 (by omega)]
      simp only [ok_bind, node_of_pages _ _ _ (set_node_pages_same _ _ _)]
      have hchild : internal_node_child
          (fun off =>
            if 14 + 8 * (idx + 1) ≤ off ∧ off < 14 + 8 * (K + 1) then
              set_internal_node_num_keys P (K + 1) (off - 8)
            else set_internal_node_num_keys P (K + 1) off) idx
          = .ok (internal_node_cell idx) := by
        unfold internal_node_child
        have : internal_node_num_keys
            (fun off =>
              if 14 + 8 * (idx + 1) ≤ off ∧ off < 14 + 8 * (K + 1) then
                set_internal_node_num_keys P (K + 1) (off - 8)
              else set_internal_node_num_keys P (K + 1) off) = K + 1 := by
          refine Eq.trans ?_ hP1num
          unfold internal_node_num_keys
          apply read_u32_congr
          intro j hj
          have : ¬ (14 + 8 * (idx + 1) ≤ INTERNAL_NODE_NUM_KEYS_OFFSET + j
              ∧ INTERNAL_NODE_NUM_KEYS_OFFSET + j < 14 + 8 * (K + 1)) := by
            simp only [INTERNAL_NODE_NUM_KEYS_OFFSET_eq]; omega
          rw [if_neg this]
        simp only [this]
        rw [if_neg (by omega), if_neg (by omega)]
      rw [hchild]
      simp only [ok_bind]
      rw [pager_store_u32_ok _ _ _ _ _ (set_node_pages_same _ _ _) (by rw [hci]; simp; omega)]
      simp only [ok_bind]
      rw [pager_store_u32_ok _ _ _ _ _ (set_node_pages_same _ _ _)
        (by simp only [internal_node_key, hci]; simp; omega)]
      simp only [set_node_set_node]
      exact ⟨_, rfl, rfl⟩
  obtain ⟨F, hrun, hF⟩ := hrun
  refine ⟨_, idx, hrun, hidx, hidxle, ?_, ?_⟩
  · intro m hm
    rw [peek_set_node, Function.update_noteq hm, hpk4 m hm]
  · rw [peek_set_node, Function.update_same, hF]

/-- The function `internal_node_insert` on a parent with `K < INTERNAL_NODE_MAX_CELLS`
keys and right child `r`, for a new child whose maximum key is `k`, with `idx` the result of
`internal_node_find_child` for `k` on the parent: it returns and `num_keys` becomes `K + 1`;
if `k` exceeds the maximum key `km` of `r`, cell `K` becomes `(r, km)`, the right child becomes
the new child and the cells below `K` keep their bytes; otherwise the cells below `idx` keep
their bytes, each old cell from `idx` on is found one slot to the right, cell `idx` becomes
`(child, k)` and the right child stays `r`.  The common header and all other pages are
unchanged. -/
theorem internal_node_insert_spec (table : Table)
    (parent_page_num child_page_num k km : Nat)
    (hp : parent_page_num < TABLE_MAX_PAGES) (hc : child_page_num < TABLE_MAX_PAGES)
    (hr : internal_node_right_child (table.pager.peek parent_page_num) < TABLE_MAX_PAGES)
    (hrp : internal_node_right_child (table.pager.peek parent_page_num) ≠ parent_page_num)
    (hK : internal_node_num_keys (table.pager.peek parent_page_num) < INTERNAL_NODE_MAX_CELLS)
    (hk : get_node_max_key (table.pager.peek child_page_num) = .ok k)
    (hkm : get_node_max_key
        (table.pager.peek (internal_node_right_child (table.pager.peek parent_page_num)))
      = .ok km) :
    ∃ table' idx, internal_node_insert table parent_page_num child_page_num = .ok table'
      ∧ internal_node_find_child (table.pager.peek parent_page_num) k = .ok idx
      ∧ idx ≤ internal_node_num_keys (table.pager.peek parent_page_num)
      ∧ table'.root_page_num = table.root_page_num
      ∧ (∀ m, m ≠ parent_page_num → table'.pager.peek m = table.pager.peek m)
      ∧ internal_node_num_keys (table'.pager.peek parent_page_num)
          = internal_node_num_keys (table.pager.peek parent_page_num) + 1
      ∧ (∀ off < COMMON_NODE_HEADER_SIZE,
          table'.pager.peek parent_page_num off = table.pager.peek parent_page_num off)
      ∧ (k > km →
          (∀ i < internal_node_num_keys (table.pager.peek parent_page_num),
            ∀ j < INTERNAL_NODE_CELL_SIZE,
              table'.pager.peek parent_page_num (internal_node_cell i + j)
                = table.pager.peek parent_page_num (internal_node_cell i + j))
          ∧ read_u32 (table'.pager.peek parent_page_num)
              (internal_node_cell (internal_node_num_keys (table.pager.peek parent_page_num)))
              = internal_node_right_child (table.pager.peek parent_page_num)
          ∧ read_u32 (table'.pager.peek parent_page_num)
              (internal_node_key (internal_node_num_keys (table.pager.peek parent_page_num)))
              = km
          ∧ internal_node_right_child (table'.pager.peek parent_page_num) = child_page_num)
      ∧ (¬ k > km →
          (∀ i < idx, ∀ j < INTERNAL_NODE_CELL_SIZE,
              table'.pager.peek parent_page_num (internal_node_cell i + j)
                = table.pager.peek parent_page_num (internal_node_cell i + j))
          ∧ (∀ i, idx ≤ i → i < internal_node_num_keys (table.pager.peek parent_page_num) →
              ∀ j < INTERNAL_NODE_CELL_SIZE,
                table'.pager.peek parent_page_num (internal_node_cell (i + 1) + j)
                  = table.pager.peek parent_page_num (internal_node_cell i + j))
          ∧ read_u32 (table'.pager.peek parent_page_num) (internal_node_cell idx)
              = child_page_num
          ∧ read_u32 (table'.pager.peek parent_page_num) (internal_node_key idx) = k
          ∧ internal_node_right_child (table'.pager.peek parent_page_num)
              = internal_node_right_child (table.pager.peek parent_page_num)) := by
  obtain ⟨pager', idx, hrun, hidx, hidxle, hoth, hF⟩ :=
    internal_node_insert_run table parent_page_num child_page_num k km hp hc hr hrp hK hk hkm
  have hklt := get_node_max_key_lt _ _ hk
  have hkmlt := get_node_max_key_lt _ _ hkm
  refine ⟨_, idx, hrun, hidx, hidxle, rfl, hoth, ?_⟩
  show internal_node_num_keys (pager'.peek parent_page_num)
          = internal_node_num_keys (table.pager.peek parent_page_num) + 1
      ∧ (∀ off < COMMON_NODE_HEADER_SIZE,
          pager'.peek parent_page_num off = table.pager.peek parent_page_num off)
      ∧ (k > km →
          (∀ i < internal_node_num_keys (table.pager.peek parent_page_num),
            ∀ j < INTERNAL_NODE_CELL_SIZE,
              pager'.peek parent_page_num (internal_node_cell i + j)
                = table.pager.peek parent_page_num (internal_node_cell i + j))
          ∧ read_u32 (pager'.peek parent_page_num)
              (internal_node_cell (internal_node_num_keys (table.pager.peek parent_page_num)))
              = internal_node_right_child (table.pager.peek parent_page_num)
          ∧ read_u32 (pager'.peek parent_page_num)
              (internal_node_key (internal_node_num_keys (table.pager.peek parent_page_num)))
              = km
          ∧ internal_node_right_child (pager'.peek parent_page_num) = child_page_num)
      ∧ (¬ k > km →
          (∀ i < idx, ∀ j < INTERNAL_NODE_CELL_SIZE,
              pager'.peek parent_page_num (internal_node_cell i + j)
                = table.pager.peek parent_page_num (internal_node_cell i + j))
          ∧ (∀ i, idx ≤ i → i < internal_node_num_keys (table.pager.peek parent_page_num) →
              ∀ j < INTERNAL_NODE_CELL_SIZE,
                pager'.peek parent_page_num (internal_node_cell (i + 1) + j)
                  = table.pager.peek parent_page_num (internal_node_cell i + j))
          ∧ read_u32 (pager'.peek parent_page_num) (internal_node_cell idx) = child_page_num
          ∧ read_u32 (pager'.peek parent_page_num) (internal_node_key idx) = k
          ∧ internal_node_right_child (pager'.peek parent_page_num)
              = internal_node_right_child (table.pager.peek parent_page_num))
  generalize table.pager.peek parent_page_num = P at *
  generalize pager'.peek parent_page_num = P' at *
  generalize hKdef : internal_node_num_keys P = K at *
  generalize hrdef : internal_node_right_child P = r at *
  have hK3 : K < 3 := by simpa using hK
  have hcell : ∀ i, i ≤ 3 → internal_node_cell i = 14 + i * 8 :=
    fun i hi => internal_node_cell_eq i (by omega)
  have hkeyo : ∀ i, i ≤ 3 → internal_node_key i = 18 + i * 8 := by
    intro i hi
    unfold internal_node_key
    rw [hcell i hi]
    simp only [INTERNAL_NODE_CHILD_SIZE_eq]
    omega
  have hrlt : r < U32 := by rw [← hrdef]; exact read_u32_lt _ _
  have hclt : child_page_num < U32 := by
    simp only [U32_eq, TABLE_MAX_PAGES_eq] at hc ⊢
    omega
  have hP1 : ∀ off, off < 6 ∨ 10 ≤ off → set_internal_node_num_keys P (K + 1) off = P off := by
    intro off h
    unfold set_internal_node_num_keys
    exact write_u32_outside _ _ _ _ (by simp only [INTERNAL_NODE_NUM_KEYS_OFFSET_eq]; omega)
  by_cases hgt : k > km
  · rw [if_pos hgt] at hF
    have hcK := hcell K (by omega)
    have hkK := hkeyo K (by omega)
    have hout : ∀ off, off < 10 ∨ (14 ≤ off ∧ off < 14 + K * 8) ∨ 22 + K * 8 ≤ off →
        P' off = set_internal_node_num_keys P (K + 1) off := by
      intro off h
      rw [hF]
      unfold set_internal_node_right_child
      rw [write_u32_outside _ _ _ _ (by simp only [INTERNAL_NODE_RIGHT_CHILD_OFFSET_eq]; omega),
        write_u32_outside _ _ _ _ (by rw [hkK]; omega),
        write_u32_outside _ _ _ _ (by rw [hcK]; omega)]
    refine ⟨?_, ?_, fun _ => ⟨?_, ?_, ?_, ?_⟩, fun h => absurd hgt h⟩
    · unfold internal_node_num_keys
      rw [read_u32_congr P' (set_internal_node_num_keys P (K + 1)) _
        (fun j hj => hout _ (by simp only [INTERNAL_NODE_NUM_KEYS_OFFSET_eq]; omega))]
      unfold set_internal_node_num_keys
      rw [read_u32_write_u32]
      simp only [U32_eq]
      omega
    · intro off hoff
      simp only [COMMON_NODE_HEADER_SIZE_eq] at hoff
      rw [hout off (by omega), hP1 off (by omega)]
    · intro i hi j hj
      simp only [INTERNAL_NODE_CELL_SIZE_eq] at hj
      rw [hcell i (by omega), hout _ (by omega), hP1 _ (by omega)]
    · rw [hF]
      unfold set_internal_node_right_child
      rw [read_u32_write_u32_other _ _ _ _
          (by simp only [INTERNAL_NODE_RIGHT_CHILD_OFFSET_eq]; omega),
        read_u32_write_u32_other _ _ _ _ (by rw [hkK, hcK]; omega), read_u32_write_u32,
        Nat.mod_eq_of_lt hrlt]
    · rw [hF]
      unfold set_internal_node_right_child
      rw [read_u32_write_u32_other _ _ _ _
          (by simp only [INTERNAL_NODE_RIGHT_CHILD_OFFSET_eq]; omega),
        read_u32_write_u32, Nat.mod_eq_of_lt hkmlt]
    · rw [hF]
      unfold internal_node_right_child set_internal_node_right_child
      rw [read_u32_write_u32, Nat.mod_eq_of_lt hclt]
  · rw [if_neg hgt] at hF
    have hci := hcell idx (by omega)
    have hki := hkeyo idx (by omega)
    have hout : ∀ off, off < 14 + idx * 8 ∨ 22 + idx * 8 ≤ off →
        P' off = (if 14 + 8 * (idx + 1) ≤ off ∧ off < 14 + 8 * (K + 1) then
            set_internal_node_num_keys P (K + 1) (off - 8)
          else set_internal_node_num_keys P (K + 1) off) := by
      intro off h
      rw [hF]
      rw [write_u32_outside _ _ _ _ (by rw [hki]; omega),
        write_u32_outside _ _ _ _ (by rw [hci]; omega)]
    have hlow : ∀ off, off < 14 + idx * 8 → P' off = set_internal_node_num_keys P (K + 1) off := by
      intro off h
      rw [hout off (by omega), if_neg (by omega)]
    refine ⟨?_, ?_, fun h => absurd h hgt, fun _ => ⟨?_, ?_, ?_, ?_, ?_⟩⟩
    · unfold internal_node_num_keys
      rw [read_u32_congr P' (set_internal_node_num_keys P (K + 1)) _
        (fun j hj => hlow _ (by simp only [INTERNAL_NODE_NUM_KEYS_OFFSET_eq]; omega))]
      unfold set_internal_node_num_keys
      rw [read_u32_write_u32]
      simp only [U32_eq]
      omega
    · intro off hoff
      simp only [COMMON_NODE_HEADER_SIZE_eq] at hoff
      rw [hlow off (by omega), hP1 off (by omega)]
    · intro i hi j hj
      simp only [INTERNAL_NODE_CELL_SIZE_eq] at hj
      rw [hcell i (by omega), hlow _ (by omega), hP1 _ (by omega)]
    · intro i hi1 hi2 j hj
      simp only [INTERNAL_NODE_CELL_SIZE_eq] at hj
      rw [hcell i (by omega), hcell (i + 1) (by omega), hout _ (by omega), if_pos (by omega),
        hP1 _ (by omega)]
      apply congrArg P
      omega
    · rw [hF]
      rw [read_u32_write_u32_other _ _ _ _ (by rw [hki, hci]; omega), read_u32_write_u32,
        Nat.mod_eq_of_lt hclt]
    · rw [hF]
      rw [read_u32_write_u32, Nat.mod_eq_of_lt hklt]
    · rw [← hrdef]
      unfold internal_node_right_child
      apply read_u32_congr
      intro j hj
      rw [hlow _ (by simp only [INTERNAL_NODE_RIGHT_CHILD_OFFSET_eq]; omega),
        hP1 _ (by simp only [INTERNAL_NODE_RIGHT_CHILD_OFFSET_eq]; omega)]

/-- C19. The function `internal_node_insert` on a parent with `K < INTERNAL_NODE_MAX_CELLS`
keys and right child `r`, for a new child whose maximum key is `k`, with `idx` the result of
`internal_node_find_child` for `k` on the parent: it returns and `num_keys` becomes `K + 1`;
if `k` exceeds the maximum key `km` of `r`, cell `K` becomes `(r, km)`, the right child becomes
the new child and the cells below `K` keep their bytes; otherwise the cells below `idx` keep
their bytes, each old cell from `idx` on is found one slot to the right, cell `idx` becomes
`(child, k)` and the right child stays `r`.  The common header and all other pages are
unchanged. -/
theorem internal_node_insert_places_child (table : Table)
    (parent_page_num child_page_num k km : Nat)
    (hp : parent_page_num < TABLE_MAX_PAGES) (hc : child_page_num < TABLE_MAX_PAGES)
    (hr : internal_node_right_child (table.pager.peek parent_page_num) < TABLE_MAX_PAGES)
    (hrp : internal_node_right_child (table.pager.peek parent_page_num) ≠ parent_page_num)
    (hK : internal_node_num_keys (table.pager.peek parent_page_num) < INTERNAL_NODE_MAX_CELLS)
    (hk : get_node_max_key (table.pager.peek child_page_num) = .ok k)
    (hkm : get_node_max_key
        (table.pager.peek (internal_node_right_child (table.pager.peek parent_page_num)))
      = .ok km) :
    ∃ table' idx, internal_node_insert table parent_page_num child_page_num = .ok table'
      ∧ internal_node_find_child (table.pager.peek parent_page_num) k = .ok idx
      ∧ idx ≤ internal_node_num_keys (table.pager.peek parent_page_num)
      ∧ table'.root_page_num = table.root_page_num
      ∧ (∀ m, m ≠ parent_page_num → table'.pager.peek m = table.pager.peek m)
      ∧ internal_node_num_keys (table'.pager.peek parent_page_num)
          = internal_node_num_keys (table.pager.peek parent_page_num) + 1
      ∧ (∀ off < COMMON_NODE_HEADER_SIZE,
          table'.pager.peek parent_page_num off = table.pager.peek parent_page_num off)
      ∧ (k > km →
          (∀ i < internal_node_num_keys (table.pager.peek parent_page_num),
            ∀ j < INTERNAL_NODE_CELL_SIZE,
              table'.pager.peek parent_page_num (internal_node_cell i + j)
                = table.pager.peek parent_page_num (internal_node_cell i + j))
          ∧ read_u32 (table'.pager.peek parent_page_num)
              (internal_node_cell (internal_node_num_keys (table.pager.peek parent_page_num)))
              = internal_node_right_child (table.pager.peek parent_page_num)
          ∧ read_u32 (table'.pager.peek parent_page_num)
              (internal_node_key (internal_node_num_keys (table.pager.peek parent_page_num)))
              = km
          ∧ internal_node_right_child (table'.pager.peek parent_page_num) = child_page_num)
      ∧ (¬ k > km →
          (∀ i < idx, ∀ j < INTERNAL_NODE_CELL_SIZE,
              table'.pager.peek parent_page_num (internal_node_cell i + j)
                = table.pager.peek parent_page_num (internal_node_cell i + j))
          ∧ (∀ i, idx ≤ i → i < internal_node_num_keys (table.pager.peek parent_page_num) →
              ∀ j < INTERNAL_NODE_CELL_SIZE,
                table'.pager.peek parent_page_num (internal_node_cell (i + 1) + j)
                  = table.pager.peek parent_page_num (internal_node_cell i + j))
          ∧ read_u32 (table'.pager.peek parent_page_num) (internal_node_cell idx)
              = child_page_num
          ∧ read_u32 (table'.pager.peek parent_page_num) (internal_node_key idx) = k
          ∧ internal_node_right_child (table'.pager.peek parent_page_num)
              = internal_node_right_child (table.pager.peek parent_page_num)) :=
  internal_node_insert_spec table parent_page_num child_page_num k km hp hc hr hrp hK hk hkm

/-- C19, at `three_leaf_table` with the leaf on page 3 (largest key 4) as the new child of the
root (one key, right child page 1 with largest key 6): the call returns, the root then has
two keys, and cell 1 is `(3, 4)` in front of the right child 1. -/
theorem internal_node_insert_places_child_witness :
    (0 < TABLE_MAX_PAGES ∧ 3 < TABLE_MAX_PAGES
      ∧ internal_node_right_child (three_leaf_table.pager.peek 0) < TABLE_MAX_PAGES
      ∧ internal_node_right_child (three_leaf_table.pager.peek 0) ≠ 0
      ∧ internal_node_num_keys (three_leaf_table.pager.peek 0) < INTERNAL_NODE_MAX_CELLS
      ∧ get_node_max_key (three_leaf_table.pager.peek 3) = .ok 4
      ∧ get_node_max_key
          (three_leaf_table.pager.peek
            (internal_node_right_child (three_leaf_table.pager.peek 0))) = .ok 6)
    ∧ returns (internal_node_insert three_leaf_table 0 3)
        (fun t => internal_node_num_keys (t.pager.peek 0) = 2
          ∧ read_u32 (t.pager.peek 0) (internal_node_cell 0) = 2
          ∧ read_u32 (t.pager.peek 0) (internal_node_key 0) = 2
          ∧ read_u32 (t.pager.peek 0) (internal_node_cell 1) = 3
          ∧ read_u32 (t.pager.peek 0) (internal_node_key 1) = 4
          ∧ internal_node_right_child (t.pager.peek 0) = 1)
    ∧ ∃ table' idx, internal_node_insert three_leaf_table 0 3 = .ok table'
        ∧ internal_node_find_child (three_leaf_table.pager.peek 0) 4 = .ok idx
        ∧ internal_node_num_keys (table'.pager.peek 0)
            = internal_node_num_keys (three_leaf_table.pager.peek 0) + 1
        ∧ read_u32 (table'.pager.peek 0) (internal_node_cell idx) = 3
        ∧ read_u32 (table'.pager.peek 0) (internal_node_key idx) = 4
        ∧ internal_node_right_child (table'.pager.peek 0)
            = internal_node_right_child (three_leaf_table.pager.peek 0) := by
  refine ⟨⟨by decide, by decide, by decide, by decide, by decide, rfl, rfl⟩, by decide!, ?_⟩
  obtain ⟨t, idx, h, hi, _, _, _, hn, _, _, hneg⟩ :=
    internal_node_insert_places_child three_leaf_table 0 3 4 6
      (by decide) (by decide) (by decide) (by decide) (by decide) rfl rfl
  obtain ⟨_, _, a, b, c⟩ := hneg (by decide)
  exact ⟨t, idx, h, hi, hn, a, b, c⟩

/-! ## The cells of a split leaf -/

theorem set_node_comm (pager : Pager) (a b : Nat) (x y : Page) (h : a ≠ b) :
    (pager.set_node a x).set_node b y = (pager.set_node b y).set_node a x := by
  unfold Pager.set_node
  simp only
  congr 1
  funext m
  by_cases h1 : m = a
  · have h2 : ¬ m = b := fun hb => h (h1.symm.trans hb)
    rw [if_neg h2, if_pos h1, if_pos h1]
  · by_cases h2 : m = b
    · rw [if_pos h2, if_neg h1, if_pos h2]
    · rw [if_neg h2, if_neg h1, if_neg h1, if_neg h2]

/-- The function `leaf_node_split_and_insert` is its two parts run one after the other. -/
theorem leaf_node_split_and_insert_parts (table : Table) (cursor : Cursor) (key : Nat)
    (value : Row) :
    leaf_node_split_and_insert table cursor key value
      = leaf_node_split_cells table cursor key value >>= fun r =>
          leaf_node_split_parent { table with pager := r.1 } cursor r.2.1 r.2.2 := by
  unfold leaf_node_split_and_insert leaf_node_split_cells leaf_node_split_parent
  simp only [bind_assoc, ok_bind]

/-- The bytes of a cell written as the split writes it: the row first, then the key. -/
theorem cell_written (value : Row) (key : Nat) (p : Page) (d j : Nat) (hj : j < 295) :
    write_u32 (serialize_row value p (d + 4)) d key (d + j) = cell_image key value j := by
  unfold cell_image
  by_cases hj4 : j < 4
  · rw [serialize_row_outside _ _ _ _ (by simp only [LEAF_NODE_KEY_SIZE_eq]; omega)]
    unfold write_u32
    have hj' : j = 0 ∨ j = 1 ∨ j = 2 ∨ j = 3 := by omega
    rcases hj' with rfl | rfl | rfl | rfl <;> simp
  · rw [write_u32_outside _ _ _ _ (by omega)]
    have e1 : d + j = d + 4 + (j - 4) := by omega
    have e2 : j = LEAF_NODE_KEY_SIZE + (j - 4) := by
      simp only [LEAF_NODE_KEY_SIZE_eq]; omega
    rw [e1]
    conv_rhs => rw [e2]
    exact serialize_row_inside value _ _ _ _ _ (by simp only [ROW_SIZE_eq]; omega)

theorem split_old_page_done (node : Page) (c key : Nat) (value : Row) (k : Nat) (hk : 7 ≤ k) :
    split_old_page node c key value k = node := by
  funext off
  unfold split_old_page
  rw [if_neg (by omega)]

theorem split_new_page_low (node fresh : Page) (c key : Nat) (value : Row) (k : Nat)
    (hk : k ≤ 7) :
    split_new_page node fresh c key value k = split_new_page node fresh c key value 0 := by
  unfold split_new_page
  have : k - 7 = 0 := by omega
  rw [this]

theorem leaf_node_split_loop_spec (cursor : Cursor) (key : Nat) (value : Row) (L : Nat)
    (O N : Page) (hne : L ≠ cursor.page_num) (hc : cursor.cell_num ≤ 13) :
    ∀ (k : Nat), k ≤ 14 → ∀ (pager : Pager),
      pager.pages cursor.page_num = some (split_old_page O cursor.cell_num key value k) →
      pager.pages L = some (split_new_page O N cursor.cell_num key value k) →
      leaf_node_split_loop cursor key value L k pager
        = .ok ((pager.set_node cursor.page_num
                (split_old_page O cursor.cell_num key value 0)).set_node L
              (split_new_page O N cursor.cell_num key value 0)) := by
  intro k
  induction k with
  | zero =>
    intro _ pager hold hnew
    rw [leaf_node_split_loop, set_node_resident _ _ _ hold, set_node_resident _ _ _ hnew]
  | succ k ih =>
    intro hk pager hold hnew
    have hc7 : LEAF_NODE_LEFT_SPLIT_COUNT = 7 := rfl
    have hd : leaf_node_cell (k % LEAF_NODE_LEFT_SPLIT_COUNT) = 14 + k % 7 * 295 := by
      rw [hc7]
      exact leaf_node_cell_eq _ (by simp only [LEAF_NODE_MAX_CELLS_eq]; omega)
    have hdk : leaf_node_key (k % LEAF_NODE_LEFT_SPLIT_COUNT) = 14 + k % 7 * 295 := hd
    have hdv : leaf_node_value (k % LEAF_NODE_LEFT_SPLIT_COUNT) = 14 + k % 7 * 295 + 4 := by
      unfold leaf_node_value
      rw [hd]
      rfl
    have hcellk : leaf_node_cell k = 14 + k * 295 :=
      leaf_node_cell_eq _ (by simp only [LEAF_NODE_MAX_CELLS_eq]; omega)
    have hcellk1 : leaf_node_cell (k - 1) = 14 + (k - 1) * 295 :=
      leaf_node_cell_eq _ (by simp only [LEAF_NODE_MAX_CELLS_eq]; omega)
    -- the old leaf as the round finds it: its cells up to `k` are still those of `O`
    have hOcur : ∀ off, off < 14 + 295 * (k + 1) →
        split_old_page O cursor.cell_num key value (k + 1) off = O off := by
      intro off h
      unfold split_old_page
      rw [if_neg (by omega)]
    -- the page the round writes to, before and after the round
    obtain ⟨dp, hdp⟩ : ∃ dp, dp = if k ≥ LEAF_NODE_LEFT_SPLIT_COUNT then L else cursor.page_num :=
      ⟨_, rfl⟩
    obtain ⟨D, hDdef⟩ : ∃ D, D = if k ≥ LEAF_NODE_LEFT_SPLIT_COUNT
        then split_new_page O N cursor.cell_num key value (k + 1)
        else split_old_page O cursor.cell_num key value (k + 1) := ⟨_, rfl⟩
    obtain ⟨T, hTdef⟩ : ∃ T, T = if k ≥ LEAF_NODE_LEFT_SPLIT_COUNT
        then split_new_page O N cursor.cell_num key value k
        else split_old_page O cursor.cell_num key value k := ⟨_, rfl⟩
    have hD : pager.pages dp = some D := by
      rw [hdp, hDdef]
      split
      · exact hnew
      · exact hold
    have hT : ∀ off, T off
        = if 14 + k % 7 * 295 ≤ off ∧ off < 14 + k % 7 * 295 + 295 then
            cells_with_insert O cursor.cell_num key value k (off - (14 + k % 7 * 295))
          else D off := by
      intro off
      rw [hTdef, hDdef]
      by_cases h7 : k ≥ LEAF_NODE_LEFT_SPLIT_COUNT
      · rw [if_pos h7, if_pos h7]
        rw [hc7] at h7
        unfold split_new_page
        by_cases hin : 14 + k % 7 * 295 ≤ off ∧ off < 14 + k % 7 * 295 + 295
        · rw [if_pos hin, if_pos (by omega)]
          have e1 : (off - 14) / 295 + 7 = k := by omega
          have e2 : (off - 14) % 295 = off - (14 + k % 7 * 295) := by omega
          rw [e1, e2]
        · rw [if_neg hin]
          by_cases hr : 14 + 295 * (k + 1 - 7) ≤ off ∧ off < 14 + 295 * 7
          · rw [if_pos hr, if_pos (by omega)]
          · rw [if_neg hr, if_neg (by omega)]
      · rw [if_neg h7, if_neg h7]
        rw [hc7] at h7
        unfold split_old_page
        by_cases hin : 14 + k % 7 * 295 ≤ off ∧ off < 14 + k % 7 * 295 + 295
        · rw [if_pos hin, if_pos (by omega)]
          have e1 : (off - 14) / 295 = k := by omega
          have e2 : (off - 14) % 295 = off - (14 + k % 7 * 295) := by omega
          rw [e1, e2]
        · rw [if_neg hin]
          by_cases hr : 14 + 295 * (k + 1) ≤ off ∧ off < 14 + 295 * 7
          · rw [if_pos hr, if_pos (by omega)]
          · rw [if_neg hr, if_neg (by omega)]
    -- the rounds that remain
    have tail : leaf_node_split_loop cursor key value L k (pager.set_node dp T)
        = .ok ((pager.set_node cursor.page_num
                (split_old_page O cursor.cell_num key value 0)).set_node L
              (split_new_page O N cursor.cell_num key value 0)) := by
      by_cases h7 : k ≥ LEAF_NODE_LEFT_SPLIT_COUNT
      · rw [if_pos h7] at hdp hTdef
        rw [hc7] at h7
        subst hdp hTdef
        rw [ih (by omega) _
          (by rw [set_node_pages_other _ _ _ _ (Ne.symm hne), hold,
                split_old_page_done _ _ _ _ _ (by omega),
                split_old_page_done _ _ _ _ _ (by omega)])
          (set_node_pages_same _ _ _)]
        rw [set_node_comm _ _ _ _ _ hne, set_node_set_node]
      · rw [if_neg h7] at hdp hTdef
        rw [hc7] at h7
        subst hdp hTdef
        rw [ih (by omega) _ (set_node_pages_same _ _ _)
          (by rw [set_node_pages_other _ _ _ _ hne, hnew,
                split_new_page_low _ _ _ _ _ _ (by omega),
                ← split_new_page_low _ _ _ _ _ k (by omega)])]
        rw [set_node_set_node]
    rw [leaf_node_split_loop]
    dsimp only
    rw [← hdp, hd, hdk, hdv, hcellk, hcellk1]
    by_cases hkc : k = cursor.cell_num
    · rw [if_pos hkc]
      rw [pager_serialize_row_ok _ _ _ _ D hD (by simp only [PAGE_SIZE_eq, ROW_SIZE_eq]; omega)]
      simp only [ok_bind]
      rw [pager_store_u32_ok _ _ _ _ _ (set_node_pages_same _ _ _)
        (by simp only [PAGE_SIZE_eq]; omega)]
      simp only [ok_bind, set_node_set_node]
      have hX : write_u32 (serialize_row value D (14 + k % 7 * 295 + 4)) (14 + k % 7 * 295) key
          = T := by
        funext off
        rw [hT off]
        by_cases hin : 14 + k % 7 * 295 ≤ off ∧ off < 14 + k % 7 * 295 + 295
        · rw [if_pos hin]
          have e : off = 14 + k % 7 * 295 + (off - (14 + k % 7 * 295)) := by omega
          conv_lhs => rw [e]
          rw [cell_written _ _ _ _ _ (by omega)]
          unfold cells_with_insert
          rw [if_pos hkc]
        · rw [if_neg hin, write_u32_outside _ _ _ _ (by omega),
            serialize_row_outside _ _ _ _ (by simp only [ROW_SIZE_eq]; omega)]
      rw [hX]
      exact tail
    · rw [if_neg hkc]
      by_cases hgt : k > cursor.cell_num
      · rw [if_pos hgt]
        rw [memcpy_cell_ok _ _ _ _ _ _ D _ hD hold
          (by simp only [PAGE_SIZE_eq, LEAF_NODE_CELL_SIZE_eq]; omega)
          (by simp only [PAGE_SIZE_eq, LEAF_NODE_CELL_SIZE_eq]; omega)]
        simp only [ok_bind]
        have hX : memcpy D (14 + k % 7 * 295)
            (split_old_page O cursor.cell_num key value (k + 1)) (14 + (k - 1) * 295)
            LEAF_NODE_CELL_SIZE = T := by
          funext off
          rw [hT off]
          simp only [memcpy, LEAF_NODE_CELL_SIZE_eq]
          by_cases hin : 14 + k % 7 * 295 ≤ off ∧ off < 14 + k % 7 * 295 + 295
          · rw [if_pos hin, if_pos hin, hOcur _ (by omega)]
            unfold cells_with_insert
            rw [if_neg hkc, if_pos hgt, hcellk1]
          · rw [if_neg hin, if_neg hin]
        rw [hX]
        exact tail
      · rw [if_neg hgt]
        rw [memcpy_cell_ok _ _ _ _ _ _ D _ hD hold
          (by simp only [PAGE_SIZE_eq, LEAF_NODE_CELL_SIZE_eq]; omega)
          (by simp only [PAGE_SIZE_eq, LEAF_NODE_CELL_SIZE_eq]; omega)]
        simp only [ok_bind]
        have hX : memcpy D (14 + k % 7 * 295)
            (split_old_page O cursor.cell_num key value (k + 1)) (14 + k * 295)
            LEAF_NODE_CELL_SIZE = T := by
          funext off
          rw [hT off]
          simp only [memcpy, LEAF_NODE_CELL_SIZE_eq]
          by_cases hin : 14 + k % 7 * 295 ≤ off ∧ off < 14 + k % 7 * 295 + 295
          · rw [if_pos hin, if_pos hin, hOcur _ (by omega)]
            unfold cells_with_insert
            rw [if_neg hkc, if_neg hgt, hcellk]
          · rw [if_neg hin, if_neg hin]
        rw [hX]
        exact tail

/-- The run of the first part of a split of a full leaf below `num_pages`, when one more page
fits: the two leaves afterwards. -/
theorem leaf_node_split_cells_run (table : Table) (cursor : Cursor) (key : Nat) (value : Row)
    (hold : cursor.page_num < table.pager.num_pages)
    (hfull : table.pager.num_pages < TABLE_MAX_PAGES)
    (hleaf : get_node_type (table.pager.peek cursor.page_num) = NODE_LEAF)
    (hn : leaf_node_num_cells (table.pager.peek cursor.page_num) = LEAF_NODE_MAX_CELLS)
    (hc : cursor.cell_num ≤ LEAF_NODE_MAX_CELLS) :
    ∃ pager', leaf_node_split_cells table cursor key value
        = .ok (pager',
            read_u32 (table.pager.peek cursor.page_num) (leaf_node_key 12),
            table.pager.num_pages)
      ∧ pager'.peek cursor.page_num
          = set_leaf_node_num_cells
              (split_old_page
                (set_leaf_node_next_leaf (table.pager.peek cursor.page_num)
                  table.pager.num_pages)
                cursor.cell_num key value 0)
              LEAF_NODE_LEFT_SPLIT_COUNT
      ∧ pager'.peek table.pager.num_pages
          = set_leaf_node_num_cells
              (split_new_page
                (set_leaf_node_next_leaf (table.pager.peek cursor.page_num)
                  table.pager.num_pages)
                (set_leaf_node_next_leaf
                  (initialize_leaf_node (table.pager.peek table.pager.num_pages))
                  (leaf_node_next_leaf (table.pager.peek cursor.page_num)))
                cursor.cell_num key value 0)
              LEAF_NODE_RIGHT_SPLIT_COUNT
      ∧ (∀ m, m ≠ cursor.page_num → m ≠ table.pager.num_pages →
          pager'.peek m = table.pager.peek m) := by
  obtain ⟨p1, hg1, hres1, _, hpeek1, hnp1⟩ :=
    get_page_spec table.pager cursor.page_num (by omega)
  have hL : get_unused_page_num p1 = table.pager.num_pages := hnp1 hold
  obtain ⟨p2, hg2, hres2, _, hpeek2, _⟩ := get_page_spec p1 table.pager.num_pages hfull
  have hr2 := get_page_resident _ _ _ _ _ hg2 hres1
  rw [hpeek1] at hres2
  have hp2 : p2.peek = table.pager.peek := by rw [hpeek2, hpeek1]
  generalize table.pager.peek cursor.page_num = P at *
  generalize table.pager.peek table.pager.num_pages = X at *
  generalize hLdef : table.pager.num_pages = L at *
  have hLo : L ≠ cursor.page_num := by omega
  have hoL : cursor.page_num ≠ L := by omega
  have hmax : get_node_max_key P = .ok (read_u32 P (leaf_node_key 12)) := by
    rw [get_node_max_key_leaf P hleaf (by rw [hn]; decide) (by rw [hn]), hn]
    rfl
  have hn2o := node_of_pages _ _ _ hr2
  have hn2L := node_of_pages _ _ _ hres2
  have hstart : split_new_page (set_leaf_node_next_leaf P L)
      (set_leaf_node_next_leaf (initialize_leaf_node X) (leaf_node_next_leaf P))
      cursor.cell_num key value 14
      = set_leaf_node_next_leaf (initialize_leaf_node X) (leaf_node_next_leaf P) := by
    funext off
    unfold split_new_page
    rw [if_neg (by omega)]
  unfold leaf_node_split_cells
  simp only [hg1, ok_bind, node_of_pages _ _ _ hres1, hmax, hL, hg2]
  simp only [Pager.modify, node_set_node, hn2o, hn2L, if_true, if_false, hLo, hoL,
    set_node_set_node]
  have h14 : LEAF_NODE_MAX_CELLS + 1 = 14 := rfl
  rw [h14, leaf_node_split_loop_spec cursor key value L (set_leaf_node_next_leaf P L)
    (set_leaf_node_next_leaf (initialize_leaf_node X) (leaf_node_next_leaf P)) hLo
    (by simpa using hc) 14 (le_refl _) _
    (by rw [set_node_pages_same, split_old_page_done _ _ _ _ _ (by omega)])
    (by rw [set_node_pages_other _ _ _ _ hLo, set_node_pages_same, hstart])]
  simp only [ok_bind, node_set_node, if_true, if_false, hLo, hoL]
  refine ⟨_, rfl, ?_, ?_, ?_⟩
  · simp only [peek_set_node, Function.update_same, Function.update_noteq, ne_eq, hLo, hoL,
      not_false_eq_true]
  · simp only [peek_set_node, Function.update_same, Function.update_noteq, ne_eq, hLo, hoL,
      not_false_eq_true]
  · intro m m1 m2
    simp only [peek_set_node, Function.update_same, Function.update_noteq, ne_eq, m1, m2,
      not_false_eq_true, hp2]

theorem cells_with_insert_congr (O P : Page) (c key : Nat) (value : Row) (i : Nat)
    (h : ∀ off, 14 ≤ off → O off = P off) :
    cells_with_insert O c key value i = cells_with_insert P c key value i := by
  unfold cells_with_insert
  have hlow : ∀ n, 14 ≤ leaf_node_cell n := by
    intro n
    unfold leaf_node_cell
    simp only [LEAF_NODE_HEADER_SIZE_eq]
    omega
  split_ifs
  · rfl
  · funext j
    exact h _ (by have := hlow (i - 1); omega)
  · funext j
    exact h _ (by have := hlow i; omega)

/-- The cells after the first part of a split: for a full leaf (13 cells) on a page below `num_pages`,
when one more page fits, and a cursor with `cell_num <= 13`, the first part of
`leaf_node_split_and_insert` (up to the stores to the two `num_cells` fields) returns; with
`V` the fourteen cells `cells_with_insert` (the old cells with the new key and row put in at
`cell_num`), the old leaf then holds `V 0 .. V 6` in its cells 0 to 6 with `num_cells` 7 and
the new leaf, on the page `num_pages`, holds `V 7 .. V 13` in its cells 0 to 6 with
`num_cells` 7.  The common header of the old leaf and all other pages are unchanged, the new
leaf is a non-root leaf, and the rest of `leaf_node_split_and_insert` runs from this state. -/
theorem leaf_node_split_cells_spec (table : Table) (cursor : Cursor) (key : Nat)
    (value : Row)
    (hold : cursor.page_num < table.pager.num_pages)
    (hfull : table.pager.num_pages < TABLE_MAX_PAGES)
    (hleaf : get_node_type (table.pager.peek cursor.page_num) = NODE_LEAF)
    (hn : leaf_node_num_cells (table.pager.peek cursor.page_num) = LEAF_NODE_MAX_CELLS)
    (hc : cursor.cell_num ≤ LEAF_NODE_MAX_CELLS) :
    ∃ pager', leaf_node_split_cells table cursor key value
        = .ok (pager', read_u32 (table.pager.peek cursor.page_num) (leaf_node_key 12),
            table.pager.num_pages)
      ∧ leaf_node_split_and_insert table cursor key value
          = leaf_node_split_parent { table with pager := pager' } cursor
              (read_u32 (table.pager.peek cursor.page_num) (leaf_node_key 12))
              table.pager.num_pages
      ∧ leaf_node_num_cells (pager'.peek cursor.page_num) = LEAF_NODE_LEFT_SPLIT_COUNT
      ∧ leaf_node_num_cells (pager'.peek table.pager.num_pages) = LEAF_NODE_RIGHT_SPLIT_COUNT
      ∧ (∀ i < LEAF_NODE_LEFT_SPLIT_COUNT, ∀ j < LEAF_NODE_CELL_SIZE,
          pager'.peek cursor.page_num (leaf_node_cell i + j)
            = cells_with_insert (table.pager.peek cursor.page_num) cursor.cell_num key value
                i j)
      ∧ (∀ i < LEAF_NODE_RIGHT_SPLIT_COUNT, ∀ j < LEAF_NODE_CELL_SIZE,
          pager'.peek table.pager.num_pages (leaf_node_cell i + j)
            = cells_with_insert (table.pager.peek cursor.page_num) cursor.cell_num key value
                (LEAF_NODE_LEFT_SPLIT_COUNT + i) j)
      ∧ (∀ off < COMMON_NODE_HEADER_SIZE,
          pager'.peek cursor.page_num off = table.pager.peek cursor.page_num off)
      ∧ get_node_type (pager'.peek table.pager.num_pages) = NODE_LEAF
      ∧ is_node_root (pager'.peek table.pager.num_pages) = false
      ∧ (∀ m, m ≠ cursor.page_num → m ≠ table.pager.num_pages →
          pager'.peek m = table.pager.peek m) := by
  obtain ⟨pager', hrun, hO, hN, hoth⟩ :=
    leaf_node_split_cells_run table cursor key value hold hfull hleaf hn hc
  refine ⟨pager', hrun, ?_, ?_⟩
  · rw [leaf_node_split_and_insert_parts, hrun]
    rfl
  generalize table.pager.peek cursor.page_num = P at *
  generalize table.pager.peek table.pager.num_pages = X at *
  generalize table.pager.num_pages = L at *
  generalize pager'.peek cursor.page_num = O' at *
  generalize pager'.peek L = N' at *
  have hV : ∀ i, cells_with_insert (set_leaf_node_next_leaf P L) cursor.cell_num key value i
      = cells_with_insert P cursor.cell_num key value i := by
    intro i
    apply cells_with_insert_congr
    intro off h
    unfold set_leaf_node_next_leaf
    exact write_u32_outside _ _ _ _ (by simp only [LEAF_NODE_NEXT_LEAF_OFFSET_eq]; omega)
  have hcell : ∀ i, i < 7 → leaf_node_cell i = 14 + i * 295 :=
    fun i hi => leaf_node_cell_eq i (by simp only [LEAF_NODE_MAX_CELLS_eq]; omega)
  have hOb : ∀ off, off < 6 ∨ 10 ≤ off →
      O' off = split_old_page (set_leaf_node_next_leaf P L) cursor.cell_num key value 0 off := by
    intro off h
    rw [hO]
    unfold set_leaf_node_num_cells
    exact write_u32_outside _ _ _ _ (by simp only [LEAF_NODE_NUM_CELLS_OFFSET_eq]; omega)
  have hNb : ∀ off, off < 6 ∨ 10 ≤ off →
      N' off = split_new_page (set_leaf_node_next_leaf P L)
        (set_leaf_node_next_leaf (initialize_leaf_node X) (leaf_node_next_leaf P))
        cursor.cell_num key value 0 off := by
    intro off h
    rw [hN]
    unfold set_leaf_node_num_cells
    exact write_u32_outside _ _ _ _ (by simp only [LEAF_NODE_NUM_CELLS_OFFSET_eq]; omega)
  refine ⟨?_, ?_, ?_, ?_, ?_, ?_, ?_, hoth⟩
  · rw [hO]
    unfold leaf_node_num_cells set_leaf_node_num_cells
    rw [read_u32_write_u32]
    rfl
  · rw [hN]
    unfold leaf_node_num_cells set_leaf_node_num_cells
    rw [read_u32_write_u32]
    rfl
  · intro i hi j hj
    simp only [LEAF_NODE_LEFT_SPLIT_COUNT_eq] at hi
    simp only [LEAF_NODE_CELL_SIZE_eq] at hj
    rw [hcell i hi, hOb _ (by omega)]
    unfold split_old_page
    rw [if_pos (by omega), hV]
    have e1 : (14 + i * 295 + j - 14) / 295 = i := by omega
    have e2 : (14 + i * 295 + j - 14) % 295 = j := by omega
    rw [e1, e2]
  · intro i hi j hj
    simp only [LEAF_NODE_RIGHT_SPLIT_COUNT_eq] at hi
    simp only [LEAF_NODE_CELL_SIZE_eq] at hj
    rw [hcell i hi, hNb _ (by omega)]
    unfold split_new_page
    rw [if_pos (by omega), hV]
    have e1 : (14 + i * 295 + j - 14) / 295 + 7 = LEAF_NODE_LEFT_SPLIT_COUNT + i := by
      simp only [LEAF_NODE_LEFT_SPLIT_COUNT_eq]; omega
    have e2 : (14 + i * 295 + j - 14) % 295 = j := by omega
    rw [e1, e2]
  · intro off hoff
    simp only [COMMON_NODE_HEADER_SIZE_eq] at hoff
    rw [hOb off (by omega)]
    unfold split_old_page
    rw [if_neg (by omega)]
    unfold set_leaf_node_next_leaf
    exact write_u32_outside _ _ _ _ (by simp only [LEAF_NODE_NEXT_LEAF_OFFSET_eq]; omega)
  · unfold get_node_type read_u8
    rw [hNb _ (by simp)]
    unfold split_new_page
    rw [if_neg (by simp)]
    unfold set_leaf_node_next_leaf initialize_leaf_node set_leaf_node_next_leaf
      set_leaf_node_num_cells set_node_root set_node_type
    simp only [NODE_TYPE_OFFSET_eq, LEAF_NODE_NEXT_LEAF_OFFSET_eq, LEAF_NODE_NUM_CELLS_OFFSET_eq,
      IS_ROOT_OFFSET_eq]
    rw [write_u32_outside _ _ _ _ (by omega), write_u32_outside _ _ _ _ (by omega),
      write_u32_outside _ _ _ _ (by omega), write_u8_outside _ _ _ _ (by omega)]
    rfl
  · unfold is_node_root read_u8
    rw [hNb _ (by simp)]
    unfold split_new_page
    rw [if_neg (by simp)]
    unfold set_leaf_node_next_leaf initialize_leaf_node set_leaf_node_next_leaf
      set_leaf_node_num_cells set_node_root set_node_type
    simp only [NODE_TYPE_OFFSET_eq, LEAF_NODE_NEXT_LEAF_OFFSET_eq, LEAF_NODE_NUM_CELLS_OFFSET_eq,
      IS_ROOT_OFFSET_eq]
    rw [write_u32_outside _ _ _ _ (by omega), write_u32_outside _ _ _ _ (by omega),
      write_u32_outside _ _ _ _ (by omega)]
    rfl

/-- C16. Leaf split redistribution: for a full leaf (13 cells) on a page below `num_pages`,
when one more page fits, and a cursor with `cell_num <= 13`, the first part of
`leaf_node_split_and_insert` (up to the stores to the two `num_cells` fields) returns; with
`V` the fourteen cells `cells_with_insert` (the old cells with the new key and row put in at
`cell_num`), the old leaf then holds `V 0 .. V 6` in its cells 0 to 6 with `num_cells` 7 and
the new leaf, on the page `num_pages`, holds `V 7 .. V 13` in its cells 0 to 6 with
`num_cells` 7.  The common header of the old leaf and all other pages are unchanged, the new
leaf is a non-root leaf, and the rest of `leaf_node_split_and_insert` runs from this state. -/
theorem leaf_split_divides_fourteen_cells (table : Table) (cursor : Cursor) (key : Nat)
    (value : Row)
    (hold : cursor.page_num < table.pager.num_pages)
    (hfull : table.pager.num_pages < TABLE_MAX_PAGES)
    (hleaf : get_node_type (table.pager.peek cursor.page_num) = NODE_LEAF)
    (hn : leaf_node_num_cells (table.pager.peek cursor.page_num) = LEAF_NODE_MAX_CELLS)
    (hc : cursor.cell_num ≤ LEAF_NODE_MAX_CELLS) :
    ∃ pager', leaf_node_split_cells table cursor key value
        = .ok (pager', read_u32 (table.pager.peek cursor.page_num) (leaf_node_key 12),
            table.pager.num_pages)
      ∧ leaf_node_split_and_insert table cursor key value
          = leaf_node_split_parent { table with pager := pager' } cursor
              (read_u32 (table.pager.peek cursor.page_num) (leaf_node_key 12))
              table.pager.num_pages
      ∧ leaf_node_num_cells (pager'.peek cursor.page_num) = LEAF_NODE_LEFT_SPLIT_COUNT
      ∧ leaf_node_num_cells (pager'.peek table.pager.num_pages) = LEAF_NODE_RIGHT_SPLIT_COUNT
      ∧ (∀ i < LEAF_NODE_LEFT_SPLIT_COUNT, ∀ j < LEAF_NODE_CELL_SIZE,
          pager'.peek cursor.page_num (leaf_node_cell i + j)
            = cells_with_insert (table.pager.peek cursor.page_num) cursor.cell_num key value
                i j)
      ∧ (∀ i < LEAF_NODE_RIGHT_SPLIT_COUNT, ∀ j < LEAF_NODE_CELL_SIZE,
          pager'.peek table.pager.num_pages (leaf_node_cell i + j)
            = cells_with_insert (table.pager.peek cursor.page_num) cursor.cell_num key value
                (LEAF_NODE_LEFT_SPLIT_COUNT + i) j)
      ∧ (∀ off < COMMON_NODE_HEADER_SIZE,
          pager'.peek cursor.page_num off = table.pager.peek cursor.page_num off)
      ∧ get_node_type (pager'.peek table.pager.num_pages) = NODE_LEAF
      ∧ is_node_root (pager'.peek table.pager.num_pages) = false
      ∧ (∀ m, m ≠ cursor.page_num → m ≠ table.pager.num_pages →
          pager'.peek m = table.pager.peek m) :=
  leaf_node_split_cells_spec table cursor key value hold hfull hleaf hn hc

/-- C16, at `full_leaf_table` with the cursor on cell 2 of the full leaf on page 1 and the
key 5: the first part of the split returns, page 1 then holds the keys 2, 4, 5, 6, 8, 10, 12
and the new page 3 the keys 14 to 26, seven cells each. -/
theorem leaf_split_divides_fourteen_cells_witness :
    (1 < full_leaf_table.pager.num_pages
      ∧ full_leaf_table.pager.num_pages < TABLE_MAX_PAGES
      ∧ get_node_type (full_leaf_table.pager.peek 1) = NODE_LEAF
      ∧ leaf_node_num_cells (full_leaf_table.pager.peek 1) = LEAF_NODE_MAX_CELLS
      ∧ 2 ≤ LEAF_NODE_MAX_CELLS)
    ∧ returns (leaf_node_split_cells full_leaf_table ⟨1, 2, some false⟩ 5 (example_row 5))
        (fun r => leaf_keys (r.1.peek 1) = [2, 4, 5, 6, 8, 10, 12]
          ∧ leaf_keys (r.1.peek 3) = [14, 16, 18, 20, 22, 24, 26]
          ∧ r.2 = (26, 3))
    ∧ ∃ pager', leaf_node_split_cells full_leaf_table ⟨1, 2, some false⟩ 5 (example_row 5)
          = .ok (pager', read_u32 (full_leaf_table.pager.peek 1) (leaf_node_key 12),
              full_leaf_table.pager.num_pages)
        ∧ leaf_node_num_cells (pager'.peek 1) = LEAF_NODE_LEFT_SPLIT_COUNT
        ∧ leaf_node_num_cells (pager'.peek full_leaf_table.pager.num_pages)
            = LEAF_NODE_RIGHT_SPLIT_COUNT
        ∧ (∀ i < LEAF_NODE_LEFT_SPLIT_COUNT, ∀ j < LEAF_NODE_CELL_SIZE,
            pager'.peek 1 (leaf_node_cell i + j)
              = cells_with_insert (full_leaf_table.pager.peek 1) 2 5 (example_row 5) i j)
        ∧ (∀ i < LEAF_NODE_RIGHT_SPLIT_COUNT, ∀ j < LEAF_NODE_CELL_SIZE,
            pager'.peek full_leaf_table.pager.num_pages (leaf_node_cell i + j)
              = cells_with_insert (full_leaf_table.pager.peek 1) 2 5 (example_row 5)
                  (LEAF_NODE_LEFT_SPLIT_COUNT + i) j) := by
  refine ⟨by decide, by decide!, ?_⟩
  obtain ⟨p, h, _, a, b, c, d, _⟩ :=
    leaf_split_divides_fourteen_cells full_leaf_table ⟨1, 2, some false⟩ 5 (example_row 5)
      (by decide) (by decide) (by decide) (by decide) (by decide)
  exact ⟨p, h, a, b, c, d⟩

/-! ## The pager: flush and page faults -/

/-- C21 (the code fails the claim). The function `pager_flush` has no `lseek`: the page of a
resident slot `n` is written at the position the descriptor has, whatever `n` is, so the
bytes land at `offset .. offset + PAGE_SIZE`.  On the one-page file with the row 5, the page
0 that `get_page` has just read is flushed behind the end of the file: the file grows to two
pages, its page 0 keeps the old bytes and the position moves from 4096 to 8192.  On an empty
slot the function does exit, as the claim says. -/
theorem pager_flush_writes_at_file_position :
    (∀ (pager : Pager) (n : Nat) (page : Page),
        pager_flush (pager.set_node n page) n
          = .ok { pager.set_node n page with file := pager.file.write page PAGE_SIZE })
    ∧ (∀ (f : File) (page : Page) (i : Nat),
        (f.write page PAGE_SIZE).bytes (f.offset + i)
          = if i < PAGE_SIZE then page i
            else if f.offset + i < f.length then f.bytes (f.offset + i) else 0)
    ∧ (∀ (f : File) (fresh : Nat → Page) (n : Nat),
        (pager_open f fresh >>= fun pager => pager_flush pager n)
          = (pager_open f fresh >>= fun _ => .error .exit_failure))
    ∧ returns (db_open (seed_file (example_row 5)) zero_fresh >>= fun t => get_page t.pager 0)
        (fun pager => pager.file.offset = 4096 ∧ pager.file.length = 4096
          ∧ returns (pager_flush pager 0)
              (fun pager' => pager'.file.length = 8192 ∧ pager'.file.offset = 8192
                ∧ (∀ i < 20, pager'.file.bytes i = pager.file.bytes i)
                ∧ (∀ i < 20, pager'.file.bytes (4096 + i) = pager.node 0 i))) := by
  refine ⟨fun pager n page => ?_, fun f page i => ?_, fun f fresh n => ?_, by decide⟩
  · unfold pager_flush
    rw [set_node_pages_same]
    rfl
  · unfold File.write
    simp only [PAGE_SIZE_eq]
    by_cases h : i < 4096
    · rw [if_pos ⟨by omega, by omega⟩, if_pos h]
      apply congrArg page
      omega
    · rw [if_neg (by omega), if_neg h]
  · unfold pager_open
    dsimp only
    split
    · rfl
    · rfl

/-- C22 (the code fails the claim). The test of `get_page` is `page_num > TABLE_MAX_PAGES`:
every page number above 100 exits with the out-of-bounds message, but page number 100 passes
the test and the function goes on to `pager->pages[100]`, one slot behind the array of
`TABLE_MAX_PAGES` pointers, which is not a defined access. -/
theorem get_page_admits_page_hundred :
    (∀ (pager : Pager) (k : Nat),
        get_page pager (TABLE_MAX_PAGES + 1 + k) = .error .exit_failure)
    ∧ (∀ pager : Pager, get_page pager TABLE_MAX_PAGES = .error .undefined)
    ∧ TABLE_MAX_PAGES = 100 := by
  refine ⟨fun pager k => ?_, fun pager => ?_, rfl⟩
  · unfold get_page
    rw [if_pos (by omega)]
  · unfold get_page
    rw [if_neg (by omega), if_pos rfl]

/-- C23 (the code fails the claim). On a miss `get_page` takes its buffer from `malloc` and
writes to it only what `read` delivers; for a page behind the end of the file that is
nothing, so the buffer keeps whatever `malloc` handed out: on a new file with `malloc`
buffers full of `0xAA`, page 0 is 4096 bytes of `0xAA`, not of zero.  The slot is installed
and `num_pages` raised to 1, as the claim says. -/
theorem get_page_buffer_not_zeroed :
    (∀ (fresh : Nat → Page) (n i : Nat),
        returns (pager_open File.empty fresh >>= fun pager => get_page pager (n % 100))
          (fun pager => pager.pages (n % 100) = some (pager.node (n % 100))
            ∧ pager.node (n % 100) i = fresh (n % 100) i
            ∧ pager.num_pages = n % 100 + 1))
    ∧ returns (pager_open File.empty junk_fresh >>= fun pager => get_page pager 0)
        (fun pager => ∀ i < 4096, pager.node 0 i = 170) := by
  have key : ∀ (fresh : Nat → Page) (m i : Nat), m < 100 →
      returns (pager_open File.empty fresh >>= fun pager => get_page pager m)
        (fun pager => pager.pages m = some (pager.node m)
          ∧ pager.node m i = fresh m i
          ∧ pager.num_pages = m + 1) := by
    intro fresh m i hm
    have hopen : pager_open File.empty fresh
        = .ok { file := File.empty, file_length := 0, num_pages := 0,
                pages := fun _ => none, fresh := fresh } := rfl
    rw [hopen]
    simp only [ok_bind]
    unfold get_page
    rw [if_neg (by simp only [TABLE_MAX_PAGES_eq]; omega),
      if_neg (by simp only [TABLE_MAX_PAGES_eq]; omega)]
    dsimp only
    split
    · unfold returns
      dsimp only
      refine ⟨?_, ?_, rfl⟩
      · simp [Pager.node, Pager.set_node]
      · simp only [Pager.node, Pager.set_node, if_true, Option.getD_some, Pager.miss]
        by_cases h0 : m ≤ 0
        · simp [h0, File.read, File.lseek_set, File.empty]
        · simp [h0]
    · rename_i h
      exact absurd (Nat.zero_le m) h
  refine ⟨fun fresh n i => key fresh (n % 100) i (Nat.mod_lt _ (by decide)), ?_⟩
  have h := fun i => key junk_fresh 0 i (by decide)
  revert h
  cases hrun : (pager_open File.empty junk_fresh >>= fun pager => get_page pager 0) with
  | error e =>
    intro h
    exact (h 0).elim
  | ok pager =>
    intro h i _
    exact (h i).2.1

/-! ## The full internal node -/

/-- The function `internal_node_insert` on a parent that holds `INTERNAL_NODE_MAX_CELLS` keys
or more ends in `exit(EXIT_FAILURE)`, once the maximum key of the child has been read. -/
theorem internal_node_insert_full (table : Table) (parent_page_num child_page_num k : Nat)
    (hp : parent_page_num < TABLE_MAX_PAGES) (hc : child_page_num < TABLE_MAX_PAGES)
    (hk : get_node_max_key (table.pager.peek child_page_num) = .ok k)
    (h3 : INTERNAL_NODE_MAX_CELLS ≤ internal_node_num_keys (table.pager.peek parent_page_num))
    (h510 : internal_node_num_keys (table.pager.peek parent_page_num) ≤ 510) :
    internal_node_insert table parent_page_num child_page_num = .error .exit_failure := by
  obtain ⟨p1, hg1, hres1, _, hpeek1, _⟩ := get_page_spec table.pager parent_page_num hp
  obtain ⟨p2, hg2, hres2, _, hpeek2, _⟩ := get_page_spec p1 child_page_num hc
  have hP2 := get_page_resident _ _ _ _ _ hg2 hres1
  rw [hpeek1] at hres2
  obtain ⟨idx, hidx, _⟩ :=
    internal_node_find_child_le (table.pager.peek parent_page_num) k h510
  unfold internal_node_insert
  simp only [hg1, ok_bind, hg2, node_of_pages _ _ _ hP2, node_of_pages _ _ _ hres2, hk, hidx]
  rw [if_pos h3]

/-- C24. The function `internal_node_insert`, for a parent and a child on pages below
`TABLE_MAX_PAGES` and a child whose maximum key is defined: when the parent holds
`INTERNAL_NODE_MAX_CELLS` keys or more (up to the 510 key slots of a page) the call ends in
`exit(EXIT_FAILURE)`; when it holds fewer, and its right child is another page below
`TABLE_MAX_PAGES` whose maximum key is defined, the call returns. -/
theorem internal_node_insert_exits_on_full_parent (table : Table)
    (parent_page_num child_page_num k : Nat)
    (hp : parent_page_num < TABLE_MAX_PAGES) (hc : child_page_num < TABLE_MAX_PAGES)
    (hk : get_node_max_key (table.pager.peek child_page_num) = .ok k) :
    (INTERNAL_NODE_MAX_CELLS ≤ internal_node_num_keys (table.pager.peek parent_page_num) →
      internal_node_num_keys (table.pager.peek parent_page_num) ≤ 510 →
      internal_node_insert table parent_page_num child_page_num = .error .exit_failure)
    ∧ (internal_node_num_keys (table.pager.peek parent_page_num) < INTERNAL_NODE_MAX_CELLS →
      internal_node_right_child (table.pager.peek parent_page_num) < TABLE_MAX_PAGES →
      internal_node_right_child (table.pager.peek parent_page_num) ≠ parent_page_num →
      (∃ km, get_node_max_key
          (table.pager.peek (internal_node_right_child (table.pager.peek parent_page_num)))
        = .ok km) →
      ∃ table', internal_node_insert table parent_page_num child_page_num = .ok table'
        ∧ internal_node_num_keys (table'.pager.peek parent_page_num)
            = internal_node_num_keys (table.pager.peek parent_page_num) + 1) := by
  constructor
  · intro h3 h510
    exact internal_node_insert_full table parent_page_num child_page_num k hp hc hk h3 h510
  · intro hK hr hrp hkm
    obtain ⟨km, hkm⟩ := hkm
    obtain ⟨t, _, h, _, _, _, _, hn, _⟩ :=
      internal_node_insert_spec table parent_page_num child_page_num k km hp hc hr hrp hK hk hkm
    exact ⟨t, h, hn⟩

/-- C24, at `four_leaf_table`, whose root holds three keys, with the leaf on page 5 as the
new child: the call exits; and at `three_leaf_table`, whose root holds one key, with the leaf
on page 3: the call returns and the root has two keys. -/
theorem internal_node_insert_exits_on_full_parent_witness :
    (0 < TABLE_MAX_PAGES ∧ 5 < TABLE_MAX_PAGES
      ∧ get_node_max_key (four_leaf_table.pager.peek 5) = .ok 40
      ∧ INTERNAL_NODE_MAX_CELLS ≤ internal_node_num_keys (four_leaf_table.pager.peek 0)
      ∧ internal_node_num_keys (four_leaf_table.pager.peek 0) ≤ 510)
    ∧ internal_node_insert four_leaf_table 0 5 = .error .exit_failure
    ∧ (3 < TABLE_MAX_PAGES
      ∧ get_node_max_key (three_leaf_table.pager.peek 3) = .ok 4
      ∧ internal_node_num_keys (three_leaf_table.pager.peek 0) < INTERNAL_NODE_MAX_CELLS)
    ∧ ∃ table', internal_node_insert three_leaf_table 0 3 = .ok table'
        ∧ internal_node_num_keys (table'.pager.peek 0)
            = internal_node_num_keys (three_leaf_table.pager.peek 0) + 1 :=
  ⟨⟨by decide, by decide, rfl, by decide, by decide⟩,
    (internal_node_insert_exits_on_full_parent four_leaf_table 0 5 40 (by decide) (by decide)
      rfl).1 (by decide) (by decide),
    ⟨by decide, rfl, by decide⟩,
    (internal_node_insert_exits_on_full_parent three_leaf_table 0 3 4 (by decide) (by decide)
      rfl).2 (by decide) (by decide) (by decide) ⟨6, rfl⟩⟩

/-! ## The split of a leaf below an internal root -/

/-- On ascending keys `internal_node_find_child` returns an index with smaller keys before it
and no smaller key from it on. -/
theorem internal_node_find_child_sorted (node : Page) (key : Nat)
    (hk : internal_node_num_keys node ≤ 510)
    (hasc : ∀ j < internal_node_num_keys node, ∀ i ≤ j,
      read_u32 node (internal_node_key i) ≤ read_u32 node (internal_node_key j)) :
    ∃ i, internal_node_find_child node key = .ok i
      ∧ i ≤ internal_node_num_keys node
      ∧ (∀ j < i, read_u32 node (internal_node_key j) < key)
      ∧ (∀ j, i ≤ j → j < internal_node_num_keys node →
          key ≤ read_u32 node (internal_node_key j)) :=
  internal_node_find_child_loop_sorted node key hasc hk 33 0
    (internal_node_num_keys node) (Nat.zero_le _) (le_refl _)
    (by calc internal_node_num_keys node - 0 ≤ 510 := by omega
          _ < 2 ^ 33 := by norm_num)
    (fun j hj => absurd hj (Nat.not_lt_zero j)) (fun j h1 h2 => absurd h2 (by omega))

/-- On strictly ascending keys the result of `internal_node_find_child` is the one index
that has the smaller keys before it and no smaller key from it on. -/
theorem internal_node_find_child_at (node : Page) (key p : Nat)
    (hk : internal_node_num_keys node ≤ 510)
    (hasc : ∀ a b, a < b → b < internal_node_num_keys node →
      read_u32 node (internal_node_key a) < read_u32 node (internal_node_key b))
    (hp : p ≤ internal_node_num_keys node)
    (hlo : ∀ a < p, read_u32 node (internal_node_key a) < key)
    (hhi : ∀ a, p ≤ a → a < internal_node_num_keys node →
      key ≤ read_u32 node (internal_node_key a)) :
    internal_node_find_child node key = .ok p := by
  obtain ⟨i, hi, hile, h1, h2⟩ := internal_node_find_child_sorted node key hk
    (by
      intro j hj i hij
      rcases Nat.lt_or_ge i j with h | h
      · exact Nat.le_of_lt (hasc i j h hj)
      · have : i = j := by omega
        rw [this])
  have : i = p := by
    rcases Nat.lt_trichotomy i p with h | h | h
    · have a := hlo i h
      have b := h2 i (le_refl _) (by omega)
      omega
    · exact h
    · have a := h1 p h
      have b := hhi p (le_refl _) (by omega)
      omega
  rw [hi, this]

/-- The old leaf is resident when the first part of a split has returned. -/
theorem leaf_node_split_cells_resident (table : Table) (cursor : Cursor) (key : Nat)
    (value : Row) (r : Pager × Nat × Nat)
    (h : leaf_node_split_cells table cursor key value = .ok r) :
    r.1.node cursor.page_num = r.1.peek cursor.page_num := by
  unfold leaf_node_split_cells at h
  simp only [bind_ok_iff] at h
  obtain ⟨p1, _, old_max, _, p2, _, p3, _, h⟩ := h
  injection h with h
  rw [← h]
  simp only [Pager.modify, Pager.node, Pager.peek, Pager.set_node]
  split_ifs <;> rfl

/-- The second part of a split of a full non-root leaf: the key slot that
`update_internal_node_key` finds for the old maximum key gets the new maximum key of the old
leaf, and `internal_node_insert` runs on the table with that parent page. -/
theorem leaf_node_split_nonroot_run (table : Table) (cursor : Cursor) (key : Nat) (value : Row)
    (hold : cursor.page_num < table.pager.num_pages)
    (hfull : table.pager.num_pages < TABLE_MAX_PAGES)
    (hleaf : get_node_type (table.pager.peek cursor.page_num) = NODE_LEAF)
    (hn : leaf_node_num_cells (table.pager.peek cursor.page_num) = LEAF_NODE_MAX_CELLS)
    (hc : cursor.cell_num ≤ LEAF_NODE_MAX_CELLS)
    (hnr : is_node_root (table.pager.peek cursor.page_num) = false)
    (hpar : node_parent (table.pager.peek cursor.page_num) < table.pager.num_pages)
    (hpo : node_parent (table.pager.peek cursor.page_num) ≠ cursor.page_num)
    (hK : internal_node_num_keys
        (table.pager.peek (node_parent (table.pager.peek cursor.page_num))) ≤ 509) :
    ∃ pager1 p table3,
      leaf_node_split_cells table cursor key value
        = .ok (pager1, read_u32 (table.pager.peek cursor.page_num) (leaf_node_key 12),
            table.pager.num_pages)
      ∧ internal_node_find_child
          (table.pager.peek (node_parent (table.pager.peek cursor.page_num)))
          (read_u32 (table.pager.peek cursor.page_num) (leaf_node_key 12)) = .ok p
      ∧ p ≤ internal_node_num_keys
          (table.pager.peek (node_parent (table.pager.peek cursor.page_num)))
      ∧ table3.root_page_num = table.root_page_num
      ∧ table3.pager.peek
          = Function.update pager1.peek (node_parent (table.pager.peek cursor.page_num))
              (write_u32 (table.pager.peek (node_parent (table.pager.peek cursor.page_num)))
                (internal_node_key p)
                (read_u32 (pager1.peek cursor.page_num) (leaf_node_key 6)))
      ∧ leaf_node_split_and_insert table cursor key value
          = internal_node_insert table3 (node_parent (table.pager.peek cursor.page_num))
              table.pager.num_pages := by
  obtain ⟨pager1, hrun, hparts, hn1, _, _, _, hhead, _, _, hoth⟩ :=
    leaf_node_split_cells_spec table cursor key value hold hfull hleaf hn hc
  have hres := leaf_node_split_cells_resident table cursor key value _ hrun
  dsimp only at hres
  generalize hLf : table.pager.peek cursor.page_num = Lf at *
  generalize hparN : node_parent Lf = par at *
  generalize hO : pager1.peek cursor.page_num = O at *
  have hb : ∀ off, off < 6 → O off = Lf off := by
    intro off h
    exact hhead off (by simp only [COMMON_NODE_HEADER_SIZE_eq]; exact h)
  have hOroot : is_node_root O = false := by
    rw [← hnr]
    unfold is_node_root read_u8
    rw [hb _ (by simp)]
  have hOpar : node_parent O = par := by
    rw [← hparN]
    unfold node_parent
    apply read_u32_congr
    intro j hj
    exact hb _ (by simp only [PARENT_POINTER_OFFSET_eq]; omega)
  have hOtype : get_node_type O = NODE_LEAF := by
    rw [← hleaf]
    unfold get_node_type read_u8
    rw [hb _ (by simp)]
  have hOmax : get_node_max_key O = .ok (read_u32 O (leaf_node_key 6)) := by
    rw [get_node_max_key_leaf O hOtype (by rw [hn1]; decide) (by rw [hn1]; decide), hn1]
    rfl
  have hparQ : pager1.peek par = table.pager.peek par :=
    hoth par hpo (by omega)
  obtain ⟨p2, hg2, hres2, _, hpeek2, _⟩ := get_page_spec pager1 par (by omega)
  rw [hparQ] at hres2
  generalize hQ : table.pager.peek par = Q at *
  obtain ⟨p, hp, hple⟩ := internal_node_find_child_le Q
    (read_u32 Lf (leaf_node_key 12)) (by omega)
  have hstore : update_internal_node_key p2 par (read_u32 Lf (leaf_node_key 12))
      (read_u32 O (leaf_node_key 6))
      = .ok (p2.set_node par (write_u32 Q (internal_node_key p) (read_u32 O (leaf_node_key 6))))
      := by
    unfold update_internal_node_key
    rw [node_of_pages _ _ _ hres2, hp]
    simp only [ok_bind]
    rw [pager_store_u32_ok _ _ _ _ _ hres2
      (by simp only [internal_node_key, internal_node_cell_eq p (by omega),
            INTERNAL_NODE_CHILD_SIZE_eq, PAGE_SIZE_eq]; omega)]
  refine ⟨pager1, p,
    Table.mk (p2.set_node par (write_u32 Q (internal_node_key p) (read_u32 O (leaf_node_key 6))))
      table.root_page_num, hrun, hp, hple, rfl, ?_, ?_⟩
  · show (p2.set_node par _).peek = _
    rw [peek_set_node, hpeek2, hO]
  · rw [hparts]
    unfold leaf_node_split_parent
    dsimp only
    rw [hres, hOroot]
    simp only [Bool.false_eq_true, if_false, hOpar, hOmax, ok_bind, hg2, hstore]

theorem read_u32_shift (p q : Page) (off : Nat) (h : ∀ j < 4, p (off + j) = q j) :
    read_u32 p off = read_u32 q 0 := by
  unfold read_u32
  have h0 := h 0 (by omega)
  have h1 := h 1 (by omega)
  have h2 := h 2 (by omega)
  have h3 := h 3 (by omega)
  simp only [Nat.add_zero, Nat.zero_add] at h0 ⊢
  rw [h0, h1, h2, h3]

/-- The keys of the fourteen cells of a split: the old keys with the new key put in at
`cell_num`. -/
theorem split_key_eq (node : Page) (c key : Nat) (value : Row) (i : Nat) (hkey : key < U32) :
    split_key node c key value i
      = if i = c then key
        else if i > c then read_u32 node (leaf_node_key (i - 1))
        else read_u32 node (leaf_node_key i) := by
  unfold split_key cells_with_insert
  split_ifs
  · unfold cell_image
    rw [read_u32_congr _ (write_u32 zero_page 0 key) 0
      (fun j hj => serialize_row_outside _ _ _ _ (by simp only [LEAF_NODE_KEY_SIZE_eq]; omega)),
      read_u32_write_u32, Nat.mod_eq_of_lt hkey]
  · rw [eq_comm]
    exact read_u32_shift _ _ _ (fun j _ => rfl)
  · rw [eq_comm]
    exact read_u32_shift _ _ _ (fun j _ => rfl)

/-- The split of a full non-root leaf `Lf` under a parent `Q` with fewer than three keys and
right child `r`: `leaf_node_split_and_insert` returns; the old leaf holds the keys
`split_key 0 .. 6`, the new leaf on page `num_pages` the keys `split_key 7 .. 13`;
`update_internal_node_key` has put `split_key 6` into the key slot `p` that
`internal_node_find_child` gives for the old maximum key, which makes the parent `Q1`, and
`internal_node_insert` has put the new leaf into `Q1` as its rules say, by the comparison of
`split_key 13` with the maximum key `kmx` of the right child. -/
theorem leaf_node_split_nonroot_spec (table : Table) (cursor : Cursor) (key : Nat) (value : Row)
    (Lf Q : Page) (par r km : Nat)
    (hLf : table.pager.peek cursor.page_num = Lf)
    (hparN : node_parent Lf = par)
    (hQ : table.pager.peek par = Q)
    (hrN : internal_node_right_child Q = r)
    (hold : cursor.page_num < table.pager.num_pages)
    (hfull : table.pager.num_pages < TABLE_MAX_PAGES)
    (hleaf : get_node_type Lf = NODE_LEAF)
    (hn : leaf_node_num_cells Lf = LEAF_NODE_MAX_CELLS)
    (hc : cursor.cell_num ≤ LEAF_NODE_MAX_CELLS)
    (hnr : is_node_root Lf = false)
    (hpar : par < table.pager.num_pages)
    (hpo : par ≠ cursor.page_num)
    (hK : internal_node_num_keys Q < INTERNAL_NODE_MAX_CELLS)
    (hr : r < table.pager.num_pages)
    (hrp : r ≠ par)
    (hkm : r ≠ cursor.page_num → get_node_max_key (table.pager.peek r) = .ok km) :
    ∃ table' p idx kmx Q1,
      leaf_node_split_and_insert table cursor key value = .ok table'
      ∧ table'.root_page_num = table.root_page_num
      ∧ internal_node_find_child Q (read_u32 Lf (leaf_node_key 12)) = .ok p
      ∧ p ≤ internal_node_num_keys Q
      ∧ Q1 = write_u32 Q (internal_node_key p) (split_key Lf cursor.cell_num key value 6)
      ∧ internal_node_find_child Q1 (split_key Lf cursor.cell_num key value 13) = .ok idx
      ∧ idx ≤ internal_node_num_keys Q
      ∧ kmx = (if r = cursor.page_num then split_key Lf cursor.cell_num key value 6 else km)
      ∧ leaf_node_num_cells (table'.pager.peek cursor.page_num) = LEAF_NODE_LEFT_SPLIT_COUNT
      ∧ leaf_node_num_cells (table'.pager.peek table.pager.num_pages)
          = LEAF_NODE_RIGHT_SPLIT_COUNT
      ∧ (∀ i < LEAF_NODE_LEFT_SPLIT_COUNT,
          read_u32 (table'.pager.peek cursor.page_num) (leaf_node_key i)
            = split_key Lf cursor.cell_num key value i)
      ∧ (∀ i < LEAF_NODE_RIGHT_SPLIT_COUNT,
          read_u32 (table'.pager.peek table.pager.num_pages) (leaf_node_key i)
            = split_key Lf cursor.cell_num key value (LEAF_NODE_LEFT_SPLIT_COUNT + i))
      ∧ get_node_max_key (table'.pager.peek cursor.page_num)
          = .ok (split_key Lf cursor.cell_num key value 6)
      ∧ get_node_max_key (table'.pager.peek table.pager.num_pages)
          = .ok (split_key Lf cursor.cell_num key value 13)
      ∧ (∀ m, m ≠ cursor.page_num → m ≠ table.pager.num_pages → m ≠ par →
          table'.pager.peek m = table.pager.peek m)
      ∧ internal_node_num_keys (table'.pager.peek par) = internal_node_num_keys Q + 1
      ∧ (∀ off < COMMON_NODE_HEADER_SIZE, table'.pager.peek par off = Q off)
      ∧ (split_key Lf cursor.cell_num key value 13 > kmx →
          (∀ i < internal_node_num_keys Q, ∀ j < INTERNAL_NODE_CELL_SIZE,
              table'.pager.peek par (internal_node_cell i + j) = Q1 (internal_node_cell i + j))
          ∧ read_u32 (table'.pager.peek par) (internal_node_cell (internal_node_num_keys Q)) = r
          ∧ read_u32 (table'.pager.peek par) (internal_node_key (internal_node_num_keys Q))
              = kmx
          ∧ internal_node_right_child (table'.pager.peek par) = table.pager.num_pages)
      ∧ (¬ split_key Lf cursor.cell_num key value 13 > kmx →
          (∀ i < idx, ∀ j < INTERNAL_NODE_CELL_SIZE,
              table'.pager.peek par (internal_node_cell i + j) = Q1 (internal_node_cell i + j))
          ∧ (∀ i, idx ≤ i → i < internal_node_num_keys Q → ∀ j < INTERNAL_NODE_CELL_SIZE,
              table'.pager.peek par (internal_node_cell (i + 1) + j)
                = Q1 (internal_node_cell i + j))
          ∧ read_u32 (table'.pager.peek par) (internal_node_cell idx) = table.pager.num_pages
          ∧ read_u32 (table'.pager.peek par) (internal_node_key idx)
              = split_key Lf cursor.cell_num key value 13
          ∧ internal_node_right_child (table'.pager.peek par) = r) := by
  subst hLf hparN hQ hrN
  have hK3 : internal_node_num_keys
      (table.pager.peek (node_parent (table.pager.peek cursor.page_num))) < 3 := by
    simpa using hK
  obtain ⟨pager1, p, table3, hrun1, hp, hple, hroot3, hpeek3, hsplit⟩ :=
    leaf_node_split_nonroot_run table cursor key value hold hfull hleaf hn hc hnr hpar hpo
      (by omega)
  obtain ⟨pager1', hrun1', _, hnO, hnN, hcO, hcN, hhead, htN, _, hoth1⟩ :=
    leaf_node_split_cells_spec table cursor key value hold hfull hleaf hn hc
  rw [hrun1] at hrun1'
  injection hrun1' with hrun1'
  injection hrun1' with hpg _
  subst hpg
  generalize hLfdef : table.pager.peek cursor.page_num = Lf at *
  generalize hpardef : node_parent Lf = par at *
  generalize hQdef : table.pager.peek par = Q at *
  generalize hrdef : internal_node_right_child Q = r at *
  generalize hLdef : table.pager.num_pages = L at *
  generalize hOdef : pager1.peek cursor.page_num = O at *
  generalize hNdef : pager1.peek L = N at *
  generalize hKdef : internal_node_num_keys Q = K at *
  have hcell : ∀ i, i < 7 → leaf_node_cell i = 14 + i * 295 :=
    fun i hi => leaf_node_cell_eq i (by simp only [LEAF_NODE_MAX_CELLS_eq]; omega)
  -- the keys of the two leaves
  have hkO : ∀ i < LEAF_NODE_LEFT_SPLIT_COUNT,
      read_u32 O (leaf_node_key i) = split_key Lf cursor.cell_num key value i := by
    intro i hi
    unfold split_key
    apply read_u32_shift
    intro j hj
    exact hcO i hi j (by simp only [LEAF_NODE_CELL_SIZE_eq]; omega)
  have hkN : ∀ i < LEAF_NODE_RIGHT_SPLIT_COUNT,
      read_u32 N (leaf_node_key i)
        = split_key Lf cursor.cell_num key value (LEAF_NODE_LEFT_SPLIT_COUNT + i) := by
    intro i hi
    unfold split_key
    apply read_u32_shift
    intro j hj
    exact hcN i hi j (by simp only [LEAF_NODE_CELL_SIZE_eq]; omega)
  have hOtype : get_node_type O = NODE_LEAF := by
    rw [← hleaf]
    unfold get_node_type read_u8
    rw [hhead _ (by simp)]
  have hOmax : get_node_max_key O = .ok (split_key Lf cursor.cell_num key value 6) := by
    rw [get_node_max_key_leaf O hOtype (by rw [hnO]; decide) (by rw [hnO]; decide), hnO]
    exact congrArg Except.ok (hkO 6 (by decide))
  have hNmax : get_node_max_key N = .ok (split_key Lf cursor.cell_num key value 13) := by
    rw [get_node_max_key_leaf N htN (by rw [hnN]; decide) (by rw [hnN]; decide), hnN]
    exact congrArg Except.ok (hkN 6 (by decide))
  -- the parent as `internal_node_insert` finds it
  rw [show read_u32 O (leaf_node_key 6) = split_key Lf cursor.cell_num key value 6 from
    hkO 6 (by decide)] at hpeek3
  have hpo' : cursor.page_num ≠ par := fun h => hpo h.symm
  have hLp : L ≠ par := by omega
  have h3par : table3.pager.peek par
      = write_u32 Q (internal_node_key p) (split_key Lf cursor.cell_num key value 6) := by
    rw [hpeek3, Function.update_same]
  have h3oth : ∀ m, m ≠ par → table3.pager.peek m = pager1.peek m := by
    intro m hm
    rw [hpeek3, Function.update_noteq hm]
  have hkeyoff : internal_node_key p = 18 + p * 8 := by
    unfold internal_node_key
    rw [internal_node_cell_eq p (by omega)]
    simp only [INTERNAL_NODE_CHILD_SIZE_eq]
    omega
  have hQ1b : ∀ off, off < 14 →
      write_u32 Q (internal_node_key p) (split_key Lf cursor.cell_num key value 6) off
        = Q off := by
    intro off h
    exact write_u32_outside _ _ _ _ (by rw [hkeyoff]; omega)
  have hQ1K : internal_node_num_keys
      (write_u32 Q (internal_node_key p) (split_key Lf cursor.cell_num key value 6)) = K := by
    rw [← hKdef]
    unfold internal_node_num_keys
    apply read_u32_congr
    intro j hj
    exact hQ1b _ (by simp only [INTERNAL_NODE_NUM_KEYS_OFFSET_eq]; omega)
  have hQ1r : internal_node_right_child
      (write_u32 Q (internal_node_key p) (split_key Lf cursor.cell_num key value 6)) = r := by
    rw [← hrdef]
    unfold internal_node_right_child
    apply read_u32_congr
    intro j hj
    exact hQ1b _ (by simp only [INTERNAL_NODE_RIGHT_CHILD_OFFSET_eq]; omega)
  have hkmx : get_node_max_key (table3.pager.peek r)
      = .ok (if r = cursor.page_num then split_key Lf cursor.cell_num key value 6 else km) := by
    rw [h3oth r hrp]
    by_cases hro : r = cursor.page_num
    · rw [if_pos hro, hro, hOdef, hOmax]
    · rw [if_neg hro, hoth1 r hro (by omega)]
      exact hkm hro
  obtain ⟨table', idx, hrun, hidx, hidxle, hroot, hoth, hnum, hhd, hthen, helse⟩ :=
    internal_node_insert_spec table3 par L (split_key Lf cursor.cell_num key value 13)
      (if r = cursor.page_num then split_key Lf cursor.cell_num key value 6 else km)
      (by omega) hfull
      (by rw [h3par, hQ1r]; omega)
      (by rw [h3par, hQ1r]; exact hrp)
      (by rw [h3par, hQ1K]; exact hK)
      (by rw [h3oth L hLp, hNdef]; exact hNmax)
      (by rw [h3par, hQ1r]; exact hkmx)
  rw [h3par] at hidx hidxle hnum hhd hthen helse
  rw [hQ1K] at hidxle hnum hthen helse
  rw [hQ1r] at hthen helse
  have hO' : table'.pager.peek cursor.page_num = O := by
    rw [hoth _ hpo', h3oth _ hpo', hOdef]
  have hN' : table'.pager.peek L = N := by
    rw [hoth _ hLp, h3oth _ hLp, hNdef]
  refine ⟨table', p, idx, _, _, ?_, ?_, hp, hple, rfl, hidx, hidxle, rfl, ?_, ?_, ?_, ?_, ?_, ?_,
    ?_, hnum, ?_, hthen, helse⟩
  · rw [hsplit, hrun]
  · rw [hroot, hroot3]
  · rw [hO']; exact hnO
  · rw [hN']; exact hnN
  · rw [hO']; exact hkO
  · rw [hN']; exact hkN
  · rw [hO']; exact hOmax
  · rw [hN']; exact hNmax
  · intro m m1 m2 m3
    rw [hoth m m3, h3oth m m3, hoth1 m m1 m2]
  · intro off hoff
    rw [hhd off hoff]
    exact hQ1b off (by simp only [COMMON_NODE_HEADER_SIZE_eq] at hoff; omega)

/-- The fourteen keys of a split ascend strictly when the old keys do and the cursor is at
the sorted place of an absent key. -/
theorem split_key_ascending (Lf : Page) (c key : Nat) (value : Row) (hkey : key < U32)
    (hc : c ≤ 13)
    (hasc : ∀ i j, i < j → j < 13 →
      read_u32 Lf (leaf_node_key i) < read_u32 Lf (leaf_node_key j))
    (hlo : ∀ i < c, read_u32 Lf (leaf_node_key i) < key)
    (hhi : ∀ i, c ≤ i → i < 13 → key < read_u32 Lf (leaf_node_key i)) :
    ∀ i j, i < j → j ≤ 13 → split_key Lf c key value i < split_key Lf c key value j := by
  intro i j hij hj
  rw [split_key_eq _ _ _ _ i hkey, split_key_eq _ _ _ _ j hkey]
  split_ifs <;>
    first
    | omega
    | exact hasc _ _ (by omega) (by omega)
    | exact hlo _ (by omega)
    | exact hhi _ (by omega) (by omega)

theorem split_key_lt (Lf : Page) (c key : Nat) (value : Row) (i : Nat) :
    split_key Lf c key value i < U32 := read_u32_lt _ _

theorem internal_cell_reads (X Y : Page) (i k : Nat)
    (h : ∀ j < INTERNAL_NODE_CELL_SIZE, X (internal_node_cell i + j) = Y (internal_node_cell k + j)) :
    read_u32 X (internal_node_cell i) = read_u32 Y (internal_node_cell k)
    ∧ read_u32 X (internal_node_key i) = read_u32 Y (internal_node_key k) := by
  simp only [INTERNAL_NODE_CELL_SIZE_eq] at h
  constructor
  · unfold read_u32
    have h0 := h 0 (by omega)
    rw [Nat.add_zero, Nat.add_zero] at h0
    rw [h0, h 1 (by omega), h 2 (by omega), h 3 (by omega)]
  · unfold internal_node_key read_u32
    simp only [INTERNAL_NODE_CHILD_SIZE_eq]
    have h4 := h 4 (by omega)
    have h5 := h 5 (by omega)
    have h6 := h 6 (by omega)
    have h7 := h 7 (by omega)
    simp only [Nat.add_assoc] at h5 h6 h7 ⊢
    rw [h4, h5, h6, h7]

theorem key_slot_write_cell (Q : Page) (p v i : Nat) (hp : p ≤ 509) (hi : i ≤ 509) :
    read_u32 (write_u32 Q (internal_node_key p) v) (internal_node_cell i)
      = read_u32 Q (internal_node_cell i) := by
  apply read_u32_write_u32_other
  unfold internal_node_key
  rw [internal_node_cell_eq p hp, internal_node_cell_eq i hi]
  simp only [INTERNAL_NODE_CHILD_SIZE_eq]
  omega

theorem key_slot_write_key (Q : Page) (p v i : Nat) (hp : p ≤ 509) (hi : i ≤ 509)
    (hv : v < U32) :
    read_u32 (write_u32 Q (internal_node_key p) v) (internal_node_key i)
      = if i = p then v else read_u32 Q (internal_node_key i) := by
  by_cases h : i = p
  · rw [if_pos h, h, read_u32_write_u32, Nat.mod_eq_of_lt hv]
  · rw [if_neg h]
    apply read_u32_write_u32_other
    unfold internal_node_key
    rw [internal_node_cell_eq p hp, internal_node_cell_eq i hi]
    simp only [INTERNAL_NODE_CHILD_SIZE_eq]
    omega

/-- C20, counterexample to the claim as it stands. The tree of `full_leaf_table` meets the
invariants: the root has one key, 26, the largest key of its cell child on page 1, a full
non-root leaf with the ascending keys 2, 4, ..., 26, and the keys 40, 41 of the right child on
page 2 are greater.  The key 50 is absent and cell 13 is its sorted place in the leaf on
page 1.  The split returns with the root keys 14, 41 over the children 1, 2 and the new leaf
on page 3 as right child, whose first key 16 is not greater than the last separator 41. -/
theorem split_with_key_above_right_child_breaks_order :
    (get_node_type (full_leaf_table.pager.peek 0) = NODE_INTERNAL
      ∧ internal_node_num_keys (full_leaf_table.pager.peek 0) = 1
      ∧ internal_children (full_leaf_table.pager.peek 0) = [1, 2]
      ∧ read_u32 (full_leaf_table.pager.peek 0) (internal_node_key 0) = 26
      ∧ get_node_type (full_leaf_table.pager.peek 1) = NODE_LEAF
      ∧ is_node_root (full_leaf_table.pager.peek 1) = false
      ∧ node_parent (full_leaf_table.pager.peek 1) = 0
      ∧ leaf_keys (full_leaf_table.pager.peek 1)
          = [2, 4, 6, 8, 10, 12, 14, 16, 18, 20, 22, 24, 26]
      ∧ get_node_type (full_leaf_table.pager.peek 2) = NODE_LEAF
      ∧ leaf_keys (full_leaf_table.pager.peek 2) = [40, 41])
    ∧ ∃ table', leaf_node_split_and_insert full_leaf_table ⟨1, 13, some false⟩ 50
          (example_row 50) = .ok table'
        ∧ internal_node_num_keys (table'.pager.peek 0) = 2
        ∧ read_u32 (table'.pager.peek 0) (internal_node_cell 0) = 1
        ∧ read_u32 (table'.pager.peek 0) (internal_node_key 0) = 14
        ∧ read_u32 (table'.pager.peek 0) (internal_node_cell 1) = 2
        ∧ read_u32 (table'.pager.peek 0) (internal_node_key 1) = 41
        ∧ internal_node_right_child (table'.pager.peek 0) = 3
        ∧ read_u32 (table'.pager.peek 3) (leaf_node_key 0) = 16
        ∧ ¬ read_u32 (table'.pager.peek 0) (internal_node_key 1)
            < read_u32 (table'.pager.peek 3) (leaf_node_key 0) := by
  refine ⟨by decide!, ?_⟩
  have hK1 : internal_node_num_keys (full_leaf_table.pager.peek 0) = 1 := by decide!
  have h50 : (50 : Nat) < U32 := by decide!
  obtain ⟨table', p, idx, kmx, Q1, hrun, _, hp, _, hQ1, _, _, hkmx, _, _, _, hkN, _, _, _,
      hnum, _, hthen, _⟩ :=
    leaf_node_split_nonroot_spec full_leaf_table ⟨1, 13, some false⟩ 50 (example_row 50)
      (full_leaf_table.pager.peek 1) (full_leaf_table.pager.peek 0) 0 2 41
      rfl (by decide!) rfl (by decide!) (by decide!) (by decide!) (by decide!) (by decide!)
      (by decide!) (by decide!) (by decide!) (by decide!) (by decide!) (by decide!) (by decide!)
      (fun _ => by
        rw [get_node_max_key_leaf _ (by decide!) (by decide!) (by decide!)]
        exact congrArg Except.ok (by decide!))
  have h : internal_node_find_child (full_leaf_table.pager.peek 0)
      (read_u32 (full_leaf_table.pager.peek 1) (leaf_node_key 12)) = .ok 0 :=
    internal_node_find_child_at _ _ 0 (by rw [hK1]; decide!)
      (fun a b hab hb => by rw [hK1] at hb; omega) (Nat.zero_le _)
      (fun a ha => absurd ha (Nat.not_lt_zero a))
      (fun a _ ha => by
        rw [hK1] at ha
        have : a = 0 := by omega
        subst this
        decide!)
  rw [h] at hp
  injection hp with hp
  have hp0 : p = 0 := hp.symm
  clear hp
  subst hp0
  have hk13 : split_key (full_leaf_table.pager.peek 1) 13 50 (example_row 50) 13 = 50 := by
    rw [split_key_eq _ _ _ _ _ h50, if_pos rfl]
  have hk6 : split_key (full_leaf_table.pager.peek 1) 13 50 (example_row 50) 6 = 14 := by
    rw [split_key_eq _ _ _ _ _ h50, if_neg (by decide!), if_neg (by decide!)]
    decide!
  have hk7 : split_key (full_leaf_table.pager.peek 1) 13 50 (example_row 50) 7 = 16 := by
    rw [split_key_eq _ _ _ _ _ h50, if_neg (by decide!), if_neg (by decide!)]
    decide!
  have hkmx' : kmx = 41 := by
    rw [hkmx]
    exact if_neg (by decide!)
  subst hkmx'
  dsimp only at hrun hnum hthen hkN hk13 hk6 hk7 hQ1
  have hL : full_leaf_table.pager.num_pages = 3 := rfl
  rw [hL] at hkN hthen
  rw [hK1] at hnum hthen
  rw [hk13] at hthen
  rw [hk6] at hQ1
  obtain ⟨hcells, hc1, hk1, hrc⟩ := hthen (by decide!)
  obtain ⟨hc0, hk0⟩ := internal_cell_reads _ _ 0 0 (hcells 0 (by decide!))
  have hN0 := hkN 0 (by decide!)
  rw [show LEAF_NODE_LEFT_SPLIT_COUNT + 0 = 7 from rfl, hk7] at hN0
  refine ⟨table', hrun, hnum, ?_, ?_, hc1, hk1, hrc, hN0, ?_⟩
  · rw [hc0, hQ1, key_slot_write_cell _ _ _ _ (by decide!) (by decide!)]
    decide!
  · rw [hk0, hQ1, key_slot_write_key _ _ _ _ (by decide!) (by decide!) (by decide!), if_pos rfl]
  · rw [hk1, hN0]
    decide!

theorem key_slot_write_num_keys (Q : Page) (p v : Nat) (hp : p ≤ 509) :
    internal_node_num_keys (write_u32 Q (internal_node_key p) v) = internal_node_num_keys Q := by
  unfold internal_node_num_keys
  apply read_u32_write_u32_other
  unfold internal_node_key
  rw [internal_node_cell_eq p hp]
  simp only [INTERNAL_NODE_CHILD_SIZE_eq, INTERNAL_NODE_NUM_KEYS_OFFSET_eq]
  omega

/-- The split of a full non-root leaf that is child `p` of a parent with ascending keys, for
an absent key at its sorted place that is smaller than the largest key of the leaf when the
leaf is a cell child: the parent afterwards. -/
theorem leaf_node_split_ordered_spec (table : Table) (cursor : Cursor) (key : Nat)
    (value : Row) (Lf Q Rf : Page) (par r p : Nat)
    (hLf : table.pager.peek cursor.page_num = Lf)
    (hparN : node_parent Lf = par)
    (hQ : table.pager.peek par = Q)
    (hrN : internal_node_right_child Q = r)
    (hRf : table.pager.peek r = Rf)
    (hold : cursor.page_num < table.pager.num_pages)
    (hfull : table.pager.num_pages < TABLE_MAX_PAGES)
    (hpar : par < table.pager.num_pages)
    (hpo : par ≠ cursor.page_num)
    (hr : r < table.pager.num_pages)
    (hrp : r ≠ par)
    (hleaf : get_node_type Lf = NODE_LEAF)
    (hnr : is_node_root Lf = false)
    (hn : leaf_node_num_cells Lf = LEAF_NODE_MAX_CELLS)
    (hasc : ∀ i j, i < j → j < LEAF_NODE_MAX_CELLS →
      read_u32 Lf (leaf_node_key i) < read_u32 Lf (leaf_node_key j))
    (hkey : key < U32)
    (hc : cursor.cell_num ≤ LEAF_NODE_MAX_CELLS)
    (hlo : ∀ i < cursor.cell_num, read_u32 Lf (leaf_node_key i) < key)
    (hhi : ∀ i, cursor.cell_num ≤ i → i < LEAF_NODE_MAX_CELLS →
      key < read_u32 Lf (leaf_node_key i))
    (hK : internal_node_num_keys Q < INTERNAL_NODE_MAX_CELLS)
    (hpasc : ∀ a b, a < b → b < internal_node_num_keys Q →
      read_u32 Q (internal_node_key a) < read_u32 Q (internal_node_key b))
    (hp : p ≤ internal_node_num_keys Q)
    (hbelow : ∀ a < p, read_u32 Q (internal_node_key a) < read_u32 Lf (leaf_node_key 0))
    (hcellc : p < internal_node_num_keys Q →
      read_u32 Q (internal_node_cell p) = cursor.page_num
      ∧ read_u32 Q (internal_node_key p) = read_u32 Lf (leaf_node_key 12)
      ∧ key < read_u32 Lf (leaf_node_key 12)
      ∧ r ≠ cursor.page_num
      ∧ get_node_type Rf = NODE_LEAF
      ∧ 1 ≤ leaf_node_num_cells Rf
      ∧ leaf_node_num_cells Rf ≤ LEAF_NODE_MAX_CELLS
      ∧ ∀ j < leaf_node_num_cells Rf,
          read_u32 Q (internal_node_key (internal_node_num_keys Q - 1))
            < read_u32 Rf (leaf_node_key j))
    (hright : p = internal_node_num_keys Q → r = cursor.page_num) :
    ∃ table', leaf_node_split_and_insert table cursor key value = .ok table'
      ∧ internal_node_num_keys (table'.pager.peek par) = internal_node_num_keys Q + 1
      ∧ (∀ a b, a < b → b < internal_node_num_keys Q + 1 →
          read_u32 (table'.pager.peek par) (internal_node_key a)
            < read_u32 (table'.pager.peek par) (internal_node_key b))
      ∧ read_u32 (table'.pager.peek par) (internal_node_cell p) = cursor.page_num
      ∧ get_node_max_key (table'.pager.peek cursor.page_num)
          = .ok (read_u32 (table'.pager.peek par) (internal_node_key p))
      ∧ (p < internal_node_num_keys Q →
          read_u32 (table'.pager.peek par) (internal_node_cell (p + 1)) = table.pager.num_pages
          ∧ get_node_max_key (table'.pager.peek table.pager.num_pages)
              = .ok (read_u32 (table'.pager.peek par) (internal_node_key (p + 1)))
          ∧ internal_node_right_child (table'.pager.peek par) = r
          ∧ table'.pager.peek r = Rf
          ∧ ∀ j < leaf_node_num_cells Rf,
              read_u32 (table'.pager.peek par) (internal_node_key (internal_node_num_keys Q))
                < read_u32 Rf (leaf_node_key j))
      ∧ (p = internal_node_num_keys Q →
          internal_node_right_child (table'.pager.peek par) = table.pager.num_pages
          ∧ ∀ j < LEAF_NODE_RIGHT_SPLIT_COUNT,
              read_u32 (table'.pager.peek par) (internal_node_key (internal_node_num_keys Q))
                < read_u32 (table'.pager.peek table.pager.num_pages) (leaf_node_key j))
      ∧ (∀ a < p,
          read_u32 (table'.pager.peek par) (internal_node_cell a)
            = read_u32 Q (internal_node_cell a)
          ∧ read_u32 (table'.pager.peek par) (internal_node_key a)
            = read_u32 Q (internal_node_key a))
      ∧ (∀ a, p < a → a < internal_node_num_keys Q →
          read_u32 (table'.pager.peek par) (internal_node_cell (a + 1))
            = read_u32 Q (internal_node_cell a)
          ∧ read_u32 (table'.pager.peek par) (internal_node_key (a + 1))
            = read_u32 Q (internal_node_key a))
      ∧ leaf_node_num_cells (table'.pager.peek cursor.page_num) = LEAF_NODE_LEFT_SPLIT_COUNT
      ∧ leaf_node_num_cells (table'.pager.peek table.pager.num_pages)
          = LEAF_NODE_RIGHT_SPLIT_COUNT
      ∧ (∀ i < LEAF_NODE_LEFT_SPLIT_COUNT,
          read_u32 (table'.pager.peek cursor.page_num) (leaf_node_key i)
            = split_key Lf cursor.cell_num key value i)
      ∧ (∀ i < LEAF_NODE_RIGHT_SPLIT_COUNT,
          read_u32 (table'.pager.peek table.pager.num_pages) (leaf_node_key i)
            = split_key Lf cursor.cell_num key value (LEAF_NODE_LEFT_SPLIT_COUNT + i))
      ∧ (∀ i j, i < j → j ≤ LEAF_NODE_MAX_CELLS →
          split_key Lf cursor.cell_num key value i < split_key Lf cursor.cell_num key value j)
      ∧ (∀ m, m ≠ cursor.page_num → m ≠ table.pager.num_pages → m ≠ par →
          table'.pager.peek m = table.pager.peek m) := by
  have h13 : LEAF_NODE_MAX_CELLS = 13 := rfl
  rw [h13] at hasc hhi hc
  have hK3 : internal_node_num_keys Q < 3 := by simpa using hK
  have hkm : r ≠ cursor.page_num → get_node_max_key (table.pager.peek r)
      = .ok (read_u32 Rf (leaf_node_key (leaf_node_num_cells Rf - 1))) := by
    intro hro
    have hpK : p < internal_node_num_keys Q := by
      rcases Nat.lt_or_ge p (internal_node_num_keys Q) with h | h
      · exact h
      · exact absurd (hright (by omega)) hro
    obtain ⟨_, _, _, _, hRt, hR1, hR13, _⟩ := hcellc hpK
    rw [hRf]
    exact get_node_max_key_leaf Rf hRt hR1 hR13
  obtain ⟨table', p0, idx, kmx, Q1, hrun, _, hp0, _, hQ1, hidx, _, hkmx, hnO, hnN, hkO, hkN,
      hmaxO, hmaxN, hoth, hnum, _, hthen, helse⟩ :=
    leaf_node_split_nonroot_spec table cursor key value Lf Q par r
      (read_u32 Rf (leaf_node_key (leaf_node_num_cells Rf - 1)))
      hLf hparN hQ hrN hold hfull hleaf hn (by rw [h13]; exact hc) hnr hpar hpo hK hr hrp hkm
  have hV := split_key_ascending Lf cursor.cell_num key value hkey hc hasc hlo hhi
  refine ⟨table', hrun, ?_⟩
  generalize hvk : split_key Lf cursor.cell_num key value = vk at *
  generalize hQ' : table'.pager.peek par = Q' at *
  generalize hKdef : internal_node_num_keys Q = K at *
  generalize hLdef : table.pager.num_pages = L at *
  -- the keys 6 and 13 of the split
  have hv6lo : read_u32 Lf (leaf_node_key 0) ≤ vk 6 := by
    rw [← hvk, split_key_eq _ _ _ _ _ hkey]
    split_ifs with h1 h2
    · exact Nat.le_of_lt (hlo 0 (by omega))
    · exact Nat.le_of_lt (hasc 0 5 (by omega) (by omega))
    · exact Nat.le_of_lt (hasc 0 6 (by omega) (by omega))
  have hv6u : vk 6 < U32 := by rw [← hvk]; exact split_key_lt _ _ _ _ _
  have h012 : read_u32 Lf (leaf_node_key 0) < read_u32 Lf (leaf_node_key 12) :=
    hasc 0 12 (by omega) (by omega)
  -- the slot `update_internal_node_key` writes is that of the leaf
  have hp0p : p0 = p := by
    have h := internal_node_find_child_at Q (read_u32 Lf (leaf_node_key 12)) p
      (by rw [hKdef]; omega) (by rw [hKdef]; exact hpasc) (by rw [hKdef]; exact hp)
      (fun a ha => Nat.lt_trans (hbelow a ha) h012)
      (fun a h1 h2 => by
        rw [hKdef] at h2
        obtain ⟨_, hsep, _⟩ := hcellc (by omega)
        rcases Nat.lt_or_ge p a with h | h
        · rw [← hsep]
          exact Nat.le_of_lt (hpasc p a h h2)
        · have : a = p := by omega
          rw [this, hsep])
    rw [h] at hp0
    injection hp0 with hp0
    exact hp0.symm
  subst hp0p
  have hQ1key : ∀ i, i ≤ 3 → read_u32 Q1 (internal_node_key i)
      = if i = p0 then vk 6 else read_u32 Q (internal_node_key i) := by
    intro i hi
    rw [hQ1]
    exact key_slot_write_key Q p0 _ i (by omega) (by omega) hv6u
  have hQ1cell : ∀ i, i ≤ 3 → read_u32 Q1 (internal_node_cell i)
      = read_u32 Q (internal_node_cell i) := by
    intro i hi
    rw [hQ1]
    exact key_slot_write_cell Q p0 _ i (by omega) (by omega)
  refine ⟨hnum, ?_⟩
  by_cases hpK : p0 < K
  · -- the leaf is a cell child
    obtain ⟨hch, hsep, hkeylt, hro, hRt, hR1, hR13, hRk⟩ := hcellc hpK
    have hc12 : cursor.cell_num ≤ 12 := by
      by_contra hcon
      have := hlo 12 (by omega)
      omega
    have hv13 : vk 13 = read_u32 Lf (leaf_node_key 12) := by
      rw [← hvk, split_key_eq _ _ _ _ _ hkey, if_neg (by omega), if_pos (by omega)]
    have hv613 : vk 6 < vk 13 := hV 6 13 (by omega) (by omega)
    have hkmx' : kmx = read_u32 Rf (leaf_node_key (leaf_node_num_cells Rf - 1)) := by
      rw [hkmx, if_neg hro]
    have hlast : read_u32 Q (internal_node_key p0) ≤ read_u32 Q (internal_node_key (K - 1)) := by
      rcases Nat.lt_or_ge p0 (K - 1) with h | h
      · exact Nat.le_of_lt (hpasc p0 (K - 1) h (by omega))
      · have : p0 = K - 1 := by omega
        rw [← this]
    have hnot : ¬ vk 13 > kmx := by
      have := hRk (leaf_node_num_cells Rf - 1) (by omega)
      rw [hkmx', hv13, ← hsep]
      omega
    have hidx' : idx = p0 + 1 := by
      have h := internal_node_find_child_at Q1 (vk 13) (p0 + 1)
        (by rw [hQ1, key_slot_write_num_keys Q p0 _ (by omega), hKdef]; omega)
        (by
          rw [hQ1, key_slot_write_num_keys Q p0 _ (by omega), hKdef, ← hQ1]
          intro a b hab hb
          rw [hQ1key a (by omega), hQ1key b (by omega)]
          split_ifs with h1 h2 h2
          · omega
          · subst h1
            have := hpasc a b hab hb
            omega
          · subst h2
            have := hbelow a hab
            omega
          · exact hpasc a b hab hb)
        (by rw [hQ1, key_slot_write_num_keys Q p0 _ (by omega), hKdef]; omega)
        (by
          intro a ha
          rw [hQ1key a (by omega)]
          split_ifs with h1
          · exact hv613
          · have := hbelow a (by omega)
            omega)
        (by
          rw [hQ1, key_slot_write_num_keys Q p0 _ (by omega), hKdef, ← hQ1]
          intro a h1 h2
          rw [hQ1key a (by omega), if_neg (by omega), hv13, ← hsep]
          exact Nat.le_of_lt (hpasc p0 a (by omega) h2))
      rw [h] at hidx
      injection hidx with hidx
      exact hidx.symm
    subst hidx'
    obtain ⟨hlow, hshift, hcidx, hkidx, hrc⟩ := helse hnot
    -- the cells of the parent
    have hlowr : ∀ a, a < p0 + 1 →
        read_u32 Q' (internal_node_cell a) = read_u32 Q (internal_node_cell a)
        ∧ read_u32 Q' (internal_node_key a)
            = if a = p0 then vk 6 else read_u32 Q (internal_node_key a) := by
      intro a ha
      obtain ⟨h1, h2⟩ := internal_cell_reads Q' Q1 a a (hlow a ha)
      rw [h1, h2, hQ1cell a (by omega), hQ1key a (by omega)]
      exact ⟨rfl, rfl⟩
    have hshiftr : ∀ a, p0 < a → a < K →
        read_u32 Q' (internal_node_cell (a + 1)) = read_u32 Q (internal_node_cell a)
        ∧ read_u32 Q' (internal_node_key (a + 1)) = read_u32 Q (internal_node_key a) := by
      intro a h1 h2
      obtain ⟨e1, e2⟩ := internal_cell_reads Q' Q1 (a + 1) a (hshift a (by omega) h2)
      rw [e1, e2, hQ1cell a (by omega), hQ1key a (by omega), if_neg (by omega)]
      exact ⟨rfl, rfl⟩
    have hkp : read_u32 Q' (internal_node_key p0) = vk 6 := by
      rw [(hlowr p0 (by omega)).2, if_pos rfl]
    have hkey' : ∀ a, a < K + 1 → read_u32 Q' (internal_node_key a)
        = if a < p0 then read_u32 Q (internal_node_key a)
          else if a = p0 then vk 6
          else if a = p0 + 1 then read_u32 Q (internal_node_key p0)
          else read_u32 Q (internal_node_key (a - 1)) := by
      intro a ha
      split_ifs with h1 h2 h3
      · rw [(hlowr a (by omega)).2, if_neg (by omega)]
      · rw [h2]; exact hkp
      · rw [h3, hkidx, hv13, hsep]
      · have := (hshiftr (a - 1) (by omega) (by omega)).2
        rw [show a - 1 + 1 = a from by omega] at this
        exact this
    refine ⟨?_, ?_, ?_, ?_, ?_, ?_, ?_, hnO, hnN, hkO, hkN, ?_, hoth⟩
    · intro a b hab hb
      rw [hkey' a (by omega), hkey' b hb]
      have hv6p : vk 6 < read_u32 Q (internal_node_key p0) := by rw [hsep, ← hv13]; exact hv613
      split_ifs <;>
        first
        | omega
        | exact hpasc _ _ (by omega) (by omega)
        | (have hlt9 : _ := hbelow a (by omega); omega)
        | (have hlt9 : _ := hpasc p0 (b - 1) (by omega) (by omega); omega)
    · rw [(hlowr p0 (by omega)).1]
      exact hch
    · rw [hkp]
      exact hmaxO
    · intro _
      refine ⟨hcidx, ?_, hrc, ?_, ?_⟩
      · rw [hkidx]
        exact hmaxN
      · rw [hoth r hro (by omega) hrp, hRf]
      · intro j hj
        rw [hkey' K (by omega)]
        have := hRk j hj
        split_ifs <;> omega
    · intro h
      omega
    · intro a ha
      have := hlowr a (by omega)
      rw [if_neg (by omega)] at this
      exact this
    · exact hshiftr
    · intro i j hij hj
      exact hV i j hij (by rw [h13] at hj; exact hj)
  · -- the leaf is the right child
    have hpK' : p0 = K := by omega
    have hro := hright hpK'
    have hkmx' : kmx = vk 6 := by rw [hkmx, if_pos hro]
    have hv613 : vk 6 < vk 13 := hV 6 13 (by omega) (by omega)
    obtain ⟨hcells, hcK, hkK, hrc⟩ := hthen (by rw [hkmx']; exact hv613)
    have hlowr : ∀ a, a < K →
        read_u32 Q' (internal_node_cell a) = read_u32 Q (internal_node_cell a)
        ∧ read_u32 Q' (internal_node_key a) = read_u32 Q (internal_node_key a) := by
      intro a ha
      obtain ⟨h1, h2⟩ := internal_cell_reads Q' Q1 a a (hcells a ha)
      rw [h1, h2, hQ1cell a (by omega), hQ1key a (by omega), if_neg (by omega)]
      exact ⟨rfl, rfl⟩
    rw [hkmx'] at hkK
    refine ⟨?_, ?_, ?_, ?_, ?_, ?_, ?_, hnO, hnN, hkO, hkN, ?_, hoth⟩
    · intro a b hab hb
      rcases Nat.lt_or_ge b K with h | h
      · rw [(hlowr a (by omega)).2, (hlowr b h).2]
        exact hpasc a b hab h
      · have hbK : b = K := by omega
        rw [hbK, hkK, (hlowr a (by omega)).2]
        have := hbelow a (by omega)
        omega
    · rw [hpK', hcK]
      exact hro
    · rw [hpK', hkK]
      exact hmaxO
    · intro h
      omega
    · intro _
      refine ⟨hrc, ?_⟩
      intro j hj
      rw [hkK, hkN j hj]
      exact hV 6 _ (by simp only [LEAF_NODE_LEFT_SPLIT_COUNT_eq]; omega)
        (by simp only [LEAF_NODE_LEFT_SPLIT_COUNT_eq, LEAF_NODE_RIGHT_SPLIT_COUNT_eq] at hj ⊢
            omega)
    · intro a ha
      exact hlowr a (by omega)
    · intro a h1 h2
      omega
    · intro i j hij hj
      exact hV i j hij (by rw [h13] at hj; exact hj)

/-- C20, with the hypothesis the claim lacks. Non-root leaf split keeps the parent ordered:
for a parent `Q` with `K < INTERNAL_NODE_MAX_CELLS` strictly ascending keys, a full non-root
leaf `Lf` with strictly ascending keys that is child `p` of `Q` (cell `p`, with separator
equal to its largest key, when `p < K`; the right child when `p = K`), the separators before
`p` below the keys of the leaf, a right child `Rf` whose keys are above the last separator,
and an absent key at its sorted place in the leaf that, when the leaf is a cell child, is
smaller than the largest key of the leaf: `leaf_node_split_and_insert` returns; the parent
has `K + 1` strictly ascending keys; cell `p` is the old leaf with its new largest key as
separator; the new leaf on page `num_pages` follows it, as cell `p + 1` with its largest key
as separator when `p < K` and as right child when `p = K`; the other cells keep their child
and key, those behind `p` one slot to the right; every key of the right child is greater
than the last separator. -/
theorem nonroot_leaf_split_keeps_parent_ordered (table : Table) (cursor : Cursor) (key : Nat)
    (value : Row) (Lf Q Rf : Page) (par r p : Nat)
    (hLf : table.pager.peek cursor.page_num = Lf)
    (hparN : node_parent Lf = par)
    (hQ : table.pager.peek par = Q)
    (hrN : internal_node_right_child Q = r)
    (hRf : table.pager.peek r = Rf)
    (hold : cursor.page_num < table.pager.num_pages)
    (hfull : table.pager.num_pages < TABLE_MAX_PAGES)
    (hpar : par < table.pager.num_pages)
    (hpo : par ≠ cursor.page_num)
    (hr : r < table.pager.num_pages)
    (hrp : r ≠ par)
    (hleaf : get_node_type Lf = NODE_LEAF)
    (hnr : is_node_root Lf = false)
    (hn : leaf_node_num_cells Lf = LEAF_NODE_MAX_CELLS)
    (hasc : ∀ i j, i < j → j < LEAF_NODE_MAX_CELLS →
      read_u32 Lf (leaf_node_key i) < read_u32 Lf (leaf_node_key j))
    (hkey : key < U32)
    (hc : cursor.cell_num ≤ LEAF_NODE_MAX_CELLS)
    (hlo : ∀ i < cursor.cell_num, read_u32 Lf (leaf_node_key i) < key)
    (hhi : ∀ i, cursor.cell_num ≤ i → i < LEAF_NODE_MAX_CELLS →
      key < read_u32 Lf (leaf_node_key i))
    (hK : internal_node_num_keys Q < INTERNAL_NODE_MAX_CELLS)
    (hpasc : ∀ a b, a < b → b < internal_node_num_keys Q →
      read_u32 Q (internal_node_key a) < read_u32 Q (internal_node_key b))
    (hp : p ≤ internal_node_num_keys Q)
    (hbelow : ∀ a < p, read_u32 Q (internal_node_key a) < read_u32 Lf (leaf_node_key 0))
    (hcellc : p < internal_node_num_keys Q →
      read_u32 Q (internal_node_cell p) = cursor.page_num
      ∧ read_u32 Q (internal_node_key p) = read_u32 Lf (leaf_node_key 12)
      ∧ key < read_u32 Lf (leaf_node_key 12)
      ∧ r ≠ cursor.page_num
      ∧ get_node_type Rf = NODE_LEAF
      ∧ 1 ≤ leaf_node_num_cells Rf
      ∧ leaf_node_num_cells Rf ≤ LEAF_NODE_MAX_CELLS
      ∧ ∀ j < leaf_node_num_cells Rf,
          read_u32 Q (internal_node_key (internal_node_num_keys Q - 1))
            < read_u32 Rf (leaf_node_key j))
    (hright : p = internal_node_num_keys Q → r = cursor.page_num) :
    ∃ table', leaf_node_split_and_insert table cursor key value = .ok table'
      ∧ internal_node_num_keys (table'.pager.peek par) = internal_node_num_keys Q + 1
      ∧ (∀ a b, a < b → b < internal_node_num_keys Q + 1 →
          read_u32 (table'.pager.peek par) (internal_node_key a)
            < read_u32 (table'.pager.peek par) (internal_node_key b))
      ∧ read_u32 (table'.pager.peek par) (internal_node_cell p) = cursor.page_num
      ∧ get_node_max_key (table'.pager.peek cursor.page_num)
          = .ok (read_u32 (table'.pager.peek par) (internal_node_key p))
      ∧ (p < internal_node_num_keys Q →
          read_u32 (table'.pager.peek par) (internal_node_cell (p + 1)) = table.pager.num_pages
          ∧ get_node_max_key (table'.pager.peek table.pager.num_pages)
              = .ok (read_u32 (table'.pager.peek par) (internal_node_key (p + 1)))
          ∧ internal_node_right_child (table'.pager.peek par) = r
          ∧ table'.pager.peek r = Rf
          ∧ ∀ j < leaf_node_num_cells Rf,
              read_u32 (table'.pager.peek par) (internal_node_key (internal_node_num_keys Q))
                < read_u32 Rf (leaf_node_key j))
      ∧ (p = internal_node_num_keys Q →
          internal_node_right_child (table'.pager.peek par) = table.pager.num_pages
          ∧ ∀ j < LEAF_NODE_RIGHT_SPLIT_COUNT,
              read_u32 (table'.pager.peek par) (internal_node_key (internal_node_num_keys Q))
                < read_u32 (table'.pager.peek table.pager.num_pages) (leaf_node_key j))
      ∧ (∀ a < p,
          read_u32 (table'.pager.peek par) (internal_node_cell a)
            = read_u32 Q (internal_node_cell a)
          ∧ read_u32 (table'.pager.peek par) (internal_node_key a)
            = read_u32 Q (internal_node_key a))
      ∧ (∀ a, p < a → a < internal_node_num_keys Q →
          read_u32 (table'.pager.peek par) (internal_node_cell (a + 1))
            = read_u32 Q (internal_node_cell a)
          ∧ read_u32 (table'.pager.peek par) (internal_node_key (a + 1))
            = read_u32 Q (internal_node_key a))
      ∧ leaf_node_num_cells (table'.pager.peek cursor.page_num) = LEAF_NODE_LEFT_SPLIT_COUNT
      ∧ leaf_node_num_cells (table'.pager.peek table.pager.num_pages)
          = LEAF_NODE_RIGHT_SPLIT_COUNT
      ∧ (∀ i < LEAF_NODE_LEFT_SPLIT_COUNT,
          read_u32 (table'.pager.peek cursor.page_num) (leaf_node_key i)
            = split_key Lf cursor.cell_num key value i)
      ∧ (∀ i < LEAF_NODE_RIGHT_SPLIT_COUNT,
          read_u32 (table'.pager.peek table.pager.num_pages) (leaf_node_key i)
            = split_key Lf cursor.cell_num key value (LEAF_NODE_LEFT_SPLIT_COUNT + i))
      ∧ (∀ i j, i < j → j ≤ LEAF_NODE_MAX_CELLS →
          split_key Lf cursor.cell_num key value i < split_key Lf cursor.cell_num key value j)
      ∧ (∀ m, m ≠ cursor.page_num → m ≠ table.pager.num_pages → m ≠ par →
          table'.pager.peek m = table.pager.peek m) :=
  leaf_node_split_ordered_spec table cursor key value Lf Q Rf par r p
    hLf hparN hQ hrN hRf hold hfull hpar hpo hr hrp hleaf hnr
    hn hasc hkey hc hlo hhi hK hpasc hp hbelow hcellc hright

/-- C20, at `full_leaf_table` with the cursor on cell 2 of the full leaf on page 1 (keys 2,
4, ..., 26, cell child 0 of the root with separator 26) and the absent key 5: the split
returns, the root has the keys 12 and 26 over the old leaf on page 1 and the new leaf on
page 3, and the right child on page 2 is unchanged. -/
theorem nonroot_leaf_split_keeps_parent_ordered_witness :
    (get_node_type (full_leaf_table.pager.peek 1) = NODE_LEAF
      ∧ is_node_root (full_leaf_table.pager.peek 1) = false
      ∧ leaf_node_num_cells (full_leaf_table.pager.peek 1) = LEAF_NODE_MAX_CELLS
      ∧ node_parent (full_leaf_table.pager.peek 1) = 0
      ∧ internal_node_right_child (full_leaf_table.pager.peek 0) = 2
      ∧ internal_node_num_keys (full_leaf_table.pager.peek 0) = 1
      ∧ read_u32 (full_leaf_table.pager.peek 0) (internal_node_cell 0) = 1
      ∧ read_u32 (full_leaf_table.pager.peek 0) (internal_node_key 0)
          = read_u32 (full_leaf_table.pager.peek 1) (leaf_node_key 12)
      ∧ (∀ i < 2, read_u32 (full_leaf_table.pager.peek 1) (leaf_node_key i) < 5)
      ∧ (∀ i < 13, 2 ≤ i → 5 < read_u32 (full_leaf_table.pager.peek 1) (leaf_node_key i)))
    ∧ ∃ table', leaf_node_split_and_insert full_leaf_table ⟨1, 2, some false⟩ 5 (example_row 5)
          = .ok table'
        ∧ internal_node_num_keys (table'.pager.peek 0)
            = internal_node_num_keys (full_leaf_table.pager.peek 0) + 1
        ∧ (∀ a b, a < b → b < internal_node_num_keys (full_leaf_table.pager.peek 0) + 1 →
            read_u32 (table'.pager.peek 0) (internal_node_key a)
              < read_u32 (table'.pager.peek 0) (internal_node_key b))
        ∧ read_u32 (table'.pager.peek 0) (internal_node_cell 0) = 1
        ∧ read_u32 (table'.pager.peek 0) (internal_node_cell 1) = 3
        ∧ get_node_max_key (table'.pager.peek 1)
            = .ok (read_u32 (table'.pager.peek 0) (internal_node_key 0))
        ∧ get_node_max_key (table'.pager.peek 3)
            = .ok (read_u32 (table'.pager.peek 0) (internal_node_key 1))
        ∧ internal_node_right_child (table'.pager.peek 0) = 2
        ∧ table'.pager.peek 2 = full_leaf_table.pager.peek 2 := by
  have hK1 : internal_node_num_keys (full_leaf_table.pager.peek 0) = 1 := by decide!
  have hasc : ∀ j < 13, ∀ i < j, read_u32 (full_leaf_table.pager.peek 1) (leaf_node_key i)
      < read_u32 (full_leaf_table.pager.peek 1) (leaf_node_key j) := by decide!
  have hhi : ∀ i < 13, 2 ≤ i → 5 < read_u32 (full_leaf_table.pager.peek 1) (leaf_node_key i) :=
    by decide!
  have hlo : ∀ i < 2, read_u32 (full_leaf_table.pager.peek 1) (leaf_node_key i) < 5 := by
    decide!
  have hRk : ∀ j < leaf_node_num_cells (full_leaf_table.pager.peek 2),
      read_u32 (full_leaf_table.pager.peek 0)
          (internal_node_key (internal_node_num_keys (full_leaf_table.pager.peek 0) - 1))
        < read_u32 (full_leaf_table.pager.peek 2) (leaf_node_key j) := by decide!
  have hsep : read_u32 (full_leaf_table.pager.peek 0) (internal_node_key 0)
      = read_u32 (full_leaf_table.pager.peek 1) (leaf_node_key 12) := by decide!
  have hk12 : 5 < read_u32 (full_leaf_table.pager.peek 1) (leaf_node_key 12) := by decide!
  have hmain := nonroot_leaf_split_keeps_parent_ordered full_leaf_table ⟨1, 2, some false⟩ 5
    (example_row 5) (full_leaf_table.pager.peek 1) (full_leaf_table.pager.peek 0)
    (full_leaf_table.pager.peek 2) 0 2 0
    rfl (by decide!) rfl (by decide!) rfl (by decide!) (by decide!) (by decide!) (by decide!)
    (by decide!) (by decide!) (by decide!) (by decide!) (by decide!)
    (fun i j hij hj => hasc j hj i hij) (by decide!) (by decide!) hlo
    (fun i h1 h2 => hhi i h2 h1) (by decide!)
    (fun a b hab hb => by rw [hK1] at hb; omega) (Nat.zero_le _)
    (fun a ha => absurd ha (Nat.not_lt_zero a))
    (fun _ => ⟨by decide!, hsep, hk12, by decide!, by decide!, by decide!, by decide!, hRk⟩)
    (fun h => by rw [hK1] at h; omega)
  obtain ⟨t, h, a1, a2, a3, a4, a5, _⟩ := hmain
  obtain ⟨b1, b2, b3, b4, _⟩ := a5 (by rw [hK1]; omega)
  exact ⟨⟨by decide!, by decide!, by decide!, by decide!, by decide!, hK1, by decide!, hsep,
    hlo, hhi⟩, t, h, a1, a2, a3, b1, a4, b2, b3, b4⟩

/-! ## Capacity -/

/-- The split of a full non-root leaf whose parent holds `INTERNAL_NODE_MAX_CELLS` keys or
more ends in the `exit(EXIT_FAILURE)` of `internal_node_insert`. -/
theorem leaf_node_split_under_full_parent (table : Table) (cursor : Cursor) (key : Nat)
    (value : Row)
    (hold : cursor.page_num < table.pager.num_pages)
    (hfull : table.pager.num_pages < TABLE_MAX_PAGES)
    (hleaf : get_node_type (table.pager.peek cursor.page_num) = NODE_LEAF)
    (hn : leaf_node_num_cells (table.pager.peek cursor.page_num) = LEAF_NODE_MAX_CELLS)
    (hc : cursor.cell_num ≤ LEAF_NODE_MAX_CELLS)
    (hnr : is_node_root (table.pager.peek cursor.page_num) = false)
    (hpar : node_parent (table.pager.peek cursor.page_num) < table.pager.num_pages)
    (hpo : node_parent (table.pager.peek cursor.page_num) ≠ cursor.page_num)
    (h3 : INTERNAL_NODE_MAX_CELLS ≤ internal_node_num_keys
        (table.pager.peek (node_parent (table.pager.peek cursor.page_num))))
    (h509 : internal_node_num_keys
        (table.pager.peek (node_parent (table.pager.peek cursor.page_num))) ≤ 509) :
    leaf_node_split_and_insert table cursor key value = .error .exit_failure := by
  obtain ⟨pager1, p, table3, hrun1, _, hple, _, hpeek3, hsplit⟩ :=
    leaf_node_split_nonroot_run table cursor key value hold hfull hleaf hn hc hnr hpar hpo h509
  obtain ⟨pager1', hrun1', _, _, hnN, _, _, _, htN, _, _⟩ :=
    leaf_node_split_cells_spec table cursor key value hold hfull hleaf hn hc
  rw [hrun1] at hrun1'
  injection hrun1' with hrun1'
  injection hrun1' with hpg _
  subst hpg
  rw [hsplit]
  have hLp : table.pager.num_pages ≠ node_parent (table.pager.peek cursor.page_num) := by
    omega
  have hnum : internal_node_num_keys
      (table3.pager.peek (node_parent (table.pager.peek cursor.page_num)))
      = internal_node_num_keys
          (table.pager.peek (node_parent (table.pager.peek cursor.page_num))) := by
    rw [hpeek3, Function.update_same, key_slot_write_num_keys _ _ _ (by omega)]
  apply internal_node_insert_full table3 _ _
    (read_u32 (pager1.peek table.pager.num_pages) (leaf_node_key 6)) (by omega) hfull
  · rw [hpeek3, Function.update_noteq hLp,
      get_node_max_key_leaf _ htN (by rw [hnN]; decide) (by rw [hnN]; decide), hnN]
    rfl
  · rw [hnum]
    exact h3
  · rw [hnum]
    omega

/-- The split of the full leaf on page 1 of `full_tree_table`, whose root holds three keys
over four leaves, for the key 5 exits. -/
theorem leaf_node_split_under_full_parent_example :
    internal_node_num_keys (full_tree_table.pager.peek 0) = INTERNAL_NODE_MAX_CELLS
    ∧ leaf_node_num_cells (full_tree_table.pager.peek 1) = LEAF_NODE_MAX_CELLS
    ∧ leaf_node_split_and_insert full_tree_table ⟨1, 2, some false⟩ 5 (example_row 5)
        = .error .exit_failure := by
  have hpar : node_parent (full_tree_table.pager.peek 1) = 0 := by decide!
  have hK : internal_node_num_keys (full_tree_table.pager.peek 0) = INTERNAL_NODE_MAX_CELLS := by
    decide!
  have hn : leaf_node_num_cells (full_tree_table.pager.peek 1) = LEAF_NODE_MAX_CELLS := by
    decide!
  refine ⟨hK, hn, ?_⟩
  exact leaf_node_split_under_full_parent full_tree_table ⟨1, 2, some false⟩ 5 (example_row 5)
    (by decide!) (by decide!) (by decide!) hn (by decide!) (by decide!)
    (by rw [hpar]; decide!) (by rw [hpar]; decide!) (by rw [hpar]; exact Nat.le_of_eq hK.symm)
    (by rw [hpar, hK]; decide)

/-- C25 (the code fails the claim). No insert into a freshly created database completes, so
no state with a row in it is reached from there.  On a database file that holds the row 1000,
with `malloc` returning zeroed buffers except for two recycled bytes, the capacity bound does
not hold.  The 34 inserts of `unset_parent_ids` all succeed: the third split is of the leaf on
page 3, whose `parent_page` was never written and reads 5, so its new leaf, page 4, is
entered in page 5 and not in the root; the fourth split, of the leaf on page 1, therefore
finds only two keys in the root and returns, and the pager holds the seven resident pages
0 to 6, five of them leaves (1, 2, 3, 4, 6) with 7 cells each.  The 54 inserts of
`overfull_ids`, pairwise distinct ids, all succeed, more than 52, and leave 55 rows in the
five leaves.  Only the next split under the root, for the id 793, exits. -/
theorem fifth_leaf_and_seventh_page_without_exit :
    (∀ (fresh : Nat → Page) (row : Row) (rows : List Row),
      session File.empty fresh (row :: rows) = .error .undefined)
    ∧ returns (session (seed_file (example_row 1000)) recycled_fresh
          (example_rows unset_parent_ids))
        (fun r => r.2 = List.replicate 34 EXECUTE_SUCCESS
          ∧ r.1.pager.num_pages = 7
          ∧ (List.range 7).map (fun p => (r.1.pager.pages p).isSome) = List.replicate 7 true
          ∧ get_node_type (r.1.pager.node 0) = NODE_INTERNAL
          ∧ is_node_root (r.1.pager.node 0) = true
          ∧ internal_node_num_keys (r.1.pager.node 0) = 3
          ∧ internal_children (r.1.pager.node 0) = [2, 3, 1, 6]
          ∧ [1, 2, 3, 4, 6].map (fun p => get_node_type (r.1.pager.node p))
              = List.replicate 5 NODE_LEAF
          ∧ [1, 2, 3, 4, 6].map (fun p => leaf_node_num_cells (r.1.pager.node p))
              = [7, 7, 7, 7, 7]
          ∧ node_parent (r.1.pager.node 3) = 5
          ∧ internal_children (r.1.pager.node 5) = [4, 0])
    ∧ (1000 :: overfull_ids).Nodup
    ∧ returns (session (seed_file (example_row 1000)) recycled_fresh
          (example_rows overfull_ids))
        (fun r => r.2 = List.replicate 54 EXECUTE_SUCCESS
          ∧ (INTERNAL_NODE_MAX_CELLS + 1) * LEAF_NODE_MAX_CELLS < r.2.length
          ∧ r.1.pager.num_pages = 7
          ∧ internal_children (r.1.pager.node 0) = [2, 3, 1, 6]
          ∧ [1, 2, 3, 4, 6].map (fun p => get_node_type (r.1.pager.node p))
              = List.replicate 5 NODE_LEAF
          ∧ [1, 2, 3, 4, 6].map (fun p => leaf_node_num_cells (r.1.pager.node p))
              = [9, 13, 13, 7, 13])
    ∧ session (seed_file (example_row 1000)) recycled_fresh
          (example_rows (overfull_ids ++ [793])) = .error .exit_failure := by
  refine ⟨fun _ _ _ => rfl, by decide!, by decide!, by decide!, ?_⟩
  have h : (match session (seed_file (example_row 1000)) recycled_fresh
        (example_rows (overfull_ids ++ [793])) with
      | .error .exit_failure => true
      | _ => false) = true := by decide!
  revert h
  cases session (seed_file (example_row 1000)) recycled_fresh
      (example_rows (overfull_ids ++ [793])) with
  | ok a =>
    intro h
    cases h
  | error e =>
    cases e <;> intro h <;> first | rfl | cases h

end MyDb
